import Mathlib

/-!
# Duty-cycled router MAC: `sys/net/gnrc/link_layer/dutymac/gnrc_netdev2_duty_router.c`

A shallow embedding of the router side of the duty-cycling MAC.  The module-level
variables of the C file become the fields of `State`; every C function becomes a Lean
function on `State` that keeps the C name.  Calls that leave the file (packet buffer,
retry engine, timer, message queue of the thread, radio driver) are appended to the
field `calls`, in program order.

Conventions
* `uint8_t` / `uint16_t` variables are natural numbers, reduced modulo `2^8` / `2^16`
  wherever the C code stores a computed value into them.
* `content.ptr` of a queue slot is modelled by the packet it points to (together with
  the pointer value, field `ptr`); a local packet pointer that may be `NULL` is an
  `Option`.
* `pkt_queue` is a list of `NETDEV_PKT_QUEUE_SIZE` slots and `neighbor_table` a list of
  `NEIGHBOR_TABLE_SIZE` entries.  A read outside a list yields the zero value and a
  write outside a list is dropped; the C program has no defined behaviour there.
* `assert(c)` with `c` false ends the run: the function returns `none`.
* Values returned by collaborators (radio state, CSMA / retry decisions, driver
  return codes, received packet) are arguments of the handler that consumes them.
* `DEBUG` / `printf` output is not modelled.

Layout: the embedding, then the invariants and the sample data used by the theorems,
then the lemmas, then one theorem per claim.  The read functions of the two sensor
drivers (`drivers/isl29035`, `drivers/lsm303c`) are embedded in the namespace `Sensors`.
-/

namespace DutyRouter

/-! ## Constants -/

/-- Queue capacity, `#define NETDEV_PKT_QUEUE_SIZE 64`. -/
def NETDEV_PKT_QUEUE_SIZE : Nat := 64

/-- Neighbor table capacity, `#define NEIGHBOR_TABLE_SIZE 10`. -/
def NEIGHBOR_TABLE_SIZE : Nat := 10

/-- Build configuration.  `ENABLE_BROADCAST_QUEUEING` selects the branch of the
`#if` in `msg_queue_add` (the file defines it as `0`).  The remaining fields are
constants of RIOT headers that are not part of the sources at hand; they are kept
as parameters. -/
structure Config where
  ENABLE_BROADCAST_QUEUEING : Bool
  GNRC_NETIF_HDR_FLAGS_BROADCAST : Nat
  GNRC_NETIF_HDR_FLAGS_MULTICAST : Nat
  IEEE802154_SHORT_ADDRESS_LEN : Nat
  GNRC_NETAPI_MSG_TYPE_SND : Nat
  DUTYCYCLE_SLEEP_INTERVAL : Nat
deriving DecidableEq, Repr

/-- The file as compiled: `#define ENABLE_BROADCAST_QUEUEING 0`. -/
def Config.compiled (cfg : Config) : Prop := cfg.ENABLE_BROADCAST_QUEUEING = false

instance (cfg : Config) : Decidable cfg.compiled := by
  unfold Config.compiled; infer_instance

/-- A concrete configuration with the values of the RIOT headers of that period
(broadcast flag `0x80`, multicast flag `0x40`, short address length `2`,
`GNRC_NETAPI_MSG_TYPE_SND = 0x0202`, sleep interval `500000` us). -/
def riotConfig : Config :=
  { ENABLE_BROADCAST_QUEUEING := false
    GNRC_NETIF_HDR_FLAGS_BROADCAST := 0x80
    GNRC_NETIF_HDR_FLAGS_MULTICAST := 0x40
    IEEE802154_SHORT_ADDRESS_LEN := 2
    GNRC_NETAPI_MSG_TYPE_SND := 0x0202
    DUTYCYCLE_SLEEP_INTERVAL := 500000 }

/-! ## Data model -/

/-- The fields of `gnrc_netif_hdr_t` read by this file, with the two addresses that
follow the header in memory (`gnrc_netif_hdr_get_src_addr`, `gnrc_netif_hdr_get_dst_addr`). -/
structure gnrc_netif_hdr_t where
  src_l2addr_len : Nat
  dst_l2addr_len : Nat
  flags : Nat
  rssi : Nat
  lqi : Nat
  src_addr : List Nat
  dst_addr : List Nat
deriving DecidableEq, Repr, Inhabited

/-- A packet handle `gnrc_pktsnip_t *`: the pointer value and the network interface
header the snip carries in `data`. -/
structure gnrc_pktsnip_t where
  ptr : Nat
  data : gnrc_netif_hdr_t
deriving DecidableEq, Repr, Inhabited

/-- The fields of `msg_t` used for a queue slot. -/
structure msg_t where
  sender_pid : Nat
  type : Nat
  content : gnrc_pktsnip_t
deriving DecidableEq, Repr, Inhabited

/-- The struct `link_neighbor_table_t`. -/
structure link_neighbor_table_t where
  addr : Nat
  dutycycle : Nat
  rssi : Int
  lqi : Nat
  etx : Nat
deriving DecidableEq, Repr, Inhabited

/-- Messages the thread posts to its own queue. -/
inductive Posted where
  | DUTYCYCLE_SND
  | REMOVE_QUEUE
  | CHECK_QUEUE
  | NETDEV_EVENT
  | LINK_RETRANSMIT (pkt : gnrc_pktsnip_t)
deriving DecidableEq, Repr

/-- Calls that leave the file. -/
inductive Call where
  | gnrc_pktbuf_release (pkt : gnrc_pktsnip_t)
  | send_with_retries (pkt : gnrc_pktsnip_t) (retries : Int)
  | xtimer_set (offset : Nat)
  | msg_send (m : Posted)
  | set_ack_pending (pending : Bool)
  | driver_set
  | driver_get
  | driver_isr
  | csma_send_succeeded
  | retry_send_succeeded
  | send_without_release (pkt : gnrc_pktsnip_t) (more : Bool)
  | resend_without_release (pkt : gnrc_pktsnip_t) (more : Bool)
  | pass_on_packet (pkt : gnrc_pktsnip_t)
deriving DecidableEq, Repr

/-- The module-level variables of the file, the armed flag of `timer`, the radio
option `NETOPT_ACK_PENDING` as last written through `driver->set`, and the calls made
so far. -/
structure State where
  neighbor_table : List link_neighbor_table_t
  neighbor_num : Nat
  timer_armed : Bool
  broadcasting : Bool
  pending_num : Nat
  broadcasting_num : Nat
  sending_pkt_key : Nat
  recent_dst_l2addr : Nat
  radio_busy : Bool
  rx_data_request : Bool
  retry_rexmit : Bool
  global_src_l2addr : Nat
  irq_pending : Bool
  pkt_queue : List msg_t
  ack_pending : Bool
  calls : List Call
deriving DecidableEq, Repr

/-- Slot `i` of the packet queue. -/
def State.slot (s : State) (i : Nat) : msg_t := s.pkt_queue.getD i default

/-- The state when the event loop starts: the static initialisers of the file and
the set-up code of `_gnrc_netdev_duty_thread` (queue slots tagged `0/0`, neighbor
table cleared with `dutycycle = 0xffff`, `NETOPT_ACK_PENDING` written `false`). -/
def init : State :=
  { neighbor_table :=
      List.replicate NEIGHBOR_TABLE_SIZE
        { addr := 0, dutycycle := 0xffff, rssi := 0, lqi := 0, etx := 0 }
    neighbor_num := 0
    timer_armed := false
    broadcasting := false
    pending_num := 0
    broadcasting_num := 0
    sending_pkt_key := 0xFF
    recent_dst_l2addr := 0
    radio_busy := false
    rx_data_request := false
    retry_rexmit := false
    global_src_l2addr := 0
    irq_pending := false
    pkt_queue := List.replicate NETDEV_PKT_QUEUE_SIZE default
    ack_pending := false
    calls := [] }

/-! ## Helpers of the embedding -/

/-- Byte `i` of an address (`uint8_t *`). -/
def byteAt (a : List Nat) (i : Nat) : Nat := a.getD i 0 % 256

/-- The test `hdr->flags & (GNRC_NETIF_HDR_FLAGS_BROADCAST | GNRC_NETIF_HDR_FLAGS_MULTICAST)`. -/
def is_bcast (cfg : Config) (hdr : gnrc_netif_hdr_t) : Prop :=
  hdr.flags &&& (cfg.GNRC_NETIF_HDR_FLAGS_BROADCAST ||| cfg.GNRC_NETIF_HDR_FLAGS_MULTICAST) ≠ 0

instance (cfg : Config) (hdr : gnrc_netif_hdr_t) : Decidable (is_bcast cfg hdr) := by
  unfold is_bcast; infer_instance

/-- The destination key computed in the loop of `msg_queue_send`:
`(dst[1] << 8) | dst[0]` for a short address, `(dst[7] << 8) | dst[6]` otherwise. -/
def pkt_dst_l2addr (cfg : Config) (hdr : gnrc_netif_hdr_t) : Nat :=
  if hdr.dst_l2addr_len = cfg.IEEE802154_SHORT_ADDRESS_LEN then
    ((byteAt hdr.dst_addr 1 <<< 8) ||| byteAt hdr.dst_addr 0) % 65536
  else
    ((byteAt hdr.dst_addr 7 <<< 8) ||| byteAt hdr.dst_addr 6) % 65536

/-- The source key computed in `_event_cb` on `NETDEV_EVENT_RX_COMPLETE`. -/
def pkt_src_l2addr (cfg : Config) (hdr : gnrc_netif_hdr_t) : Nat :=
  if hdr.src_l2addr_len = cfg.IEEE802154_SHORT_ADDRESS_LEN then
    ((byteAt hdr.src_addr 1 <<< 8) ||| byteAt hdr.src_addr 0) % 65536
  else
    ((byteAt hdr.src_addr 7 <<< 8) ||| byteAt hdr.src_addr 6) % 65536

/-- Conversion of an `int` to `int8_t` (two's complement wrap). -/
def toInt8 (x : Int) : Int := (x + 128) % 256 - 128

/-! ## The functions of the file -/

/-- The stub `addr_is_dutycycled`: `return false`. -/
def addr_is_dutycycled (_addr : Nat) : Bool := false

/-- The function `send_packet`: records `retransmission` in `retry_rexmit`, then posts
`LINK_RETRANSMIT` carrying the packet; `sent` is the value `msg_send` returns, and
`assert(false)` ends the run when it is not positive. -/
def send_packet (pkt : gnrc_pktsnip_t) (retransmission : Bool) (sent : Int) (s : State) :
    Option State :=
  let s1 := { s with retry_rexmit := retransmission }
  let s2 := { s1 with calls := s1.calls ++ [Call.msg_send (Posted.LINK_RETRANSMIT pkt)] }
  if sent ≤ 0 then none else some s2

/-- The shifting loop of `msg_queue_add` in broadcast-queueing mode:
`for (int i = pending_num-1; i >= broadcasting_num; i--) msg_queue[i+1] = msg_queue[i]`,
with `n` the number of iterations left and `i + 1 = lo + n`. -/
def add_shift (q : List msg_t) (lo : Nat) : Nat → List msg_t
  | 0 => q
  | n + 1 => add_shift (q.set (lo + n + 1) (q.getD (lo + n) default)) lo n

/-- The function `msg_queue_add`; the `int` result and the new state. -/
def msg_queue_add (cfg : Config) (msg : msg_t) (s : State) : Int × State :=
  if s.pending_num < NETDEV_PKT_QUEUE_SIZE then
    let pkt := msg.content
    let hdr := pkt.data
    if is_bcast cfg hdr then
      if cfg.ENABLE_BROADCAST_QUEUEING then
        let q1 :=
          if s.broadcasting_num < s.pending_num then
            add_shift s.pkt_queue s.broadcasting_num (s.pending_num - s.broadcasting_num)
          else s.pkt_queue
        let s1 := { s with pkt_queue := q1.set s.broadcasting_num msg }
        let s2 :=
          if s1.broadcasting_num = 0 then
            { s1 with
              calls := s1.calls ++ [Call.xtimer_set (cfg.DUTYCYCLE_SLEEP_INTERVAL + 100)]
              timer_armed := true
              broadcasting := true
              sending_pkt_key := 0 }
          else s1
        let s3 := { s2 with broadcasting_num := (s2.broadcasting_num + 1) % 256 }
        (1, { s3 with pending_num := (s3.pending_num + 1) % 256 })
      else
        if s.radio_busy = false then
          (1, { s with
                radio_busy := true
                pkt_queue := s.pkt_queue.set s.pending_num msg
                sending_pkt_key := s.pending_num
                pending_num := (s.pending_num + 1) % 256
                calls := s.calls ++ [Call.send_with_retries pkt 0] })
        else (0, s)
    else
      (1, { s with
            pkt_queue := s.pkt_queue.set s.pending_num msg
            pending_num := (s.pending_num + 1) % 256 })
  else (0, s)

/-- The compaction loop of `msg_queue_remove` at index `i`, with `n = pending_num - i`
iterations left:
`for (; i < pending_num; i++) { msg_queue[i] = msg_queue[i+1];
 if (msg_queue[i].sender_pid == 0 && msg_queue[i].type == 0) break; }`. -/
def remove_shift (q : List msg_t) (i : Nat) : Nat → List msg_t
  | 0 => q
  | n + 1 =>
      let q1 := q.set i (q.getD (i + 1) default)
      if (q1.getD i default).sender_pid = 0 ∧ (q1.getD i default).type = 0 then q1
      else remove_shift q1 (i + 1) n

/-- The function `msg_queue_remove`. -/
def msg_queue_remove (cfg : Config) (s : State) : State :=
  if s.sending_pkt_key = 0xFF then s
  else
    let s1 := { s with
                calls := s.calls ++ [Call.gnrc_pktbuf_release (s.slot s.sending_pkt_key).content]
                pending_num := (s.pending_num + 255) % 256 }
    if s1.pending_num ≠ 0 then
      let s2 := { s1 with pkt_queue := remove_shift s1.pkt_queue s1.sending_pkt_key (s1.pending_num - s1.sending_pkt_key) }
      if s2.broadcasting_num > 0 then
        { s2 with
          calls := s2.calls ++ [Call.xtimer_set (cfg.DUTYCYCLE_SLEEP_INTERVAL + 100)]
          timer_armed := true
          broadcasting := true
          sending_pkt_key := 0 }
      else { s2 with sending_pkt_key := 0xFF }
    else { s1 with sending_pkt_key := 0xFF }

/-- The selection predicate of `msg_queue_send` for a destination key. -/
def send_match (to_dutycycled_dest : Bool) (dst_l2addr : Nat) (pkt_dst : Nat) : Prop :=
  (to_dutycycled_dest = true ∧ pkt_dst = dst_l2addr) ∨
  (to_dutycycled_dest = false ∧ addr_is_dutycycled pkt_dst = false)

instance (t : Bool) (d k : Nat) : Decidable (send_match t d k) := by
  unfold send_match; infer_instance

/-- The scanning loop of `msg_queue_send` at index `i`, with `n = pending_num - i`
iterations left: the first index from `i` on whose destination key satisfies the
predicate, with that key. -/
def send_scan (cfg : Config) (q : List msg_t) (to_dutycycled_dest : Bool) (dst_l2addr : Nat)
    (i : Nat) : Nat → Option (Nat × Nat)
  | 0 => none
  | n + 1 =>
      let k := pkt_dst_l2addr cfg (q.getD i default).content.data
      if send_match to_dutycycled_dest dst_l2addr k then some (i, k)
      else send_scan cfg q to_dutycycled_dest dst_l2addr (i + 1) n

/-- The first part of `msg_queue_send`, up to the assertion: the packet pointer `pkt`
chosen (`none` for `NULL`) and the state with `sending_pkt_key` and
`recent_dst_l2addr` as the selection leaves them. -/
def send_select (cfg : Config) (to_dutycycled_dest : Bool) (dst_l2addr : Nat)
    (s : State) : Option gnrc_pktsnip_t × State :=
  if s.broadcasting = true then
    (some (s.slot 0).content, { s with sending_pkt_key := 0, recent_dst_l2addr := 0xFFFF })
  else
    match send_scan cfg s.pkt_queue to_dutycycled_dest dst_l2addr 0 s.pending_num with
    | some (i, k) =>
        (some (s.slot i).content, { s with recent_dst_l2addr := k, sending_pkt_key := i % 256 })
    | none => (none, s)

/-- The function `msg_queue_send`; `none` when `assert(!radio_busy)` fails. -/
def msg_queue_send (cfg : Config) (to_dutycycled_dest : Bool) (dst_l2addr : Nat)
    (s : State) : Option State :=
  let sel := send_select cfg to_dutycycled_dest dst_l2addr s
  let s1 := sel.2
  if s1.radio_busy = true then none
  else
    match sel.1 with
    | some pkt =>
        if s1.sending_pkt_key ≠ 0xFF then
          some { s1 with
                 radio_busy := true
                 calls := s1.calls ++ [Call.send_with_retries pkt (-1)] }
        else some s1
    | none => some s1

/-- The timer callback `broadcast_cb`. -/
def broadcast_cb (s : State) : State :=
  { s with
    broadcasting := false
    broadcasting_num := (s.broadcasting_num + 255) % 256
    calls := s.calls ++ [Call.msg_send Posted.REMOVE_QUEUE] }

/-- The search loop of `neighbor_table_update` at index `i`, with
`n = NEIGHBOR_TABLE_SIZE - i` iterations left: the first index from `i` on whose
`addr` equals `l2addr`. -/
def neighbor_find (t : List link_neighbor_table_t) (l2addr : Nat) (i : Nat) : Nat → Option Nat
  | 0 => none
  | n + 1 =>
      if (t.getD i default).addr = l2addr then some i
      else neighbor_find t l2addr (i + 1) n

/-- The function `neighbor_table_update`.  Arithmetic is done in `int`, the results are
converted to `int8_t` / `uint8_t` on assignment; `/` truncates toward zero. -/
def neighbor_table_update (l2addr : Nat) (hdr : gnrc_netif_hdr_t) (s : State) : State :=
  match neighbor_find s.neighbor_table l2addr 0 NEIGHBOR_TABLE_SIZE with
  | none =>
      let e := s.neighbor_table.getD s.neighbor_num default
      { s with
        neighbor_table := s.neighbor_table.set s.neighbor_num
          { e with
            addr := l2addr
            rssi := toInt8 (-94 + 3 * (hdr.rssi : Int))
            lqi := hdr.lqi % 256
            dutycycle := 1 }
        neighbor_num := (s.neighbor_num + 1) % 256 }
  | some key =>
      let e := s.neighbor_table.getD key default
      { s with
        neighbor_table := s.neighbor_table.set key
          { e with
            rssi := toInt8 (Int.tdiv (8 * e.rssi + 2 * (-94 + 3 * (hdr.rssi : Int))) 10)
            lqi := ((8 * e.lqi + 2 * hdr.lqi) / 10) % 256 } }

/-- The events of `netdev_event_t` that the driver reports to this file. -/
inductive netdev_event_t where
  | ISR
  | RX_DATAREQ
  | RX_COMPLETE
  | TX_COMPLETE
  | TX_COMPLETE_DATA_PENDING
  | TX_MEDIUM_BUSY
  | TX_NOACK
deriving DecidableEq, Repr

/-- What the collaborators return while `_event_cb` runs: the packet returned by
`recv` (with the header of its last snip), and the decisions of `csma_send_failed`
and `retry_send_failed`. -/
structure CbEnv where
  recv : gnrc_pktsnip_t
  csma_send_failed : Bool
  retry_send_failed : Bool
deriving DecidableEq, Repr, Inhabited

/-- The tail shared by the terminal TX outcomes in `_event_cb`:
`radio_busy = false`, then either `recent_dst_l2addr = 0xffff` (broadcasting) or a
`REMOVE_QUEUE` message. -/
def tx_done (s : State) : State :=
  let s1 := { s with radio_busy := false }
  if s1.broadcasting = true then { s1 with recent_dst_l2addr := 0xffff }
  else { s1 with calls := s1.calls ++ [Call.msg_send Posted.REMOVE_QUEUE] }

/-- The `case NETDEV_EVENT_TX_NOACK` block of `_event_cb`, also entered by
fall-through from `NETDEV_EVENT_TX_MEDIUM_BUSY`. -/
def tx_noack (env : CbEnv) (event : netdev_event_t) (s : State) : State :=
  let s1 :=
    if event = netdev_event_t.TX_NOACK then
      { s with calls := s.calls ++ [Call.csma_send_succeeded] }
    else s
  if env.retry_send_failed = true then s1 else tx_done s1

/-- The driver callback `_event_cb`. -/
def _event_cb (cfg : Config) (env : CbEnv) (event : netdev_event_t) (s : State) : State :=
  match event with
  | netdev_event_t.ISR =>
      { s with
        irq_pending := true
        calls := s.calls ++ [Call.msg_send Posted.NETDEV_EVENT] }
  | netdev_event_t.RX_DATAREQ => { s with rx_data_request := true }
  | netdev_event_t.RX_COMPLETE =>
      let pkt := env.recv
      let hdr := pkt.data
      let src_l2addr := pkt_src_l2addr cfg hdr
      let s1 := neighbor_table_update src_l2addr hdr s
      let s2 := { s1 with global_src_l2addr := src_l2addr }
      let s3 :=
        if s2.rx_data_request = true ∧ s2.pending_num ≠ 0 then
          { s2 with calls := s2.calls ++ [Call.msg_send Posted.DUTYCYCLE_SND] }
        else s2
      let s4 := { s3 with rx_data_request := false }
      { s4 with calls := s4.calls ++ [Call.pass_on_packet pkt] }
  | netdev_event_t.TX_COMPLETE =>
      tx_done { s with calls := s.calls ++ [Call.csma_send_succeeded, Call.retry_send_succeeded] }
  | netdev_event_t.TX_MEDIUM_BUSY =>
      if env.csma_send_failed = true then s
      else tx_noack env netdev_event_t.TX_MEDIUM_BUSY s
  | netdev_event_t.TX_NOACK => tx_noack env netdev_event_t.TX_NOACK s
  | netdev_event_t.TX_COMPLETE_DATA_PENDING => s

/-- A message received by the event loop, with the values the handler reads from its
collaborators: `rx` is the result of `is_receiving(dev)` when the handler evaluates it,
`addr` the `uint16_t` read through `content.ptr`, `res` the return value of the radio
send primitive, `ack` is `some b` when a `SET` request writes `NETOPT_ACK_PENDING := b`. -/
inductive Msg where
  | DUTYCYCLE_SND (addr : Nat)
  | REMOVE_QUEUE (rx1 rx2 : Bool)
  | CHECK_QUEUE (rx : Bool)
  | NETDEV_EVENT
  | NETAPI_SND (sender_pid : Nat) (pkt : gnrc_pktsnip_t) (rx : Bool)
  | NETAPI_SET (ack : Option Bool)
  | NETAPI_GET
  | LINK_RETRANSMIT (pkt : gnrc_pktsnip_t) (rx : Bool) (res : Int) (env : CbEnv)
  | UNKNOWN
deriving DecidableEq, Repr

/-- One iteration of the event loop of `_gnrc_netdev_duty_thread`: the `switch` on the
type of the received message. -/
def _gnrc_netdev_duty_thread (cfg : Config) (m : Msg) (s : State) : Option State :=
  match m with
  | Msg.DUTYCYCLE_SND addr =>
      if s.pending_num ≠ 0 ∧ s.radio_busy = false then msg_queue_send cfg true addr s
      else some s
  | Msg.REMOVE_QUEUE rx1 rx2 =>
      let s1 := msg_queue_remove cfg s
      if s1.pending_num ≠ 0 ∧ s1.radio_busy = false ∧ s1.recent_dst_l2addr ≠ 0xffff ∧
          s1.irq_pending = false ∧ rx1 = false then
        match msg_queue_send cfg true s1.recent_dst_l2addr s1 with
        | none => none
        | some s2 =>
            if s2.radio_busy = false ∧ s2.irq_pending = false ∧ rx2 = false then
              msg_queue_send cfg false 0 s2
            else some s2
      else if s1.pending_num = 0 then
        some { s1 with
               ack_pending := false
               calls := s1.calls ++ [Call.set_ack_pending false] }
      else some s1
  | Msg.CHECK_QUEUE rx =>
      if s.radio_busy = false ∧ s.irq_pending = false ∧ rx = false then
        msg_queue_send cfg false 0 s
      else some s
  | Msg.NETDEV_EVENT =>
      some { s with
             irq_pending := false
             calls := s.calls ++ [Call.driver_isr, Call.msg_send Posted.CHECK_QUEUE] }
  | Msg.NETAPI_SND sender_pid pkt rx =>
      let msg : msg_t :=
        { sender_pid := sender_pid, type := cfg.GNRC_NETAPI_MSG_TYPE_SND, content := pkt }
      let r := msg_queue_add cfg msg s
      if r.1 ≠ 0 then
        let s1 := { r.2 with
                    ack_pending := true
                    calls := r.2.calls ++ [Call.set_ack_pending true] }
        if s1.radio_busy = false ∧ s1.irq_pending = false ∧ rx = false then
          msg_queue_send cfg false 0 s1
        else some s1
      else some { r.2 with calls := r.2.calls ++ [Call.gnrc_pktbuf_release pkt] }
  | Msg.NETAPI_SET ack =>
      match ack with
      | some b => some { s with ack_pending := b, calls := s.calls ++ [Call.driver_set] }
      | none => some { s with calls := s.calls ++ [Call.driver_set] }
  | Msg.NETAPI_GET => some { s with calls := s.calls ++ [Call.driver_get] }
  | Msg.LINK_RETRANSMIT pkt rx res env =>
      if s.irq_pending = false ∧ rx = false then
        let more : Bool := decide (s.pending_num > 1)
        let s1 :=
          if s.retry_rexmit = true then
            { s with calls := s.calls ++ [Call.resend_without_release pkt more] }
          else { s with calls := s.calls ++ [Call.send_without_release pkt more] }
        if res < 0 then some (_event_cb cfg env netdev_event_t.TX_MEDIUM_BUSY s1)
        else some s1
      else some { s with calls := s.calls ++ [Call.msg_send (Posted.LINK_RETRANSMIT pkt)] }
  | Msg.UNKNOWN => some s

/-! ## Runs of the controller -/

/-- What can happen to the controller: the event loop handles a message, the radio
driver calls `_event_cb`, or the broadcast hold timer expires. -/
inductive Event where
  | message (m : Msg)
  | radio (env : CbEnv) (event : netdev_event_t)
  | timer_expiry
deriving DecidableEq, Repr

/-- One step.  The timer calls `broadcast_cb` only when it is armed, and it is
one-shot: armed no longer once it has fired. -/
def step (cfg : Config) (s : State) (e : Event) : Option State :=
  match e with
  | Event.message m => _gnrc_netdev_duty_thread cfg m s
  | Event.radio env event => some (_event_cb cfg env event s)
  | Event.timer_expiry =>
      if s.timer_armed = true then some (broadcast_cb { s with timer_armed := false })
      else some s

/-- A sequence of steps; `none` as soon as an assertion fails. -/
def run (cfg : Config) (s : State) : List Event → Option State
  | [] => some s
  | e :: es =>
      match step cfg s e with
      | none => none
      | some s1 => run cfg s1 es

/-- The states the controller can be in: those some sequence of events leads to from `init`. -/
def Reachable (cfg : Config) (s : State) : Prop := ∃ es : List Event, run cfg init es = some s


/-! ## Invariants, run predicates and sample data -/

/-- Invariant of the compiled configuration: the broadcast hold machinery is idle, the
queue counter is within the array, and the in-flight index is the sentinel or live. -/
structure Inv (s : State) : Prop where
  bnum : s.broadcasting_num = 0
  bcast : s.broadcasting = false
  timer : s.timer_armed = false
  pend : s.pending_num ≤ NETDEV_PKT_QUEUE_SIZE
  key : s.sending_pkt_key = 0xFF ∨ s.sending_pkt_key < s.pending_num
  qlen : s.pkt_queue.length = NETDEV_PKT_QUEUE_SIZE

/-- A unicast header: the flags contain neither `GNRC_NETIF_HDR_FLAGS_BROADCAST` nor
`GNRC_NETIF_HDR_FLAGS_MULTICAST`. -/
def hdr_unicast (cfg : Config) (hdr : gnrc_netif_hdr_t) : Prop :=
  hdr.flags &&& cfg.GNRC_NETIF_HDR_FLAGS_BROADCAST = 0 ∧
    hdr.flags &&& cfg.GNRC_NETIF_HDR_FLAGS_MULTICAST = 0

instance (cfg : Config) (hdr : gnrc_netif_hdr_t) : Decidable (hdr_unicast cfg hdr) := by
  unfold hdr_unicast; infer_instance

/-- A unicast packet for the short destination address with low byte `lo` and high
byte `hi` (no flags set). -/
def unicast_pkt (ptr lo hi : Nat) : gnrc_pktsnip_t :=
  { ptr := ptr
    data :=
      { src_l2addr_len := 2, dst_l2addr_len := 2, flags := 0, rssi := 0, lqi := 0
        src_addr := [1, 0], dst_addr := [lo, hi] } }

/-- A broadcast packet (flag `0x80` set, destination `0xffff`). -/
def broadcast_pkt (ptr : Nat) : gnrc_pktsnip_t :=
  { ptr := ptr
    data :=
      { src_l2addr_len := 2, dst_l2addr_len := 2, flags := 0x80, rssi := 0, lqi := 0
        src_addr := [1, 0], dst_addr := [0xff, 0xff] } }

/-- A sample run: a unicast is sent and completes, then a broadcast and a further
unicast are submitted. -/
def sample_events : List Event :=
  [ Event.message (Msg.NETAPI_SND 3 (unicast_pkt 1 2 0) false),
    Event.radio default netdev_event_t.TX_COMPLETE,
    Event.message (Msg.REMOVE_QUEUE false false),
    Event.message (Msg.NETAPI_SND 3 (broadcast_pkt 2) false),
    Event.message (Msg.NETAPI_SND 3 (unicast_pkt 3 1 1) false) ]

/-- The state the sample run ends in. -/
def sample_state : State := (run riotConfig init sample_events).getD init

/-- A state with a full queue: 64 unicasts submitted while the radio is receiving. -/
def full_state : State :=
  (run riotConfig init
    (List.replicate 64 (Event.message (Msg.NETAPI_SND 3 (unicast_pkt 1 2 0) true)))).getD init

/-- Two unicasts for destination `0x0101` submitted to the idle controller: the first
is in flight, the second waits behind it. -/
def two_queued : State :=
  (run riotConfig init
    [ Event.message (Msg.NETAPI_SND 3 (unicast_pkt 1 1 1) false),
      Event.message (Msg.NETAPI_SND 3 (unicast_pkt 2 1 1) false) ]).getD init

/-- The event is a `SET` request of the upper stack that writes `NETOPT_ACK_PENDING`. -/
def Event.sets_ack_pending : Event → Bool
  | Event.message (Msg.NETAPI_SET (some _)) => true
  | _ => false

/-- The event is the handling of a `REMOVE_QUEUE` message. -/
def Event.is_remove_queue : Event → Bool
  | Event.message (Msg.REMOVE_QUEUE _ _) => true
  | _ => false

/-- The radio option matches the queue: ACK-pending is set exactly when frames are
queued. -/
def AckInv (s : State) : Prop := s.ack_pending = true ↔ 0 < s.pending_num

/-- The live part of the packet queue: slots `0 .. pending_num - 1`, in order. -/
def live (s : State) : List msg_t := s.pkt_queue.take s.pending_num

/-- The condition under which `sending_pkt_key` designates an entry for removal: the
entry is a broadcast or multicast, or no entry before it has its destination key. -/
def first_of_dst (cfg : Config) (s : State) : Prop :=
  is_bcast cfg (s.slot s.sending_pkt_key).content.data ∨
    ∀ j, j < s.sending_pkt_key →
      pkt_dst_l2addr cfg (s.slot j).content.data ≠
        pkt_dst_l2addr cfg (s.slot s.sending_pkt_key).content.data

/-- Invariant behind the per-destination order: the invariant `Inv`, every live entry
carries the message type of a send request, and the in-flight index, when set,
designates a broadcast or the first entry for its destination. -/
structure Fifo (cfg : Config) (s : State) : Prop where
  inv : Inv s
  types : ∀ i, i < s.pending_num → (s.slot i).type = cfg.GNRC_NETAPI_MSG_TYPE_SND
  sel : s.sending_pkt_key ≠ 0xFF → first_of_dst cfg s

/-- How one step changes the live queue: not at all, by appending the submitted message
at the end, or by erasing the entry at `sending_pkt_key`, which then is a broadcast or
the first entry for its destination. -/
def Trans (cfg : Config) (s : State) (e : Event) (s' : State) : Prop :=
  live s' = live s ∨
    (∃ pid pkt rx, e = Event.message (Msg.NETAPI_SND pid pkt rx) ∧
      live s' = live s ++ [⟨pid, cfg.GNRC_NETAPI_MSG_TYPE_SND, pkt⟩]) ∨
    (s.sending_pkt_key < s.pending_num ∧ first_of_dst cfg s ∧
      live s' = (live s).eraseIdx s.sending_pkt_key)

/-- One unicast for destination `0x0101` submitted to the idle controller. -/
def one_queued : State :=
  (run riotConfig init [Event.message (Msg.NETAPI_SND 3 (unicast_pkt 1 1 1) false)]).getD init

/-- A second unicast for `0x0101` is submitted, then the first transmission completes. -/
def fifo_final : State :=
  (run riotConfig one_queued
    [ Event.message (Msg.NETAPI_SND 3 (unicast_pkt 2 1 1) false),
      Event.radio default netdev_event_t.TX_COMPLETE ]).getD init

/-! ## Observables of a handler and further sample data -/

/-- The call hands a frame to the retry engine. -/
def Call.is_hand_off : Call → Bool
  | Call.send_with_retries _ _ => true
  | _ => false

/-- The call is one of the two send primitives of the radio device. -/
def Call.is_radio_send : Call → Bool
  | Call.send_without_release _ _ => true
  | Call.resend_without_release _ _ => true
  | _ => false

/-- Number of frames handed to the retry engine so far. -/
def hand_offs (cs : List Call) : Nat := cs.countP Call.is_hand_off

/-- Number of calls of a send primitive of the radio device so far. -/
def radio_sends (cs : List Call) : Nat := cs.countP Call.is_radio_send

/-- Number of `REMOVE_QUEUE` messages posted so far. -/
def posted_removes (cs : List Call) : Nat := cs.count (Call.msg_send Posted.REMOVE_QUEUE)

/-- The event is a TX event reported by the radio driver. -/
def Event.is_radio_tx : Event → Bool
  | Event.radio _ netdev_event_t.TX_COMPLETE => true
  | Event.radio _ netdev_event_t.TX_COMPLETE_DATA_PENDING => true
  | Event.radio _ netdev_event_t.TX_MEDIUM_BUSY => true
  | Event.radio _ netdev_event_t.TX_NOACK => true
  | _ => false

/-- The index `neighbor_table_update` stores to: the first slot whose `addr` matches,
or `neighbor_num` when the search leaves `key == 0xFF`. -/
def neighbor_table_update_key (l2addr : Nat) (s : State) : Nat :=
  match neighbor_find s.neighbor_table l2addr 0 NEIGHBOR_TABLE_SIZE with
  | none => s.neighbor_num
  | some key => key

/-- A broadcast is submitted to the idle controller, its transmission completes and
the posted `REMOVE_QUEUE` is handled; the hold timer plays no part. -/
def broadcast_events : List Event :=
  [ Event.message (Msg.NETAPI_SND 3 (broadcast_pkt 2) false),
    Event.radio default netdev_event_t.TX_COMPLETE,
    Event.message (Msg.REMOVE_QUEUE false false) ]

/-- The configuration `riotConfig` built with `ENABLE_BROADCAST_QUEUEING` set to 1. -/
def queueingConfig : Config := { riotConfig with ENABLE_BROADCAST_QUEUEING := true }

/-- A received header with raw RSSI 30 and LQI 200. -/
def sample_rx_hdr : gnrc_netif_hdr_t :=
  { src_l2addr_len := 2, dst_l2addr_len := 2, flags := 0, rssi := 30, lqi := 200
    src_addr := [1, 0], dst_addr := [2, 0] }

/-- The table after frames from the given source addresses were received, in order. -/
def neighbor_feed (addrs : List Nat) (s : State) : State :=
  addrs.foldl (fun st a => neighbor_table_update a sample_rx_hdr st) s

/-- A unicast is queued while the radio receives, an interrupt is signalled, then a
`DUTYCYCLE_SND` for the destination of the queued frame is handled. -/
def pull_events : List Event :=
  [ Event.message (Msg.NETAPI_SND 3 (unicast_pkt 1 1 1) true),
    Event.radio default netdev_event_t.ISR,
    Event.message (Msg.DUTYCYCLE_SND 0x0101) ]

/-- An interrupt is signalled, then a broadcast is submitted while the radio receives. -/
def busy_broadcast_events : List Event :=
  [ Event.radio default netdev_event_t.ISR,
    Event.message (Msg.NETAPI_SND 3 (broadcast_pkt 2) true) ]

/-- Number of frames the controller has handed to the retry engine. -/
def State.hand_off_count (s : State) : Nat := hand_offs s.calls

/-- A unicast is queued and waits: it was submitted while the radio was receiving. -/
def waiting_state : State := (run riotConfig init (pull_events.take 1)).getD init

/-- The state after a `CHECK_QUEUE` is handled in `waiting_state` with the radio idle. -/
def check_sent : State :=
  (_gnrc_netdev_duty_thread riotConfig (Msg.CHECK_QUEUE false) waiting_state).getD init

end DutyRouter

/-!
# Sensor drivers: `drivers/isl29035/isl29035.c`, `drivers/lsm303c/lsm303c.c`,
`drivers/lsm303c/lsm303c_saul.c`

The value-computing parts of the two drivers.  What the I2C bus returns (the result
code of each transfer and the byte read) is an argument of the function that reads it.
-/

namespace Sensors

/-- Conversion of a `uint32_t` to `int`. -/
def u32_to_int (v : Nat) : Int :=
  if v % 4294967296 < 2147483648 then (v % 4294967296 : Nat) else (v % 4294967296 : Nat) - 4294967296

/-- Conversion of an `int` to `int16_t` (two's complement wrap). -/
def to_int16 (x : Int) : Int := (x + 32768) % 65536 - 32768

/-! ## ISL29035 light sensor -/

/-- Enumerator `ISL29035_RANGE_1K = 0`, range 0-1000 lux. -/
def ISL29035_RANGE_1K : Nat := 0
/-- Enumerator `ISL29035_RANGE_4K = 1`, range 0-4000 lux. -/
def ISL29035_RANGE_4K : Nat := 1
/-- Enumerator `ISL29035_RANGE_16K = 2`, range 0-16000 lux. -/
def ISL29035_RANGE_16K : Nat := 2
/-- Enumerator `ISL29035_RANGE_64K = 3`, range 0-64000 lux. -/
def ISL29035_RANGE_64K : Nat := 3

/-- The device descriptor `isl29035_t`. -/
structure isl29035_t where
  i2c : Nat
  address : Nat
  mode : Nat
  range : Nat
deriving DecidableEq, Repr

/-- What the bus returns in `isl29035_read`: result code and byte of the two
`i2c_read_reg` calls (`ISL29035_REG_LDATA`, `ISL29035_REG_HDATA`) and the result code of
the `i2c_write_reg` to `ISL29035_REG_CMD1`. -/
structure isl29035_bus where
  ret_ldata : Int
  low : Nat
  ret_hdata : Int
  high : Nat
  ret_cmd1 : Int
deriving DecidableEq, Repr

/-- The function `isl29035_read`: the `int` it returns. -/
def isl29035_read (dev : isl29035_t) (bus : isl29035_bus) : Int :=
  let low := bus.low % 256
  let high := bus.high % 256
  let ret := bus.ret_ldata + bus.ret_hdata + bus.ret_cmd1
  if ret < 3 then -1
  else
    let res := ((high <<< 8) ||| low) % 65536
    if dev.range = ISL29035_RANGE_1K then u32_to_int ((res * 1000 % 4294967296) >>> 16)
    else if dev.range = ISL29035_RANGE_4K then u32_to_int ((res * 4000 % 4294967296) >>> 16)
    else if dev.range = ISL29035_RANGE_16K then u32_to_int ((res * 16000 % 4294967296) >>> 16)
    else if dev.range = ISL29035_RANGE_64K then u32_to_int ((res * 64000 % 4294967296) >>> 16)
    else 0

/-- The upper end of the range a setting stands for, from the comments of
`isl29035_range_t`. -/
def isl29035_range_lux (range : Nat) : Nat :=
  if range = ISL29035_RANGE_1K then 1000
  else if range = ISL29035_RANGE_4K then 4000
  else if range = ISL29035_RANGE_16K then 16000
  else 64000

/-! ## LSM303C accelerometer -/

/-- Enumerator `LSM303C_ACC_SCALE_2G = 0x00`. -/
def LSM303C_ACC_SCALE_2G : Nat := 0x00
/-- Enumerator `LSM303C_ACC_SCALE_4G = 0x20`. -/
def LSM303C_ACC_SCALE_4G : Nat := 0x20
/-- Enumerator `LSM303C_ACC_SCALE_8G = 0x30`. -/
def LSM303C_ACC_SCALE_8G : Nat := 0x30

/-- The fields of the device descriptor `lsm303c_t` used here. -/
structure lsm303c_t where
  acc_address : Nat
  mag_address : Nat
  acc_scale : Nat
deriving DecidableEq, Repr

/-- The struct `lsm303c_3d_data_t`. -/
structure lsm303c_3d_data_t where
  x_axis : Int
  y_axis : Int
  z_axis : Int
deriving DecidableEq, Repr

/-- What the bus returns in `lsm303c_read_acc`: the result codes of the six data
register reads, summed by the driver, and the six bytes. -/
structure lsm303c_acc_bus where
  ret_sum : Int
  x_l : Nat
  x_h : Nat
  y_l : Nat
  y_h : Nat
  z_l : Nat
  z_h : Nat
deriving DecidableEq, Repr

/-- One axis in `lsm303c_read_acc`: `axis = low; axis |= high << 8; axis = axis >> 4`, the
stores converting to `int16_t` and `>>` being the arithmetic shift. -/
def lsm303c_axis (low high : Nat) : Int :=
  to_int16 (Int.shiftRight (to_int16 ((((high % 256) <<< 8) ||| (low % 256) : Nat) : Int)) 4)

/-- The function `lsm303c_read_acc`: the data written and the `int` returned. -/
def lsm303c_read_acc (bus : lsm303c_acc_bus) : lsm303c_3d_data_t × Int :=
  ({ x_axis := lsm303c_axis bus.x_l bus.x_h
     y_axis := lsm303c_axis bus.y_l bus.y_h
     z_axis := lsm303c_axis bus.z_l bus.z_h },
   if bus.ret_sum < 6 then -1 else 0)

/-- The units of `phydat_t` used by the SAUL read functions of this driver. -/
inductive phydat_unit where
  | UNIT_G
  | UNIT_GS
deriving DecidableEq, Repr

/-- The struct `phydat_t`: three `int16_t` values, unit and scale. -/
structure phydat_t where
  val0 : Int
  val1 : Int
  val2 : Int
  unit : phydat_unit
  scale : Int
deriving DecidableEq, Repr

/-- The factor of `read_acc`: `int fac = (1 << (d->acc_scale >> 4))`. -/
def read_acc_fac (d : lsm303c_t) : Int := ((1 <<< (d.acc_scale >>> 4) : Nat) : Int)

/-- The SAUL function `read_acc`: the `phydat_t` written and the `int` returned. -/
def read_acc (d : lsm303c_t) (bus : lsm303c_acc_bus) : phydat_t × Int :=
  let data := (lsm303c_read_acc bus).1
  let fac := read_acc_fac d
  ({ val0 := to_int16 (data.x_axis * fac)
     val1 := to_int16 (data.y_axis * fac)
     val2 := to_int16 (data.z_axis * fac)
     unit := phydat_unit.UNIT_G
     scale := -3 }, 3)

/-- A bus answer with the raw 12-bit reading 1 on the x axis (`OUT_X_L_A = 0x10`). -/
def acc_bus_one : lsm303c_acc_bus :=
  { ret_sum := 6, x_l := 0x10, x_h := 0, y_l := 0, y_h := 0, z_l := 0, z_h := 0 }

end Sensors

namespace DutyRouter


/-! ## Call sites of `msg_queue_send` and further run predicates -/

/-- The states in which the handler of message `m`, started in `s`, calls
`msg_queue_send`, in program order: one call in the `DUTYCYCLE_SND`, `CHECK_QUEUE` and
`GNRC_NETAPI_MSG_TYPE_SND` handlers, up to two in the `REMOVE_QUEUE` handler. -/
def send_sites (cfg : Config) (m : Msg) (s : State) : List State :=
  match m with
  | Msg.DUTYCYCLE_SND _ =>
      if s.pending_num ≠ 0 ∧ s.radio_busy = false then [s] else []
  | Msg.REMOVE_QUEUE rx1 rx2 =>
      let s1 := msg_queue_remove cfg s
      if s1.pending_num ≠ 0 ∧ s1.radio_busy = false ∧ s1.recent_dst_l2addr ≠ 0xffff ∧
          s1.irq_pending = false ∧ rx1 = false then
        match msg_queue_send cfg true s1.recent_dst_l2addr s1 with
        | none => [s1]
        | some s2 =>
            if s2.radio_busy = false ∧ s2.irq_pending = false ∧ rx2 = false then [s1, s2]
            else [s1]
      else []
  | Msg.CHECK_QUEUE rx =>
      if s.radio_busy = false ∧ s.irq_pending = false ∧ rx = false then [s] else []
  | Msg.NETAPI_SND sender_pid pkt rx =>
      let msg : msg_t :=
        { sender_pid := sender_pid, type := cfg.GNRC_NETAPI_MSG_TYPE_SND, content := pkt }
      let r := msg_queue_add cfg msg s
      if r.1 ≠ 0 then
        let s1 := { r.2 with
                    ack_pending := true
                    calls := r.2.calls ++ [Call.set_ack_pending true] }
        if s1.radio_busy = false ∧ s1.irq_pending = false ∧ rx = false then [s1] else []
      else []
  | _ => []

/-- The call sites of `msg_queue_send` along a run from `s`, in order. -/
def run_sites (cfg : Config) : State → List Event → List State
  | _, [] => []
  | s, e :: es =>
      (match e with
        | Event.message m => send_sites cfg m s
        | _ => []) ++
      match step cfg s e with
      | none => []
      | some s1 => run_sites cfg s1 es

/-- A broadcast was submitted to the idle controller and its transmission has
completed; the posted `REMOVE_QUEUE` is not handled yet. -/
def bcast_done_state : State := (run riotConfig init (broadcast_events.take 2)).getD init

/-- The TX event is one after which the frame is tried again: `TX_MEDIUM_BUSY` for which
`csma_send_failed` or `retry_send_failed` returns true, or `TX_NOACK` for which
`retry_send_failed` returns true. -/
def Event.is_tx_retry : Event → Bool
  | Event.radio env netdev_event_t.TX_MEDIUM_BUSY => env.csma_send_failed || env.retry_send_failed
  | Event.radio env netdev_event_t.TX_NOACK => env.retry_send_failed
  | _ => false

/-- Number of `DUTYCYCLE_SND` messages posted so far. -/
def posted_sends (cs : List Call) : Nat := cs.count (Call.msg_send Posted.DUTYCYCLE_SND)

/-- The call arms the broadcast hold timer. -/
def Call.is_xtimer_set : Call → Bool
  | Call.xtimer_set _ => true
  | _ => false

/-- Number of times the broadcast hold timer was armed so far. -/
def timer_sets (cs : List Call) : Nat := cs.countP Call.is_xtimer_set

/-- A received data frame from the short source address `0x0101`. -/
def rx_from_0101 : CbEnv :=
  { recv :=
      { ptr := 9
        data :=
          { src_l2addr_len := 2, dst_l2addr_len := 2, flags := 0, rssi := 30, lqi := 200
            src_addr := [1, 1], dst_addr := [2, 0] } }
    csma_send_failed := false
    retry_send_failed := false }

/-- Scenario S3: a frame for `0x0101` waits in the queue, the radio reports
`RX_DATAREQ` and then `RX_COMPLETE` for a frame from `0x0101`. -/
def pull_request_events : List Event :=
  [ Event.message (Msg.NETAPI_SND 3 (unicast_pkt 1 1 1) true),
    Event.radio rx_from_0101 netdev_event_t.RX_DATAREQ,
    Event.radio rx_from_0101 netdev_event_t.RX_COMPLETE ]

/-- Scenario S5: a unicast in flight is not acknowledged twice and tried again each
time, then its transmission completes. -/
def noack_events : List Event :=
  [ Event.radio ⟨default, false, true⟩ netdev_event_t.TX_NOACK,
    Event.radio ⟨default, false, true⟩ netdev_event_t.TX_NOACK ]

/-! ## Following a queue entry through a run -/

/-- Where the entry at index `i` of the packet queue is after the event `e` was handled
in state `s`.  Entries leave the queue in `msg_queue_remove` only, which the
`REMOVE_QUEUE` handler calls: with `sending_pkt_key == 0xFF` it returns at once;
otherwise the entry at `sending_pkt_key` is released (`none`: the entry followed is
gone), the entries behind it move one slot down and those before it stay. -/
def track_pos (s : State) (e : Event) (i : Nat) : Option Nat :=
  match e with
  | Event.message (Msg.REMOVE_QUEUE _ _) =>
      if s.sending_pkt_key = 0xFF then some i
      else if s.sending_pkt_key = i then none
      else if s.sending_pkt_key < i then some (i - 1)
      else some i
  | _ => some i

/-- The index, after the run `es` from `s`, of the entry that is at index `i` in `s`;
`none` once the entry has been removed. -/
def follow (cfg : Config) : State → List Event → Nat → Option Nat
  | _, [], i => some i
  | s, e :: es, i =>
      match step cfg s e with
      | none => none
      | some s1 =>
          match track_pos s e i with
          | none => none
          | some i1 => follow cfg s1 es i1

/-- Number of times the packet was passed to `gnrc_pktbuf_release` so far. -/
def releases (cs : List Call) (p : gnrc_pktsnip_t) : Nat :=
  cs.count (Call.gnrc_pktbuf_release p)

/-- What follows the submission of two frames for `0x0002` behind a frame for `0x0101`
in flight: a further frame for `0x0101` is submitted, the first transmission completes
and its `REMOVE_QUEUE` hands over the further frame; the packet released is submitted
again (its buffer address is reused), the second transmission completes and its
`REMOVE_QUEUE` hands over the resubmitted packet. -/
def reuse_events : List Event :=
  [ Event.message (Msg.NETAPI_SND 3 (unicast_pkt 4 1 1) false),
    Event.radio default netdev_event_t.TX_COMPLETE,
    Event.message (Msg.REMOVE_QUEUE false false),
    Event.message (Msg.NETAPI_SND 3 (unicast_pkt 1 1 1) false),
    Event.radio default netdev_event_t.TX_COMPLETE,
    Event.message (Msg.REMOVE_QUEUE false false) ]

/-- A frame for `0x0101` is in flight and a frame for `0x0002` waits behind it. -/
def reuse_mid : State :=
  (run riotConfig one_queued
    [Event.message (Msg.NETAPI_SND 3 (unicast_pkt 2 2 0) false)]).getD init

/-- The state after a second frame for `0x0002` was submitted and `reuse_events`
happened. -/
def reuse_final : State :=
  (run riotConfig reuse_mid
    (Event.message (Msg.NETAPI_SND 3 (unicast_pkt 3 2 0) false) :: reuse_events)).getD init

/-- Frames for `0x0101`, `0x0002` and `0x0101` were submitted, in this order, and the
transmission of the first has completed. -/
def bypass_state : State :=
  (run riotConfig init
    [ Event.message (Msg.NETAPI_SND 3 (unicast_pkt 1 1 1) false),
      Event.message (Msg.NETAPI_SND 3 (unicast_pkt 2 2 0) false),
      Event.message (Msg.NETAPI_SND 3 (unicast_pkt 3 1 1) false),
      Event.radio default netdev_event_t.TX_COMPLETE ]).getD init

/-! ## Lemmas -/

theorem getD_set_eq (q : List msg_t) (i : Nat) (a d : msg_t) (h : i < q.length) :
    (q.set i a).getD i d = a := by
  rw [List.getD_eq_getElem?_getD, List.getElem?_set]
  simp [h]

theorem getD_set_ne (q : List msg_t) (i j : Nat) (a d : msg_t) (h : i ≠ j) :
    (q.set i a).getD j d = q.getD j d := by
  rw [List.getD_eq_getElem?_getD, List.getD_eq_getElem?_getD, List.getElem?_set]
  simp [h]

theorem and_or_eq_zero (x b m : Nat) : x &&& (b ||| m) = 0 ↔ x &&& b = 0 ∧ x &&& m = 0 := by
  rw [Nat.and_or_distrib_left]
  constructor
  · intro h
    constructor
    · apply Nat.eq_of_testBit_eq
      intro i
      have := congrArg (fun n => Nat.testBit n i) h
      simp at this ⊢
      exact this.1
    · apply Nat.eq_of_testBit_eq
      intro i
      have := congrArg (fun n => Nat.testBit n i) h
      simp at this ⊢
      exact this.2
  · rintro ⟨h1, h2⟩
    rw [h1, h2]
    rfl

theorem hdr_unicast_iff (cfg : Config) (hdr : gnrc_netif_hdr_t) :
    hdr_unicast cfg hdr ↔ ¬ is_bcast cfg hdr := by
  unfold hdr_unicast is_bcast
  rw [not_not, and_or_eq_zero]

theorem shift_or_eq (hi lo : Nat) (h1 : hi < 256) (h2 : lo < 256) :
    ((hi <<< 8) ||| lo) % 65536 = hi * 256 + lo := by
  have h : 2 ^ 8 * hi + lo = 2 ^ 8 * hi ||| lo := Nat.mul_add_lt_is_or (by omega) hi
  rw [Nat.shiftLeft_eq, Nat.mul_comm hi (2 ^ 8), ← h]
  omega

theorem send_scan_some (cfg : Config) (q : List msg_t) (t : Bool) (d : Nat)
    (n i j k : Nat) (h : send_scan cfg q t d i n = some (j, k)) :
    i ≤ j ∧ j < i + n ∧ k = pkt_dst_l2addr cfg (q.getD j default).content.data ∧
      send_match t d k ∧
      ∀ m, i ≤ m → m < j → ¬ send_match t d (pkt_dst_l2addr cfg (q.getD m default).content.data) := by
  induction n generalizing i with
  | zero => simp [send_scan] at h
  | succ n ih =>
    simp only [send_scan] at h
    split at h
    · rename_i hm
      simp only [Option.some.injEq, Prod.mk.injEq] at h
      obtain ⟨rfl, rfl⟩ := h
      refine ⟨le_refl _, by omega, rfl, hm, ?_⟩
      intro m h1 h2; omega
    · rename_i hm
      obtain ⟨h1, h2, h3, h4, h5⟩ := ih (i + 1) h
      refine ⟨by omega, by omega, h3, h4, ?_⟩
      intro m hm1 hm2
      by_cases hmi : m = i
      · subst hmi; exact hm
      · exact h5 m (by omega) hm2

theorem send_scan_none (cfg : Config) (q : List msg_t) (t : Bool) (d : Nat)
    (n i : Nat) (h : send_scan cfg q t d i n = none) :
    ∀ m, i ≤ m → m < i + n → ¬ send_match t d (pkt_dst_l2addr cfg (q.getD m default).content.data) := by
  induction n generalizing i with
  | zero => intro m h1 h2; omega
  | succ n ih =>
    simp only [send_scan] at h
    split at h
    · simp at h
    · rename_i hm
      intro m hm1 hm2
      by_cases hmi : m = i
      · subst hmi; exact hm
      · exact ih (i + 1) h m (by omega) (by omega)

theorem inv_init : Inv init := by
  constructor <;> simp [init, NETDEV_PKT_QUEUE_SIZE]

theorem add_full (cfg : Config) (msg : msg_t) (s : State)
    (hp : ¬ s.pending_num < NETDEV_PKT_QUEUE_SIZE) : msg_queue_add cfg msg s = (0, s) := by
  unfold msg_queue_add
  rw [if_neg hp]

theorem add_unicast (cfg : Config) (msg : msg_t) (s : State)
    (hp : s.pending_num < NETDEV_PKT_QUEUE_SIZE) (hu : ¬ is_bcast cfg msg.content.data) :
    msg_queue_add cfg msg s =
      (1, { s with
            pkt_queue := s.pkt_queue.set s.pending_num msg
            pending_num := s.pending_num + 1 }) := by
  unfold msg_queue_add
  rw [if_pos hp]
  simp only [if_neg hu]
  have : (s.pending_num + 1) % 256 = s.pending_num + 1 := by
    unfold NETDEV_PKT_QUEUE_SIZE at hp; omega
  rw [this]

theorem add_bcast_busy (cfg : Config) (hc : cfg.compiled) (msg : msg_t) (s : State)
    (hp : s.pending_num < NETDEV_PKT_QUEUE_SIZE) (hb : is_bcast cfg msg.content.data)
    (hr : s.radio_busy = true) : msg_queue_add cfg msg s = (0, s) := by
  unfold Config.compiled at hc
  unfold msg_queue_add
  rw [if_pos hp]
  simp [if_pos hb, hc, hr]

theorem add_bcast_idle (cfg : Config) (hc : cfg.compiled) (msg : msg_t) (s : State)
    (hp : s.pending_num < NETDEV_PKT_QUEUE_SIZE) (hb : is_bcast cfg msg.content.data)
    (hr : s.radio_busy = false) :
    msg_queue_add cfg msg s =
      (1, { s with
            radio_busy := true
            pkt_queue := s.pkt_queue.set s.pending_num msg
            sending_pkt_key := s.pending_num
            pending_num := s.pending_num + 1
            calls := s.calls ++ [Call.send_with_retries msg.content 0] }) := by
  unfold Config.compiled at hc
  unfold msg_queue_add
  rw [if_pos hp]
  have : (s.pending_num + 1) % 256 = s.pending_num + 1 := by
    unfold NETDEV_PKT_QUEUE_SIZE at hp; omega
  simp [if_pos hb, hc, hr, this]

theorem inv_add (cfg : Config) (hc : cfg.compiled) (msg : msg_t) (s : State) (h : Inv s) :
    Inv (msg_queue_add cfg msg s).2 := by
  obtain ⟨h1, h2, h3, h4, h5, h6⟩ := h
  by_cases hp : s.pending_num < NETDEV_PKT_QUEUE_SIZE
  · by_cases hb : is_bcast cfg msg.content.data
    · cases hr : s.radio_busy
      · rw [add_bcast_idle cfg hc msg s hp hb hr]
        constructor <;> simp [*] <;> omega
      · rw [add_bcast_busy cfg hc msg s hp hb hr]
        exact ⟨h1, h2, h3, h4, h5, h6⟩
    · rw [add_unicast cfg msg s hp hb]
      constructor <;> simp [*] <;> omega
  · rw [add_full cfg msg s hp]
    exact ⟨h1, h2, h3, h4, h5, h6⟩

theorem remove_none (cfg : Config) (s : State) (hk : s.sending_pkt_key = 0xFF) :
    msg_queue_remove cfg s = s := by
  unfold msg_queue_remove
  rw [if_pos hk]

theorem remove_shift_length (q : List msg_t) (i n : Nat) :
    (remove_shift q i n).length = q.length := by
  induction n generalizing q i with
  | zero => rfl
  | succ n ih =>
    simp only [remove_shift]
    split
    · simp
    · rw [ih]; simp

theorem inv_remove (cfg : Config) (s : State) (h : Inv s) : Inv (msg_queue_remove cfg s) := by
  obtain ⟨h1, h2, h3, h4, h5, h6⟩ := h
  by_cases hk : s.sending_pkt_key = 0xFF
  · rw [remove_none cfg s hk]
    exact ⟨h1, h2, h3, h4, h5, h6⟩
  · have hlt : s.sending_pkt_key < s.pending_num := by
      rcases h5 with h5 | h5
      · exact absurd h5 hk
      · exact h5
    unfold NETDEV_PKT_QUEUE_SIZE at h4
    have hm : (s.pending_num + 255) % 256 = s.pending_num - 1 := by omega
    unfold msg_queue_remove
    rw [if_neg hk]
    simp only [hm, h1]
    split
    · constructor <;> simp [*, remove_shift_length, NETDEV_PKT_QUEUE_SIZE] <;> omega
    · constructor <;> simp [*, NETDEV_PKT_QUEUE_SIZE] <;> omega

theorem select_frame (cfg : Config) (t : Bool) (d : Nat) (s : State) :
    (send_select cfg t d s).2.radio_busy = s.radio_busy ∧
      (send_select cfg t d s).2.pending_num = s.pending_num ∧
      (send_select cfg t d s).2.broadcasting_num = s.broadcasting_num ∧
      (send_select cfg t d s).2.pkt_queue = s.pkt_queue ∧
      (send_select cfg t d s).2.ack_pending = s.ack_pending ∧
      (send_select cfg t d s).2.broadcasting = s.broadcasting ∧
      (send_select cfg t d s).2.timer_armed = s.timer_armed ∧
      (send_select cfg t d s).2.irq_pending = s.irq_pending ∧
      (send_select cfg t d s).2.calls = s.calls := by
  unfold send_select
  split
  · simp
  · split <;> simp

theorem select_miss (cfg : Config) (t : Bool) (d : Nat) (s : State)
    (hb : s.broadcasting = false)
    (hsc : send_scan cfg s.pkt_queue t d 0 s.pending_num = none) :
    send_select cfg t d s = (none, s) := by
  unfold send_select
  simp [hb, hsc]

theorem select_hit (cfg : Config) (t : Bool) (d : Nat) (s : State) (i k : Nat)
    (hb : s.broadcasting = false)
    (hsc : send_scan cfg s.pkt_queue t d 0 s.pending_num = some (i, k)) :
    send_select cfg t d s =
      (some (s.slot i).content, { s with recent_dst_l2addr := k, sending_pkt_key := i % 256 }) := by
  unfold send_select
  simp [hb, hsc]

theorem send_miss (cfg : Config) (t : Bool) (d : Nat) (s : State)
    (hb : s.broadcasting = false)
    (hsc : send_scan cfg s.pkt_queue t d 0 s.pending_num = none) :
    msg_queue_send cfg t d s = if s.radio_busy = true then none else some s := by
  unfold msg_queue_send
  rw [select_miss cfg t d s hb hsc]

theorem send_hit (cfg : Config) (t : Bool) (d : Nat) (s : State) (i k : Nat)
    (hb : s.broadcasting = false)
    (hsc : send_scan cfg s.pkt_queue t d 0 s.pending_num = some (i, k))
    (hi : i < 255) :
    msg_queue_send cfg t d s =
      if s.radio_busy = true then none
      else some { s with
                  recent_dst_l2addr := k
                  sending_pkt_key := i
                  radio_busy := true
                  calls := s.calls ++ [Call.send_with_retries (s.slot i).content (-1)] } := by
  have him : i % 256 = i := by omega
  have hne : ¬ i = 255 := by omega
  unfold msg_queue_send
  rw [select_hit cfg t d s i k hb hsc]
  simp [him, hne]

theorem inv_send (cfg : Config) (t : Bool) (d : Nat) (s s' : State) (h : Inv s)
    (hs : msg_queue_send cfg t d s = some s') : Inv s' := by
  obtain ⟨h1, h2, h3, h4, h5, h6⟩ := h
  unfold NETDEV_PKT_QUEUE_SIZE at h4
  cases hsc : send_scan cfg s.pkt_queue t d 0 s.pending_num with
  | none =>
    rw [send_miss cfg t d s h2 hsc] at hs
    split at hs
    · simp at hs
    · simp only [Option.some.injEq] at hs
      subst hs
      exact ⟨h1, h2, h3, h4, h5, h6⟩
  | some r =>
    obtain ⟨i, k⟩ := r
    obtain ⟨_, hi, _, _, _⟩ := send_scan_some cfg s.pkt_queue t d s.pending_num 0 i k hsc
    rw [send_hit cfg t d s i k h2 hsc (by omega)] at hs
    split at hs
    · simp at hs
    · simp only [Option.some.injEq] at hs
      subst hs
      constructor <;> simp [*, NETDEV_PKT_QUEUE_SIZE]
      omega

theorem inv_event_cb (cfg : Config) (env : CbEnv) (ev : netdev_event_t) (s : State)
    (h : Inv s) : Inv (_event_cb cfg env ev s) := by
  obtain ⟨h1, h2, h3, h4, h5, h6⟩ := h
  cases ev <;> simp only [_event_cb, tx_noack, tx_done, neighbor_table_update]
  all_goals (repeat' split)
  all_goals (constructor <;> simp_all)

theorem inv_thread (cfg : Config) (hc : cfg.compiled) (m : Msg) (s s' : State) (h : Inv s)
    (hs : _gnrc_netdev_duty_thread cfg m s = some s') : Inv s' := by
  cases m with
  | DUTYCYCLE_SND addr =>
    simp only [_gnrc_netdev_duty_thread] at hs
    split at hs
    · exact inv_send cfg _ _ _ _ h hs
    · simp only [Option.some.injEq] at hs; subst hs; exact h
  | REMOVE_QUEUE rx1 rx2 =>
    have h1 := inv_remove cfg s h
    simp only [_gnrc_netdev_duty_thread] at hs
    split at hs
    · split at hs
      · simp at hs
      · rename_i s2 hs2
        have h2 := inv_send cfg _ _ _ _ h1 hs2
        split at hs
        · exact inv_send cfg _ _ _ _ h2 hs
        · simp only [Option.some.injEq] at hs; subst hs; exact h2
    · split at hs
      · simp only [Option.some.injEq] at hs; subst hs
        obtain ⟨a1, a2, a3, a4, a5, a6⟩ := h1
        exact ⟨a1, a2, a3, a4, a5, a6⟩
      · simp only [Option.some.injEq] at hs; subst hs; exact h1
  | CHECK_QUEUE rx =>
    simp only [_gnrc_netdev_duty_thread] at hs
    split at hs
    · exact inv_send cfg _ _ _ _ h hs
    · simp only [Option.some.injEq] at hs; subst hs; exact h
  | NETDEV_EVENT =>
    simp only [_gnrc_netdev_duty_thread, Option.some.injEq] at hs; subst hs
    obtain ⟨a1, a2, a3, a4, a5, a6⟩ := h
    exact ⟨a1, a2, a3, a4, a5, a6⟩
  | NETAPI_SND pid pkt rx =>
    have h1 := inv_add cfg hc { sender_pid := pid, type := cfg.GNRC_NETAPI_MSG_TYPE_SND, content := pkt } s h
    simp only [_gnrc_netdev_duty_thread] at hs
    obtain ⟨a1, a2, a3, a4, a5, a6⟩ := h1
    split at hs
    · split at hs
      · refine inv_send cfg _ _ _ _ ?_ hs
        exact ⟨a1, a2, a3, a4, a5, a6⟩
      · simp only [Option.some.injEq] at hs; subst hs
        exact ⟨a1, a2, a3, a4, a5, a6⟩
    · simp only [Option.some.injEq] at hs; subst hs
      exact ⟨a1, a2, a3, a4, a5, a6⟩
  | NETAPI_SET ack =>
    obtain ⟨a1, a2, a3, a4, a5, a6⟩ := h
    cases ack with
    | none =>
      simp only [_gnrc_netdev_duty_thread, Option.some.injEq] at hs
      subst hs
      exact ⟨a1, a2, a3, a4, a5, a6⟩
    | some b =>
      simp only [_gnrc_netdev_duty_thread, Option.some.injEq] at hs
      subst hs
      exact ⟨a1, a2, a3, a4, a5, a6⟩
  | NETAPI_GET =>
    simp only [_gnrc_netdev_duty_thread, Option.some.injEq] at hs; subst hs
    obtain ⟨a1, a2, a3, a4, a5, a6⟩ := h
    exact ⟨a1, a2, a3, a4, a5, a6⟩
  | LINK_RETRANSMIT pkt rx res env =>
    obtain ⟨a1, a2, a3, a4, a5, a6⟩ := h
    simp only [_gnrc_netdev_duty_thread] at hs
    split at hs
    · split at hs
      · simp only [Option.some.injEq] at hs; subst hs
        apply inv_event_cb
        split <;> exact ⟨a1, a2, a3, a4, a5, a6⟩
      · simp only [Option.some.injEq] at hs; subst hs
        split <;> exact ⟨a1, a2, a3, a4, a5, a6⟩
    · simp only [Option.some.injEq] at hs; subst hs
      exact ⟨a1, a2, a3, a4, a5, a6⟩
  | UNKNOWN =>
    simp only [_gnrc_netdev_duty_thread, Option.some.injEq] at hs; subst hs; exact h

theorem inv_step (cfg : Config) (hc : cfg.compiled) (e : Event) (s s' : State) (h : Inv s)
    (hs : step cfg s e = some s') : Inv s' := by
  cases e with
  | message m => exact inv_thread cfg hc m s s' h hs
  | radio env ev =>
    simp only [step, Option.some.injEq] at hs; subst hs
    exact inv_event_cb cfg env ev s h
  | timer_expiry =>
    simp only [step, h.timer] at hs
    simp only [Bool.false_eq_true, if_false, Option.some.injEq] at hs
    subst hs; exact h

theorem inv_run (cfg : Config) (hc : cfg.compiled) (es : List Event) (s s' : State) (h : Inv s)
    (hs : run cfg s es = some s') : Inv s' := by
  induction es generalizing s with
  | nil => simp only [run, Option.some.injEq] at hs; subst hs; exact h
  | cons e es ih =>
    simp only [run] at hs
    split at hs
    · simp at hs
    · rename_i s1 h1
      exact ih s1 (inv_step cfg hc e s s1 h h1) hs

/-! ### Frame lemmas -/

theorem send_some (cfg : Config) (t : Bool) (d : Nat) (s : State) (hr : s.radio_busy = false) :
    ∃ s', msg_queue_send cfg t d s = some s' := by
  have hf := (select_frame cfg t d s).1
  unfold msg_queue_send
  generalize send_select cfg t d s = r at hf
  obtain ⟨pkt, s1⟩ := r
  simp only at hf
  simp only [hf, hr]
  cases pkt with
  | none => simp
  | some p => simp only [Bool.false_eq_true, if_false]; split <;> simp

theorem send_frame (cfg : Config) (t : Bool) (d : Nat) (s s' : State)
    (hs : msg_queue_send cfg t d s = some s') :
    s'.pending_num = s.pending_num ∧ s'.broadcasting_num = s.broadcasting_num ∧
      s'.pkt_queue = s.pkt_queue ∧ s'.ack_pending = s.ack_pending ∧
      s'.broadcasting = s.broadcasting ∧ s'.timer_armed = s.timer_armed ∧
      s'.irq_pending = s.irq_pending := by
  obtain ⟨_, f2, f3, f4, f5, f6, f7, f8, _⟩ := select_frame cfg t d s
  unfold msg_queue_send at hs
  generalize send_select cfg t d s = r at hs f2 f3 f4 f5 f6 f7 f8
  obtain ⟨pkt, s1⟩ := r
  simp only at hs f2 f3 f4 f5 f6 f7 f8
  split at hs
  · simp at hs
  · cases pkt with
    | none =>
      simp only [Option.some.injEq] at hs
      subst hs
      exact ⟨f2, f3, f4, f5, f6, f7, f8⟩
    | some p =>
      simp only at hs
      split at hs
      · simp only [Option.some.injEq] at hs
        subst hs
        exact ⟨f2, f3, f4, f5, f6, f7, f8⟩
      · simp only [Option.some.injEq] at hs
        subst hs
        exact ⟨f2, f3, f4, f5, f6, f7, f8⟩

theorem event_cb_frame (cfg : Config) (env : CbEnv) (ev : netdev_event_t) (s : State) :
    (_event_cb cfg env ev s).pending_num = s.pending_num ∧
      (_event_cb cfg env ev s).broadcasting_num = s.broadcasting_num ∧
      (_event_cb cfg env ev s).pkt_queue = s.pkt_queue ∧
      (_event_cb cfg env ev s).ack_pending = s.ack_pending ∧
      (_event_cb cfg env ev s).sending_pkt_key = s.sending_pkt_key := by
  cases ev <;> simp only [_event_cb, tx_noack, tx_done, neighbor_table_update]
  all_goals (repeat' split)
  all_goals simp_all

/-! ### No assertion fails -/

theorem thread_some (cfg : Config) (m : Msg) (s : State) :
    ∃ s', _gnrc_netdev_duty_thread cfg m s = some s' := by
  cases m with
  | DUTYCYCLE_SND addr =>
    simp only [_gnrc_netdev_duty_thread]
    split
    · rename_i h; exact send_some cfg _ _ _ h.2
    · exact ⟨_, rfl⟩
  | REMOVE_QUEUE rx1 rx2 =>
    simp only [_gnrc_netdev_duty_thread]
    split
    · rename_i h
      obtain ⟨s2, h2⟩ := send_some cfg true _ _ h.2.1
      rw [h2]
      simp only
      split
      · rename_i h3; exact send_some cfg _ _ _ h3.1
      · exact ⟨_, rfl⟩
    · split <;> exact ⟨_, rfl⟩
  | CHECK_QUEUE rx =>
    simp only [_gnrc_netdev_duty_thread]
    split
    · rename_i h; exact send_some cfg _ _ _ h.1
    · exact ⟨_, rfl⟩
  | NETDEV_EVENT => exact ⟨_, rfl⟩
  | NETAPI_SND pid pkt rx =>
    simp only [_gnrc_netdev_duty_thread]
    split
    · split
      · rename_i h; exact send_some cfg _ _ _ h.1
      · exact ⟨_, rfl⟩
    · exact ⟨_, rfl⟩
  | NETAPI_SET ack => cases ack <;> exact ⟨_, rfl⟩
  | NETAPI_GET => exact ⟨_, rfl⟩
  | LINK_RETRANSMIT pkt rx res env =>
    simp only [_gnrc_netdev_duty_thread]
    split
    · split <;> exact ⟨_, rfl⟩
    · exact ⟨_, rfl⟩
  | UNKNOWN => exact ⟨_, rfl⟩

theorem step_some (cfg : Config) (e : Event) (s : State) : ∃ s', step cfg s e = some s' := by
  cases e with
  | message m => exact thread_some cfg m s
  | radio env ev => exact ⟨_, rfl⟩
  | timer_expiry =>
    simp only [step]
    split <;> exact ⟨_, rfl⟩

theorem run_some (cfg : Config) (es : List Event) (s : State) : ∃ s', run cfg s es = some s' := by
  induction es generalizing s with
  | nil => exact ⟨s, rfl⟩
  | cons e es ih =>
    obtain ⟨s1, h1⟩ := step_some cfg e s
    obtain ⟨s2, h2⟩ := ih s1
    exact ⟨s2, by simp only [run, h1, h2]⟩

/-! ### The counters move by at most one -/

theorem add_counters (cfg : Config) (hc : cfg.compiled) (msg : msg_t) (s : State) :
    ((msg_queue_add cfg msg s).2.pending_num = s.pending_num ∨
        (msg_queue_add cfg msg s).2.pending_num = s.pending_num + 1) ∧
      (msg_queue_add cfg msg s).2.broadcasting_num = s.broadcasting_num := by
  by_cases hp : s.pending_num < NETDEV_PKT_QUEUE_SIZE
  · by_cases hb : is_bcast cfg msg.content.data
    · cases hr : s.radio_busy
      · rw [add_bcast_idle cfg hc msg s hp hb hr]; simp
      · rw [add_bcast_busy cfg hc msg s hp hb hr]; simp
    · rw [add_unicast cfg msg s hp hb]; simp
  · rw [add_full cfg msg s hp]; simp

theorem remove_counters (cfg : Config) (s : State) (h : Inv s) :
    ((msg_queue_remove cfg s).pending_num = s.pending_num ∨
        (msg_queue_remove cfg s).pending_num + 1 = s.pending_num) ∧
      (msg_queue_remove cfg s).broadcasting_num = s.broadcasting_num := by
  obtain ⟨h1, h2, h3, h4, h5, h6⟩ := h
  by_cases hk : s.sending_pkt_key = 0xFF
  · rw [remove_none cfg s hk]; simp
  · have hlt : s.sending_pkt_key < s.pending_num := by
      rcases h5 with h5 | h5
      · exact absurd h5 hk
      · exact h5
    unfold NETDEV_PKT_QUEUE_SIZE at h4
    have hm : (s.pending_num + 255) % 256 = s.pending_num - 1 := by omega
    unfold msg_queue_remove
    rw [if_neg hk]
    simp only [hm, h1]
    split
    · simp; omega
    · simp; omega

theorem thread_counters (cfg : Config) (hc : cfg.compiled) (m : Msg) (s s' : State) (h : Inv s)
    (hs : _gnrc_netdev_duty_thread cfg m s = some s') :
    (s'.pending_num = s.pending_num ∨ s'.pending_num = s.pending_num + 1 ∨
        s'.pending_num + 1 = s.pending_num) ∧
      s'.broadcasting_num = s.broadcasting_num := by
  cases m with
  | DUTYCYCLE_SND addr =>
    simp only [_gnrc_netdev_duty_thread] at hs
    split at hs
    · obtain ⟨a, b, _⟩ := send_frame cfg _ _ _ _ hs
      exact ⟨Or.inl a, b⟩
    · simp only [Option.some.injEq] at hs; subst hs; simp
  | REMOVE_QUEUE rx1 rx2 =>
    obtain ⟨r1, r2⟩ := remove_counters cfg s h
    simp only [_gnrc_netdev_duty_thread] at hs
    split at hs
    · split at hs
      · simp at hs
      · rename_i s2 hs2
        obtain ⟨a, b, _⟩ := send_frame cfg _ _ _ _ hs2
        split at hs
        · obtain ⟨a', b', _⟩ := send_frame cfg _ _ _ _ hs
          refine ⟨?_, by rw [b', b, r2]⟩
          rw [a', a]; omega
        · simp only [Option.some.injEq] at hs; subst hs
          refine ⟨?_, by rw [b, r2]⟩
          rw [a]; omega
    · split at hs
      · simp only [Option.some.injEq] at hs; subst hs
        refine ⟨?_, r2⟩
        simp only; omega
      · simp only [Option.some.injEq] at hs; subst hs
        refine ⟨?_, r2⟩
        omega
  | CHECK_QUEUE rx =>
    simp only [_gnrc_netdev_duty_thread] at hs
    split at hs
    · obtain ⟨a, b, _⟩ := send_frame cfg _ _ _ _ hs
      exact ⟨Or.inl a, b⟩
    · simp only [Option.some.injEq] at hs; subst hs; simp
  | NETDEV_EVENT =>
    simp only [_gnrc_netdev_duty_thread, Option.some.injEq] at hs; subst hs; simp
  | NETAPI_SND pid pkt rx =>
    obtain ⟨r1, r2⟩ := add_counters cfg hc
      { sender_pid := pid, type := cfg.GNRC_NETAPI_MSG_TYPE_SND, content := pkt } s
    simp only [_gnrc_netdev_duty_thread] at hs
    split at hs
    · split at hs
      · obtain ⟨a, b, _⟩ := send_frame cfg _ _ _ _ hs
        simp only at a b
        refine ⟨?_, by rw [b, r2]⟩
        rw [a]; omega
      · simp only [Option.some.injEq] at hs; subst hs
        refine ⟨?_, r2⟩
        simp only; omega
    · simp only [Option.some.injEq] at hs; subst hs
      refine ⟨?_, r2⟩
      simp only; omega
  | NETAPI_SET ack =>
    cases ack with
    | none => simp only [_gnrc_netdev_duty_thread, Option.some.injEq] at hs; subst hs; simp
    | some b => simp only [_gnrc_netdev_duty_thread, Option.some.injEq] at hs; subst hs; simp
  | NETAPI_GET =>
    simp only [_gnrc_netdev_duty_thread, Option.some.injEq] at hs; subst hs; simp
  | LINK_RETRANSMIT pkt rx res env =>
    simp only [_gnrc_netdev_duty_thread] at hs
    split at hs
    · split at hs
      · simp only [Option.some.injEq] at hs; subst hs
        obtain ⟨a, b, _⟩ := event_cb_frame cfg env netdev_event_t.TX_MEDIUM_BUSY
          (if s.retry_rexmit = true then
            { s with calls := s.calls ++ [Call.resend_without_release pkt (decide (s.pending_num > 1))] }
          else { s with calls := s.calls ++ [Call.send_without_release pkt (decide (s.pending_num > 1))] })
        rw [a, b]
        split <;> simp
      · simp only [Option.some.injEq] at hs; subst hs
        split <;> simp
    · simp only [Option.some.injEq] at hs; subst hs; simp
  | UNKNOWN =>
    simp only [_gnrc_netdev_duty_thread, Option.some.injEq] at hs; subst hs; simp

theorem step_counters (cfg : Config) (hc : cfg.compiled) (e : Event) (s s' : State) (h : Inv s)
    (hs : step cfg s e = some s') :
    (s'.pending_num = s.pending_num ∨ s'.pending_num = s.pending_num + 1 ∨
        s'.pending_num + 1 = s.pending_num) ∧
      s'.broadcasting_num = s.broadcasting_num := by
  cases e with
  | message m => exact thread_counters cfg hc m s s' h hs
  | radio env ev =>
    simp only [step, Option.some.injEq] at hs; subst hs
    obtain ⟨a, b, _⟩ := event_cb_frame cfg env ev s
    exact ⟨Or.inl a, b⟩
  | timer_expiry =>
    simp only [step, h.timer] at hs
    simp only [Bool.false_eq_true, if_false, Option.some.injEq] at hs
    subst hs; simp

/-! ### Compaction in `msg_queue_remove` -/

theorem remove_shift_getD (q : List msg_t) (i n : Nat) (hlen : i + n < q.length)
    (hz : ∀ m, i < m → m ≤ i + n →
      ¬ ((q.getD m default).sender_pid = 0 ∧ (q.getD m default).type = 0)) (j : Nat) :
    (remove_shift q i n).getD j default =
      if i ≤ j ∧ j < i + n then q.getD (j + 1) default else q.getD j default := by
  induction n generalizing q i with
  | zero =>
    simp only [remove_shift]
    rw [if_neg (by omega)]
  | succ n ih =>
    have h1 : (q.set i (q.getD (i + 1) default)).getD i default = q.getD (i + 1) default :=
      getD_set_eq _ _ _ _ (by omega)
    have hnz := hz (i + 1) (by omega) (by omega)
    simp only [remove_shift, h1]
    rw [if_neg hnz]
    rw [ih (q.set i (q.getD (i + 1) default)) (i + 1) (by simp; omega)]
    · by_cases hj : j = i
      · subst hj
        rw [if_neg (by omega), if_pos (by omega), h1]
      · by_cases hr : i ≤ j ∧ j < i + (n + 1)
        · rw [if_pos (by omega), if_pos hr]
          exact getD_set_ne _ _ _ _ _ (by omega)
        · rw [if_neg (by omega), if_neg hr]
          exact getD_set_ne _ _ _ _ _ (by omega)
    · intro m hm1 hm2
      rw [getD_set_ne _ _ _ _ _ (by omega)]
      exact hz m (by omega) (by omega)

theorem getElem?_of_getD (q : List msg_t) (j : Nat) (h : j < q.length) :
    q[j]? = some (q.getD j default) := by
  rw [List.getD_eq_getElem?_getD, List.getElem?_eq_getElem h]
  rfl

theorem remove_shift_live (q : List msg_t) (k p : Nat) (hk : k < p) (hp : p ≤ q.length)
    (hz : ∀ m, k < m → m < p →
      ¬ ((q.getD m default).sender_pid = 0 ∧ (q.getD m default).type = 0)) :
    (remove_shift q k (p - 1 - k)).take (p - 1) = (q.take p).eraseIdx k := by
  apply List.ext_getElem?
  intro j
  rw [List.getElem?_take, List.getElem?_eraseIdx, List.getElem?_take, List.getElem?_take]
  by_cases hj : j < p - 1
  · rw [if_pos hj]
    rw [getElem?_of_getD _ j (by rw [remove_shift_length]; omega)]
    rw [remove_shift_getD q k (p - 1 - k) (by omega)
      (fun m h1 h2 => hz m h1 (by omega)) j]
    by_cases hjk : j < k
    · rw [if_neg (by omega), if_pos hjk, if_pos (by omega)]
      exact (getElem?_of_getD q j (by omega)).symm
    · rw [if_pos (by omega), if_neg hjk, if_pos (by omega)]
      exact (getElem?_of_getD q (j + 1) (by omega)).symm
  · rw [if_neg hj]
    by_cases hjk : j < k
    · omega
    · rw [if_neg hjk, if_neg (by omega)]

theorem remove_in_flight_eq (cfg : Config) (s : State) (hne : ¬ s.sending_pkt_key = 0xFF)
    (hpos : 0 < s.pending_num) (hle : s.pending_num ≤ 255) :
    msg_queue_remove cfg s =
      if s.pending_num - 1 ≠ 0 ∧ 0 < s.broadcasting_num then
        { s with
          calls := s.calls ++ [Call.gnrc_pktbuf_release (s.slot s.sending_pkt_key).content,
            Call.xtimer_set (cfg.DUTYCYCLE_SLEEP_INTERVAL + 100)]
          pending_num := s.pending_num - 1
          pkt_queue := remove_shift s.pkt_queue s.sending_pkt_key
            (s.pending_num - 1 - s.sending_pkt_key)
          timer_armed := true
          broadcasting := true
          sending_pkt_key := 0 }
      else
        { s with
          calls := s.calls ++ [Call.gnrc_pktbuf_release (s.slot s.sending_pkt_key).content]
          pending_num := s.pending_num - 1
          pkt_queue := remove_shift s.pkt_queue s.sending_pkt_key
            (s.pending_num - 1 - s.sending_pkt_key)
          sending_pkt_key := 0xFF } := by
  have hm : (s.pending_num + 255) % 256 = s.pending_num - 1 := by omega
  unfold msg_queue_remove
  rw [if_neg hne]
  simp only [hm]
  by_cases h0 : s.pending_num - 1 = 0
  · have hk0 : s.pending_num - 1 - s.sending_pkt_key = 0 := by omega
    simp [h0, hk0, remove_shift]
  · by_cases hb : 0 < s.broadcasting_num
    · simp [h0, hb]
    · simp [h0, hb]

/-! ### The scan of `msg_queue_send` -/

theorem send_scan_first (cfg : Config) (q : List msg_t) (t : Bool) (d : Nat) (n i : Nat)
    (hi : i < n)
    (hm : send_match t d (pkt_dst_l2addr cfg (q.getD i default).content.data))
    (hmin : ∀ j, j < i → ¬ send_match t d (pkt_dst_l2addr cfg (q.getD j default).content.data)) :
    send_scan cfg q t d 0 n = some (i, pkt_dst_l2addr cfg (q.getD i default).content.data) := by
  cases h : send_scan cfg q t d 0 n with
  | none =>
    exact absurd hm (send_scan_none cfg q t d n 0 h i (Nat.zero_le _) (by omega))
  | some r =>
    obtain ⟨j, k⟩ := r
    obtain ⟨_, h2, h3, h4, h5⟩ := send_scan_some cfg q t d n 0 j k h
    have hji : j = i := by
      rcases Nat.lt_trichotomy j i with hlt | heq | hgt
      · rw [h3] at h4; exact absurd h4 (hmin j hlt)
      · exact heq
      · exact absurd hm (h5 i (Nat.zero_le _) hgt)
    subst hji
    rw [h3]

theorem byteAt_lt (a : List Nat) (i : Nat) : byteAt a i < 256 := by
  unfold byteAt
  omega


/-! ### ACK-pending -/

theorem remove_frame (cfg : Config) (s : State) :
    (msg_queue_remove cfg s).ack_pending = s.ack_pending ∧
      (msg_queue_remove cfg s).radio_busy = s.radio_busy ∧
      (msg_queue_remove cfg s).irq_pending = s.irq_pending ∧
      (msg_queue_remove cfg s).recent_dst_l2addr = s.recent_dst_l2addr := by
  unfold msg_queue_remove
  by_cases hk : s.sending_pkt_key = 0xFF
  · simp [hk]
  · by_cases h0 : (s.pending_num + 255) % 256 = 0
    · simp [hk, h0]
    · by_cases hb : 0 < s.broadcasting_num <;> simp [hk, h0, hb]

theorem add_result (cfg : Config) (hc : cfg.compiled) (msg : msg_t) (s : State) :
    ((msg_queue_add cfg msg s).1 = 0 ∧ (msg_queue_add cfg msg s).2 = s) ∨
      ((msg_queue_add cfg msg s).1 = 1 ∧
        (msg_queue_add cfg msg s).2.pending_num = s.pending_num + 1 ∧
        (msg_queue_add cfg msg s).2.ack_pending = s.ack_pending) := by
  by_cases hp : s.pending_num < NETDEV_PKT_QUEUE_SIZE
  · by_cases hb : is_bcast cfg msg.content.data
    · cases hr : s.radio_busy
      · rw [add_bcast_idle cfg hc msg s hp hb hr]; simp
      · rw [add_bcast_busy cfg hc msg s hp hb hr]; simp
    · rw [add_unicast cfg msg s hp hb]; simp
  · rw [add_full cfg msg s hp]; simp

theorem ack_thread (cfg : Config) (hc : cfg.compiled) (m : Msg) (s s' : State) (h : Inv s)
    (ha : AckInv s) (hm : (Event.message m).sets_ack_pending = false)
    (hs : _gnrc_netdev_duty_thread cfg m s = some s') : AckInv s' := by
  unfold AckInv at ha ⊢
  cases m with
  | DUTYCYCLE_SND addr =>
    simp only [_gnrc_netdev_duty_thread] at hs
    split at hs
    · obtain ⟨a, _, _, b, _⟩ := send_frame cfg _ _ _ _ hs
      rw [a, b]; exact ha
    · simp only [Option.some.injEq] at hs; subst hs; exact ha
  | REMOVE_QUEUE rx1 rx2 =>
    obtain ⟨r1, _⟩ := remove_counters cfg s h
    obtain ⟨r3, _⟩ := remove_frame cfg s
    simp only [_gnrc_netdev_duty_thread] at hs
    split at hs
    · rename_i hcond
      split at hs
      · simp at hs
      · rename_i s2 hs2
        obtain ⟨a, _, _, b, _⟩ := send_frame cfg _ _ _ _ hs2
        have h2 : s2.ack_pending = true ↔ 0 < s2.pending_num := by
          rw [a, b, r3]
          constructor
          · intro _; exact Nat.pos_of_ne_zero hcond.1
          · intro _; exact ha.2 (by omega)
        split at hs
        · obtain ⟨a', _, _, b', _⟩ := send_frame cfg _ _ _ _ hs
          rw [a', b']; exact h2
        · simp only [Option.some.injEq] at hs; subst hs; exact h2
    · split at hs
      · rename_i h0
        simp only [Option.some.injEq] at hs; subst hs
        simp [h0]
      · rename_i h0
        simp only [Option.some.injEq] at hs; subst hs
        rw [r3]
        constructor
        · intro _; exact Nat.pos_of_ne_zero h0
        · intro _; exact ha.2 (by omega)
  | CHECK_QUEUE rx =>
    simp only [_gnrc_netdev_duty_thread] at hs
    split at hs
    · obtain ⟨a, _, _, b, _⟩ := send_frame cfg _ _ _ _ hs
      rw [a, b]; exact ha
    · simp only [Option.some.injEq] at hs; subst hs; exact ha
  | NETDEV_EVENT =>
    simp only [_gnrc_netdev_duty_thread, Option.some.injEq] at hs; subst hs; exact ha
  | NETAPI_SND pid pkt rx =>
    have hr := add_result cfg hc
      { sender_pid := pid, type := cfg.GNRC_NETAPI_MSG_TYPE_SND, content := pkt } s
    simp only [_gnrc_netdev_duty_thread] at hs
    split at hs
    · rename_i h1
      rcases hr with ⟨r1, _⟩ | ⟨_, r2, _⟩
      · exact absurd r1 h1
      · split at hs
        · obtain ⟨a, _, _, b, _⟩ := send_frame cfg _ _ _ _ hs
          rw [a, b]
          simp only [r2]
          simp
        · simp only [Option.some.injEq] at hs; subst hs
          simp only [r2]
          simp
    · rename_i h1
      rcases hr with ⟨_, r2⟩ | ⟨r1, _, _⟩
      · simp only [Option.some.injEq] at hs; subst hs
        simp only [r2]
        exact ha
      · simp only [ne_eq, not_not] at h1
        rw [r1] at h1
        exact absurd h1 (by decide)
  | NETAPI_SET ack =>
    cases ack with
    | none => simp only [_gnrc_netdev_duty_thread, Option.some.injEq] at hs; subst hs; exact ha
    | some b => simp [Event.sets_ack_pending] at hm
  | NETAPI_GET =>
    simp only [_gnrc_netdev_duty_thread, Option.some.injEq] at hs; subst hs; exact ha
  | LINK_RETRANSMIT pkt rx res env =>
    simp only [_gnrc_netdev_duty_thread] at hs
    split at hs
    · split at hs
      · simp only [Option.some.injEq] at hs; subst hs
        obtain ⟨a, _, _, b, _⟩ := event_cb_frame cfg env netdev_event_t.TX_MEDIUM_BUSY
          (if s.retry_rexmit = true then
            { s with calls := s.calls ++ [Call.resend_without_release pkt (decide (s.pending_num > 1))] }
          else { s with calls := s.calls ++ [Call.send_without_release pkt (decide (s.pending_num > 1))] })
        rw [a, b]
        split <;> exact ha
      · simp only [Option.some.injEq] at hs; subst hs
        split <;> exact ha
    · simp only [Option.some.injEq] at hs; subst hs; exact ha
  | UNKNOWN =>
    simp only [_gnrc_netdev_duty_thread, Option.some.injEq] at hs; subst hs; exact ha

theorem ack_step (cfg : Config) (hc : cfg.compiled) (e : Event) (s s' : State) (h : Inv s)
    (ha : AckInv s) (hm : e.sets_ack_pending = false)
    (hs : step cfg s e = some s') : AckInv s' := by
  cases e with
  | message m => exact ack_thread cfg hc m s s' h ha hm hs
  | radio env ev =>
    simp only [step, Option.some.injEq] at hs; subst hs
    obtain ⟨a, _, _, b, _⟩ := event_cb_frame cfg env ev s
    unfold AckInv
    rw [a, b]; exact ha
  | timer_expiry =>
    simp only [step, h.timer] at hs
    simp only [Bool.false_eq_true, if_false, Option.some.injEq] at hs
    subst hs; exact ha

theorem ack_run (cfg : Config) (hc : cfg.compiled) (es : List Event) (s s' : State) (h : Inv s)
    (ha : AckInv s) (hm : ∀ e ∈ es, e.sets_ack_pending = false)
    (hs : run cfg s es = some s') : AckInv s' := by
  induction es generalizing s with
  | nil => simp only [run, Option.some.injEq] at hs; subst hs; exact ha
  | cons e es ih =>
    simp only [run] at hs
    split at hs
    · simp at hs
    · rename_i s1 h1
      exact ih s1 (inv_step cfg hc e s s1 h h1)
        (ack_step cfg hc e s s1 h ha (hm e (List.mem_cons_self _ _)) h1)
        (fun e' he' => hm e' (List.mem_cons_of_mem _ he')) hs


/-! ### `radio_busy` and `sending_pkt_key` -/

theorem live_set_append (q : List msg_t) (p : Nat) (m : msg_t) (hp : p < q.length) :
    (q.set p m).take (p + 1) = q.take p ++ [m] := by
  apply List.ext_getElem?
  intro j
  rw [List.getElem?_take, List.getElem?_set]
  by_cases hj : j < p
  · rw [if_pos (by omega), if_neg (by omega), List.getElem?_append_left (by simp; omega),
      List.getElem?_take, if_pos hj]
  · by_cases hjp : j = p
    · subst hjp
      rw [if_pos (by omega), if_pos rfl, if_pos hp,
        List.getElem?_append_right (by simp)]
      simp [Nat.min_eq_left (Nat.le_of_lt hp)]
    · rw [if_neg (by omega)]
      rw [List.getElem?_eq_none (by simp; omega)]

theorem live_getElem? (s : State) (j : Nat) (hj : j < s.pending_num)
    (hlen : s.pending_num ≤ s.pkt_queue.length) : (live s)[j]? = some (s.slot j) := by
  unfold live State.slot
  rw [List.getElem?_take, if_pos hj]
  exact getElem?_of_getD _ _ (by omega)

theorem live_length (s : State) (hlen : s.pending_num ≤ s.pkt_queue.length) :
    (live s).length = s.pending_num := by
  unfold live
  simp [hlen]

theorem fifo_init (cfg : Config) : Fifo cfg init := by
  refine ⟨inv_init, ?_, ?_⟩
  · intro i hi
    simp [init] at hi
  · intro h
    exact absurd rfl h

theorem fifo_congr (cfg : Config) (s s' : State) (hi : Inv s')
    (hq : s'.pkt_queue = s.pkt_queue) (hp : s'.pending_num = s.pending_num)
    (hk : s'.sending_pkt_key = s.sending_pkt_key) (hf : Fifo cfg s) : Fifo cfg s' := by
  refine ⟨hi, ?_, ?_⟩
  · intro i h
    have := hf.types i (by omega)
    simpa only [State.slot, hq] using this
  · intro h
    have := hf.sel (by rw [← hk]; exact h)
    simpa only [first_of_dst, State.slot, hq, hk] using this

theorem live_congr (s s' : State) (hq : s'.pkt_queue = s.pkt_queue)
    (hp : s'.pending_num = s.pending_num) : live s' = live s := by
  unfold live
  rw [hq, hp]

theorem fifo_add (cfg : Config) (hc : cfg.compiled) (msg : msg_t) (s : State)
    (hf : Fifo cfg s) (ht : msg.type = cfg.GNRC_NETAPI_MSG_TYPE_SND) :
    Fifo cfg (msg_queue_add cfg msg s).2 ∧
      (((msg_queue_add cfg msg s).1 = 0 ∧ (msg_queue_add cfg msg s).2 = s) ∨
        ((msg_queue_add cfg msg s).1 = 1 ∧
          live (msg_queue_add cfg msg s).2 = live s ++ [msg])) := by
  have hinv := inv_add cfg hc msg s hf.inv
  have hlen := hf.inv.qlen
  have happ : s.pending_num < NETDEV_PKT_QUEUE_SIZE →
      (s.pkt_queue.set s.pending_num msg).take (s.pending_num + 1) = live s ++ [msg] :=
    fun h => live_set_append s.pkt_queue s.pending_num msg (by omega)
  have htypes : s.pending_num < NETDEV_PKT_QUEUE_SIZE → ∀ i, i < s.pending_num + 1 →
      ((s.pkt_queue.set s.pending_num msg).getD i default).type =
        cfg.GNRC_NETAPI_MSG_TYPE_SND := by
    intro h i hi
    by_cases hip : i = s.pending_num
    · subst hip
      rw [getD_set_eq _ _ _ _ (by omega)]
      exact ht
    · rw [getD_set_ne _ _ _ _ _ (fun h => hip h.symm)]
      exact hf.types i (by omega)
  by_cases hp : s.pending_num < NETDEV_PKT_QUEUE_SIZE
  · by_cases hb : is_bcast cfg msg.content.data
    · cases hr : s.radio_busy
      · rw [add_bcast_idle cfg hc msg s hp hb hr] at hinv ⊢
        refine ⟨⟨hinv, htypes hp, ?_⟩, Or.inr ⟨rfl, happ hp⟩⟩
        intro _
        left
        show is_bcast cfg ((s.pkt_queue.set s.pending_num msg).getD s.pending_num default).content.data
        rw [getD_set_eq _ _ _ _ (by omega)]
        exact hb
      · rw [add_bcast_busy cfg hc msg s hp hb hr]
        exact ⟨hf, Or.inl ⟨rfl, rfl⟩⟩
    · rw [add_unicast cfg msg s hp hb] at hinv ⊢
      refine ⟨⟨hinv, htypes hp, ?_⟩, Or.inr ⟨rfl, happ hp⟩⟩
      intro hk
      have hk' : s.sending_pkt_key ≠ 0xFF := hk
      have hlt : s.sending_pkt_key < s.pending_num := by
        rcases hf.inv.key with h | h
        · exact absurd h hk'
        · exact h
      rcases hf.sel hk' with h | h
      · left
        show is_bcast cfg
          ((s.pkt_queue.set s.pending_num msg).getD s.sending_pkt_key default).content.data
        rw [getD_set_ne _ _ _ _ _ (by omega)]
        exact h
      · right
        intro j hj
        show pkt_dst_l2addr cfg ((s.pkt_queue.set s.pending_num msg).getD j default).content.data ≠
          pkt_dst_l2addr cfg
            ((s.pkt_queue.set s.pending_num msg).getD s.sending_pkt_key default).content.data
        have hj' : j < s.sending_pkt_key := hj
        rw [getD_set_ne _ _ _ _ _ (by omega), getD_set_ne _ _ _ _ _ (by omega)]
        exact h j hj'
  · rw [add_full cfg msg s hp]
    exact ⟨hf, Or.inl ⟨rfl, rfl⟩⟩

theorem fifo_send (cfg : Config) (t : Bool) (d : Nat) (s s' : State) (hf : Fifo cfg s)
    (hs : msg_queue_send cfg t d s = some s') : Fifo cfg s' ∧ live s' = live s := by
  have hinv := inv_send cfg t d s s' hf.inv hs
  obtain ⟨f1, _, f3, _⟩ := send_frame cfg t d s s' hs
  refine ⟨?_, live_congr s s' f3 f1⟩
  have hbc := hf.inv.bcast
  have hpend := hf.inv.pend
  unfold NETDEV_PKT_QUEUE_SIZE at hpend
  cases hsc : send_scan cfg s.pkt_queue t d 0 s.pending_num with
  | none =>
    rw [send_miss cfg t d s hbc hsc] at hs
    split at hs
    · simp at hs
    · simp only [Option.some.injEq] at hs
      subst hs
      exact hf
  | some r =>
    obtain ⟨i, k⟩ := r
    obtain ⟨_, hi, hk, hm, hmin⟩ := send_scan_some cfg s.pkt_queue t d s.pending_num 0 i k hsc
    rw [send_hit cfg t d s i k hbc hsc (by omega)] at hs
    split at hs
    · simp at hs
    · simp only [Option.some.injEq] at hs
      subst hs
      refine ⟨hinv, hf.types, ?_⟩
      intro _
      right
      intro j hj
      have hj' : j < i := hj
      show pkt_dst_l2addr cfg (s.pkt_queue.getD j default).content.data ≠
        pkt_dst_l2addr cfg (s.pkt_queue.getD i default).content.data
      rw [← hk]
      have hnm := hmin j (Nat.zero_le _) hj'
      cases t with
      | true =>
        intro heq
        apply hnm
        left
        rw [hk] at hm
        rcases hm with ⟨_, h2⟩ | ⟨h1, _⟩
        · exact ⟨rfl, by rw [heq, hk]; exact h2⟩
        · exact absurd h1 (by decide)
      | false =>
        exfalso
        apply hnm
        right
        exact ⟨rfl, rfl⟩

theorem fifo_remove (cfg : Config) (hsnd : cfg.GNRC_NETAPI_MSG_TYPE_SND ≠ 0) (s : State)
    (hf : Fifo cfg s) :
    Fifo cfg (msg_queue_remove cfg s) ∧
      (msg_queue_remove cfg s = s ∨
        (s.sending_pkt_key < s.pending_num ∧ first_of_dst cfg s ∧
          live (msg_queue_remove cfg s) = (live s).eraseIdx s.sending_pkt_key)) := by
  have hinv := inv_remove cfg s hf.inv
  by_cases hk : s.sending_pkt_key = 0xFF
  · rw [remove_none cfg s hk]
    exact ⟨hf, Or.inl rfl⟩
  · have hlt : s.sending_pkt_key < s.pending_num := by
      rcases hf.inv.key with h | h
      · exact absurd h hk
      · exact h
    have hpend := hf.inv.pend
    have hlen := hf.inv.qlen
    unfold NETDEV_PKT_QUEUE_SIZE at hpend hlen
    have hz : ∀ m, s.sending_pkt_key < m → m < s.pending_num →
        ¬ ((s.pkt_queue.getD m default).sender_pid = 0 ∧ (s.pkt_queue.getD m default).type = 0) := by
      intro m _ hm h
      have := hf.types m hm
      unfold State.slot at this
      rw [this] at h
      exact hsnd h.2
    have hlive := remove_shift_live s.pkt_queue s.sending_pkt_key s.pending_num hlt (by omega) hz
    rw [remove_in_flight_eq cfg s hk (by omega) (by omega)] at hinv ⊢
    rw [if_neg (by intro h; have := hf.inv.bnum; omega)] at hinv ⊢
    refine ⟨⟨hinv, ?_, fun h => absurd rfl h⟩, Or.inr ⟨hlt, hf.sel hk, hlive⟩⟩
    intro i hi
    have hi' : i < s.pending_num - 1 := hi
    show ((remove_shift s.pkt_queue s.sending_pkt_key
      (s.pending_num - 1 - s.sending_pkt_key)).getD i default).type = _
    rw [remove_shift_getD s.pkt_queue s.sending_pkt_key (s.pending_num - 1 - s.sending_pkt_key)
      (by omega) (fun m h1 h2 => hz m h1 (by omega)) i]
    split
    · exact hf.types (i + 1) (by omega)
    · exact hf.types i (by omega)

theorem fifo_event_cb (cfg : Config) (env : CbEnv) (ev : netdev_event_t) (s : State)
    (hf : Fifo cfg s) :
    Fifo cfg (_event_cb cfg env ev s) ∧ live (_event_cb cfg env ev s) = live s := by
  obtain ⟨a, _, c, _, e⟩ := event_cb_frame cfg env ev s
  exact ⟨fifo_congr cfg s _ (inv_event_cb cfg env ev s hf.inv) c a e hf, live_congr s _ c a⟩

theorem fifo_thread (cfg : Config) (hc : cfg.compiled)
    (hsnd : cfg.GNRC_NETAPI_MSG_TYPE_SND ≠ 0) (m : Msg) (s s' : State) (hf : Fifo cfg s)
    (hs : _gnrc_netdev_duty_thread cfg m s = some s') :
    Fifo cfg s' ∧ Trans cfg s (Event.message m) s' := by
  have hsame : ∀ s0 : State, Inv s0 → s0.pkt_queue = s.pkt_queue →
      s0.pending_num = s.pending_num → s0.sending_pkt_key = s.sending_pkt_key →
      Fifo cfg s0 ∧ Trans cfg s (Event.message m) s0 :=
    fun s0 h0 hq hp hk => ⟨fifo_congr cfg s s0 h0 hq hp hk hf, Or.inl (live_congr s s0 hq hp)⟩
  have hinv' := inv_thread cfg hc m s s' hf.inv hs
  cases m with
  | DUTYCYCLE_SND addr =>
    simp only [_gnrc_netdev_duty_thread] at hs
    split at hs
    · obtain ⟨a, b⟩ := fifo_send cfg _ _ _ _ hf hs
      exact ⟨a, Or.inl b⟩
    · simp only [Option.some.injEq] at hs; subst hs
      exact hsame s hf.inv rfl rfl rfl
  | REMOVE_QUEUE rx1 rx2 =>
    obtain ⟨r1, r2⟩ := fifo_remove cfg hsnd s hf
    have htr : ∀ s0 : State, live s0 = live (msg_queue_remove cfg s) →
        Trans cfg s (Event.message (Msg.REMOVE_QUEUE rx1 rx2)) s0 := by
      intro s0 h0
      rcases r2 with h | ⟨h1, h2, h3⟩
      · left; rw [h0, h]
      · right; right; exact ⟨h1, h2, by rw [h0, h3]⟩
    simp only [_gnrc_netdev_duty_thread] at hs
    split at hs
    · split at hs
      · simp at hs
      · rename_i s2 hs2
        obtain ⟨a2, b2⟩ := fifo_send cfg _ _ _ _ r1 hs2
        split at hs
        · obtain ⟨a3, b3⟩ := fifo_send cfg _ _ _ _ a2 hs
          exact ⟨a3, htr s' (by rw [b3, b2])⟩
        · simp only [Option.some.injEq] at hs; subst hs
          exact ⟨a2, htr _ b2⟩
    · split at hs
      · simp only [Option.some.injEq] at hs; subst hs
        exact ⟨fifo_congr cfg (msg_queue_remove cfg s) _ hinv' rfl rfl rfl r1,
          htr _ (live_congr (msg_queue_remove cfg s) _ rfl rfl)⟩
      · simp only [Option.some.injEq] at hs; subst hs
        exact ⟨r1, htr _ rfl⟩
  | CHECK_QUEUE rx =>
    simp only [_gnrc_netdev_duty_thread] at hs
    split at hs
    · obtain ⟨a, b⟩ := fifo_send cfg _ _ _ _ hf hs
      exact ⟨a, Or.inl b⟩
    · simp only [Option.some.injEq] at hs; subst hs
      exact hsame s hf.inv rfl rfl rfl
  | NETDEV_EVENT =>
    simp only [_gnrc_netdev_duty_thread, Option.some.injEq] at hs; subst hs
    exact hsame _ hinv' rfl rfl rfl
  | NETAPI_SND pid pkt rx =>
    obtain ⟨r1, r2⟩ := fifo_add cfg hc
      { sender_pid := pid, type := cfg.GNRC_NETAPI_MSG_TYPE_SND, content := pkt } s hf rfl
    have htr : ∀ s0 : State,
        live s0 = live (msg_queue_add cfg
          { sender_pid := pid, type := cfg.GNRC_NETAPI_MSG_TYPE_SND, content := pkt } s).2 →
        Trans cfg s (Event.message (Msg.NETAPI_SND pid pkt rx)) s0 := by
      intro s0 h0
      rcases r2 with ⟨_, h⟩ | ⟨_, h⟩
      · left; rw [h0, h]
      · right; left; exact ⟨pid, pkt, rx, rfl, by rw [h0, h]⟩
    simp only [_gnrc_netdev_duty_thread] at hs
    split at hs
    · split at hs
      · have hf1 : Fifo cfg
            { (msg_queue_add cfg
                { sender_pid := pid, type := cfg.GNRC_NETAPI_MSG_TYPE_SND, content := pkt } s).2 with
              ack_pending := true
              calls := (msg_queue_add cfg
                { sender_pid := pid, type := cfg.GNRC_NETAPI_MSG_TYPE_SND, content := pkt } s).2.calls ++
                  [Call.set_ack_pending true] } :=
          fifo_congr cfg (msg_queue_add cfg
            { sender_pid := pid, type := cfg.GNRC_NETAPI_MSG_TYPE_SND, content := pkt } s).2 _ (by
            obtain ⟨a1, a2, a3, a4, a5, a6⟩ := r1.inv
            exact ⟨a1, a2, a3, a4, a5, a6⟩) rfl rfl rfl r1
        obtain ⟨a, b⟩ := fifo_send cfg _ _ _ _ hf1 hs
        exact ⟨a, htr s' (by rw [b]; exact live_congr (msg_queue_add cfg
            { sender_pid := pid, type := cfg.GNRC_NETAPI_MSG_TYPE_SND, content := pkt } s).2 _ rfl rfl)⟩
      · simp only [Option.some.injEq] at hs; subst hs
        exact ⟨fifo_congr cfg (msg_queue_add cfg
            { sender_pid := pid, type := cfg.GNRC_NETAPI_MSG_TYPE_SND, content := pkt } s).2 _ hinv' rfl rfl rfl r1,
          htr _ (live_congr (msg_queue_add cfg
            { sender_pid := pid, type := cfg.GNRC_NETAPI_MSG_TYPE_SND, content := pkt } s).2 _ rfl rfl)⟩
    · simp only [Option.some.injEq] at hs; subst hs
      exact ⟨fifo_congr cfg (msg_queue_add cfg
            { sender_pid := pid, type := cfg.GNRC_NETAPI_MSG_TYPE_SND, content := pkt } s).2 _ hinv' rfl rfl rfl r1,
        htr _ (live_congr (msg_queue_add cfg
            { sender_pid := pid, type := cfg.GNRC_NETAPI_MSG_TYPE_SND, content := pkt } s).2 _ rfl rfl)⟩
  | NETAPI_SET ack =>
    cases ack with
    | none =>
      simp only [_gnrc_netdev_duty_thread, Option.some.injEq] at hs; subst hs
      exact hsame _ hinv' rfl rfl rfl
    | some b =>
      simp only [_gnrc_netdev_duty_thread, Option.some.injEq] at hs; subst hs
      exact hsame _ hinv' rfl rfl rfl
  | NETAPI_GET =>
    simp only [_gnrc_netdev_duty_thread, Option.some.injEq] at hs; subst hs
    exact hsame _ hinv' rfl rfl rfl
  | LINK_RETRANSMIT pkt rx res env =>
    simp only [_gnrc_netdev_duty_thread] at hs
    split at hs
    · split at hs
      · simp only [Option.some.injEq] at hs; subst hs
        obtain ⟨a, _, c, _, e⟩ := event_cb_frame cfg env netdev_event_t.TX_MEDIUM_BUSY
          (if s.retry_rexmit = true then
            { s with calls := s.calls ++ [Call.resend_without_release pkt (decide (s.pending_num > 1))] }
          else { s with calls := s.calls ++ [Call.send_without_release pkt (decide (s.pending_num > 1))] })
        refine hsame _ hinv' ?_ ?_ ?_
        · rw [c]; split <;> rfl
        · rw [a]; split <;> rfl
        · rw [e]; split <;> rfl
      · simp only [Option.some.injEq] at hs; subst hs
        refine hsame _ hinv' ?_ ?_ ?_ <;> (split <;> rfl)
    · simp only [Option.some.injEq] at hs; subst hs
      exact hsame _ hinv' rfl rfl rfl
  | UNKNOWN =>
    simp only [_gnrc_netdev_duty_thread, Option.some.injEq] at hs; subst hs
    exact hsame s hf.inv rfl rfl rfl

theorem fifo_step (cfg : Config) (hc : cfg.compiled)
    (hsnd : cfg.GNRC_NETAPI_MSG_TYPE_SND ≠ 0) (e : Event) (s s' : State) (hf : Fifo cfg s)
    (hs : step cfg s e = some s') : Fifo cfg s' ∧ Trans cfg s e s' := by
  cases e with
  | message m => exact fifo_thread cfg hc hsnd m s s' hf hs
  | radio env ev =>
    simp only [step, Option.some.injEq] at hs; subst hs
    obtain ⟨a, b⟩ := fifo_event_cb cfg env ev s hf
    exact ⟨a, Or.inl b⟩
  | timer_expiry =>
    simp only [step, hf.inv.timer] at hs
    simp only [Bool.false_eq_true, if_false, Option.some.injEq] at hs
    subst hs
    exact ⟨hf, Or.inl rfl⟩

theorem fifo_run (cfg : Config) (hc : cfg.compiled)
    (hsnd : cfg.GNRC_NETAPI_MSG_TYPE_SND ≠ 0) (es : List Event) (s s' : State)
    (hf : Fifo cfg s) (hs : run cfg s es = some s') : Fifo cfg s' := by
  induction es generalizing s with
  | nil => simp only [run, Option.some.injEq] at hs; subst hs; exact hf
  | cons e es ih =>
    simp only [run] at hs
    split at hs
    · simp at hs
    · rename_i s1 h1
      exact ih s1 (fifo_step cfg hc hsnd e s s1 hf h1).1 hs

theorem snd_accepted_live (cfg : Config) (hc : cfg.compiled) (pid : Nat) (pkt : gnrc_pktsnip_t)
    (rx : Bool) (s s' : State) (hf : Fifo cfg s)
    (hacc : (msg_queue_add cfg ⟨pid, cfg.GNRC_NETAPI_MSG_TYPE_SND, pkt⟩ s).1 = 1)
    (hs : step cfg s (Event.message (Msg.NETAPI_SND pid pkt rx)) = some s') :
    live s' = live s ++ [⟨pid, cfg.GNRC_NETAPI_MSG_TYPE_SND, pkt⟩] := by
  obtain ⟨r1, r2⟩ := fifo_add cfg hc ⟨pid, cfg.GNRC_NETAPI_MSG_TYPE_SND, pkt⟩ s hf rfl
  have hl : live (msg_queue_add cfg ⟨pid, cfg.GNRC_NETAPI_MSG_TYPE_SND, pkt⟩ s).2 =
      live s ++ [⟨pid, cfg.GNRC_NETAPI_MSG_TYPE_SND, pkt⟩] := by
    rcases r2 with ⟨h, _⟩ | ⟨_, h⟩
    · rw [h] at hacc; exact absurd hacc (by decide)
    · exact h
  simp only [step, _gnrc_netdev_duty_thread] at hs
  rw [if_pos (by rw [hacc]; decide)] at hs
  split at hs
  · obtain ⟨_, _, c, _⟩ := send_frame cfg _ _ _ _ hs
    obtain ⟨a, _⟩ := send_frame cfg _ _ _ _ hs
    rw [← hl]
    exact live_congr (msg_queue_add cfg ⟨pid, cfg.GNRC_NETAPI_MSG_TYPE_SND, pkt⟩ s).2 _ c a
  · simp only [Option.some.injEq] at hs; subst hs
    rw [← hl]
    exact live_congr (msg_queue_add cfg ⟨pid, cfg.GNRC_NETAPI_MSG_TYPE_SND, pkt⟩ s).2 _ rfl rfl

theorem send_first_of_dst (cfg : Config) (t : Bool) (d : Nat) (s s' : State) (hi : Inv s)
    (hs : msg_queue_send cfg t d s = some s') (hb : s'.radio_busy = true) :
    ∀ j, j < s'.sending_pkt_key →
      pkt_dst_l2addr cfg (s'.slot j).content.data ≠
        pkt_dst_l2addr cfg (s'.slot s'.sending_pkt_key).content.data := by
  have hbc := hi.bcast
  have hpend := hi.pend
  unfold NETDEV_PKT_QUEUE_SIZE at hpend
  cases hsc : send_scan cfg s.pkt_queue t d 0 s.pending_num with
  | none =>
    rw [send_miss cfg t d s hbc hsc] at hs
    split at hs
    · simp at hs
    · rename_i hnb
      simp only [Option.some.injEq] at hs
      subst hs
      exact absurd hb hnb
  | some r =>
    obtain ⟨i, k⟩ := r
    obtain ⟨_, hi', hk, hm, hmin⟩ := send_scan_some cfg s.pkt_queue t d s.pending_num 0 i k hsc
    rw [send_hit cfg t d s i k hbc hsc (by omega)] at hs
    split at hs
    · simp at hs
    · simp only [Option.some.injEq] at hs
      subst hs
      intro j hj
      have hj' : j < i := hj
      show pkt_dst_l2addr cfg (s.pkt_queue.getD j default).content.data ≠
        pkt_dst_l2addr cfg (s.pkt_queue.getD i default).content.data
      rw [← hk]
      have hnm := hmin j (Nat.zero_le _) hj'
      cases t with
      | true =>
        intro heq
        apply hnm
        left
        rw [hk] at hm
        rcases hm with ⟨_, h2⟩ | ⟨h1, _⟩
        · exact ⟨rfl, by rw [heq, hk]; exact h2⟩
        · exact absurd h1 (by decide)
      | false =>
        exfalso
        apply hnm
        right
        exact ⟨rfl, rfl⟩


/-! ### Scenario lemmas -/

theorem pkt_dst_short (cfg : Config) (hdr : gnrc_netif_hdr_t)
    (hlen : hdr.dst_l2addr_len = cfg.IEEE802154_SHORT_ADDRESS_LEN) :
    pkt_dst_l2addr cfg hdr = byteAt hdr.dst_addr 1 * 256 + byteAt hdr.dst_addr 0 := by
  unfold pkt_dst_l2addr
  rw [if_pos hlen, shift_or_eq _ _ (byteAt_lt _ _) (byteAt_lt _ _)]

theorem send_always_on (cfg : Config) (d : Nat) (s : State) (hb : s.broadcasting = false)
    (hr : s.radio_busy = false) (hp0 : 0 < s.pending_num) :
    msg_queue_send cfg false d s =
      some { s with
             recent_dst_l2addr := pkt_dst_l2addr cfg (s.slot 0).content.data
             sending_pkt_key := 0
             radio_busy := true
             calls := s.calls ++ [Call.send_with_retries (s.slot 0).content (-1)] } := by
  have hsc := send_scan_first cfg s.pkt_queue false d s.pending_num 0 hp0
    (Or.inr ⟨rfl, rfl⟩) (fun j hj => absurd hj (Nat.not_lt_zero j))
  rw [send_hit cfg false d s 0 _ hb hsc (by decide), hr]
  rfl


/-! ### Broadcast hold -/

theorem add_shift_length (q : List msg_t) (lo n : Nat) :
    (add_shift q lo n).length = q.length := by
  induction n generalizing q with
  | zero => rfl
  | succ n ih =>
    simp only [add_shift]
    rw [ih]
    simp

theorem add_bcast_queueing (cfg : Config) (hq : cfg.ENABLE_BROADCAST_QUEUEING = true)
    (msg : msg_t) (s : State) (hp : s.pending_num < NETDEV_PKT_QUEUE_SIZE)
    (hb : is_bcast cfg msg.content.data) (hbn : s.broadcasting_num = 0) :
    msg_queue_add cfg msg s =
      (1, { s with
            pkt_queue :=
              (if 0 < s.pending_num then add_shift s.pkt_queue 0 s.pending_num
                else s.pkt_queue).set 0 msg
            calls := s.calls ++ [Call.xtimer_set (cfg.DUTYCYCLE_SLEEP_INTERVAL + 100)]
            timer_armed := true
            broadcasting := true
            sending_pkt_key := 0
            broadcasting_num := 1
            pending_num := s.pending_num + 1 }) := by
  have hm : (s.pending_num + 1) % 256 = s.pending_num + 1 := by
    unfold NETDEV_PKT_QUEUE_SIZE at hp; omega
  unfold msg_queue_add
  rw [if_pos hp]
  simp [hb, hq, hbn, hm]

theorem event_cb_tx_held (cfg : Config) (env : CbEnv) (ev : netdev_event_t) (s : State)
    (hb : s.broadcasting = true) (htx : (Event.radio env ev).is_radio_tx = true) :
    (_event_cb cfg env ev s).pkt_queue = s.pkt_queue ∧
      (_event_cb cfg env ev s).pending_num = s.pending_num ∧
      (_event_cb cfg env ev s).broadcasting_num = s.broadcasting_num ∧
      (_event_cb cfg env ev s).sending_pkt_key = s.sending_pkt_key ∧
      (_event_cb cfg env ev s).broadcasting = true ∧
      (_event_cb cfg env ev s).timer_armed = s.timer_armed ∧
      posted_removes (_event_cb cfg env ev s).calls = posted_removes s.calls := by
  cases ev <;> simp only [Event.is_radio_tx] at htx
  all_goals simp only [_event_cb, tx_noack, tx_done, posted_removes]
  all_goals (repeat' split)
  all_goals simp_all

theorem run_tx_held (cfg : Config) (es : List Event) (s s' : State)
    (hb : s.broadcasting = true) (hes : ∀ e ∈ es, e.is_radio_tx = true)
    (hs : run cfg s es = some s') :
    s'.pkt_queue = s.pkt_queue ∧ s'.pending_num = s.pending_num ∧
      s'.broadcasting_num = s.broadcasting_num ∧ s'.sending_pkt_key = s.sending_pkt_key ∧
      s'.broadcasting = true ∧ s'.timer_armed = s.timer_armed ∧
      posted_removes s'.calls = posted_removes s.calls := by
  induction es generalizing s with
  | nil =>
    simp only [run, Option.some.injEq] at hs
    subst hs
    exact ⟨rfl, rfl, rfl, rfl, hb, rfl, rfl⟩
  | cons e es ih =>
    have he := hes e (List.mem_cons_self _ _)
    cases e with
    | message m => simp [Event.is_radio_tx] at he
    | timer_expiry => simp [Event.is_radio_tx] at he
    | radio env ev =>
      simp only [run, step] at hs
      obtain ⟨a1, a2, a3, a4, a5, a6, a7⟩ := event_cb_tx_held cfg env ev s hb he
      obtain ⟨b1, b2, b3, b4, b5, b6, b7⟩ := ih (_event_cb cfg env ev s) a5
        (fun e' he' => hes e' (List.mem_cons_of_mem _ he')) hs
      exact ⟨by rw [b1, a1], by rw [b2, a2], by rw [b3, a3], by rw [b4, a4], b5,
        by rw [b6, a6], by rw [b7, a7]⟩

/-! ### Neighbor table -/

theorem neighbor_find_some (t : List link_neighbor_table_t) (a : Nat) (n i k : Nat)
    (h : neighbor_find t a i n = some k) :
    i ≤ k ∧ k < i + n ∧ (t.getD k default).addr = a ∧
      ∀ j, i ≤ j → j < k → (t.getD j default).addr ≠ a := by
  induction n generalizing i with
  | zero => simp [neighbor_find] at h
  | succ n ih =>
    simp only [neighbor_find] at h
    split at h
    · rename_i hm
      simp only [Option.some.injEq] at h
      subst h
      exact ⟨le_refl _, by omega, hm, fun j h1 h2 => by omega⟩
    · rename_i hm
      obtain ⟨h1, h2, h3, h4⟩ := ih (i + 1) h
      refine ⟨by omega, by omega, h3, ?_⟩
      intro j hj1 hj2
      by_cases hji : j = i
      · subst hji; exact hm
      · exact h4 j (by omega) hj2

theorem neighbor_find_none (t : List link_neighbor_table_t) (a : Nat) (n i : Nat)
    (h : neighbor_find t a i n = none) :
    ∀ j, i ≤ j → j < i + n → (t.getD j default).addr ≠ a := by
  induction n generalizing i with
  | zero => intro j h1 h2; omega
  | succ n ih =>
    simp only [neighbor_find] at h
    split at h
    · simp at h
    · rename_i hm
      intro j hj1 hj2
      by_cases hji : j = i
      · subst hji; exact hm
      · exact ih (i + 1) h j (by omega) (by omega)

theorem neighbor_find_first (t : List link_neighbor_table_t) (a : Nat) (k : Nat)
    (hk : k < NEIGHBOR_TABLE_SIZE) (hat : (t.getD k default).addr = a)
    (hmin : ∀ j, j < k → (t.getD j default).addr ≠ a) :
    neighbor_find t a 0 NEIGHBOR_TABLE_SIZE = some k := by
  cases h : neighbor_find t a 0 NEIGHBOR_TABLE_SIZE with
  | none =>
    exact absurd hat (neighbor_find_none t a _ 0 h k (Nat.zero_le _) (by omega))
  | some r =>
    obtain ⟨_, _, h3, h4⟩ := neighbor_find_some t a _ 0 r h
    rcases Nat.lt_trichotomy r k with hlt | heq | hgt
    · exact absurd h3 (hmin r hlt)
    · rw [heq]
    · exact absurd hat (h4 k (Nat.zero_le _) hgt)

theorem nt_getD_set_eq (t : List link_neighbor_table_t) (i : Nat)
    (a d : link_neighbor_table_t) (h : i < t.length) : (t.set i a).getD i d = a := by
  rw [List.getD_eq_getElem?_getD, List.getElem?_set]
  simp [h]

theorem nt_getD_set_ne (t : List link_neighbor_table_t) (i j : Nat)
    (a d : link_neighbor_table_t) (h : i ≠ j) : (t.set i a).getD j d = t.getD j d := by
  rw [List.getD_eq_getElem?_getD, List.getD_eq_getElem?_getD, List.getElem?_set]
  simp [h]

/-! ### Where transmissions start -/

theorem hand_offs_append (a b : List Call) : hand_offs (a ++ b) = hand_offs a + hand_offs b := by
  unfold hand_offs
  exact List.countP_append _ _ _

theorem radio_sends_append (a b : List Call) :
    radio_sends (a ++ b) = radio_sends a + radio_sends b := by
  unfold radio_sends
  exact List.countP_append _ _ _

theorem send_idle (cfg : Config) (t : Bool) (d : Nat) (s s' : State)
    (hs : msg_queue_send cfg t d s = some s') : s.radio_busy = false := by
  have hf := (select_frame cfg t d s).1
  unfold msg_queue_send at hs
  generalize send_select cfg t d s = r at hs hf
  obtain ⟨pkt, s1⟩ := r
  simp only at hs hf
  split at hs
  · simp at hs
  · rename_i h
    rw [← hf]
    simpa using h

theorem send_radio_sends (cfg : Config) (t : Bool) (d : Nat) (s s' : State)
    (hs : msg_queue_send cfg t d s = some s') : radio_sends s'.calls = radio_sends s.calls := by
  have hf := (select_frame cfg t d s).2.2.2.2.2.2.2.2
  unfold msg_queue_send at hs
  generalize send_select cfg t d s = r at hs hf
  obtain ⟨pkt, s1⟩ := r
  simp only at hs hf
  split at hs
  · simp at hs
  · cases pkt with
    | none =>
      simp only [Option.some.injEq] at hs
      subst hs
      rw [hf]
    | some p =>
      simp only at hs
      split at hs
      · simp only [Option.some.injEq] at hs
        subst hs
        simp only [radio_sends_append, hf]
        simp [radio_sends, Call.is_radio_send]
      · simp only [Option.some.injEq] at hs
        subst hs
        rw [hf]

theorem remove_calls (cfg : Config) (s : State) :
    hand_offs (msg_queue_remove cfg s).calls = hand_offs s.calls ∧
      radio_sends (msg_queue_remove cfg s).calls = radio_sends s.calls := by
  unfold msg_queue_remove
  by_cases hk : s.sending_pkt_key = 0xFF
  · simp [hk]
  · by_cases h0 : (s.pending_num + 255) % 256 = 0
    · simp [hk, h0, hand_offs_append, radio_sends_append, hand_offs, radio_sends,
        Call.is_hand_off, Call.is_radio_send]
    · by_cases hb : 0 < s.broadcasting_num <;>
        simp [hk, h0, hb, hand_offs_append, radio_sends_append, hand_offs, radio_sends,
          Call.is_hand_off, Call.is_radio_send]

theorem event_cb_calls (cfg : Config) (env : CbEnv) (ev : netdev_event_t) (s : State) :
    hand_offs (_event_cb cfg env ev s).calls = hand_offs s.calls ∧
      radio_sends (_event_cb cfg env ev s).calls = radio_sends s.calls := by
  cases ev <;> simp only [_event_cb, tx_noack, tx_done, neighbor_table_update]
  all_goals (repeat' split)
  all_goals simp_all [hand_offs_append, radio_sends_append, hand_offs, radio_sends,
    Call.is_hand_off, Call.is_radio_send]

theorem add_calls (cfg : Config) (hc : cfg.compiled) (msg : msg_t) (s : State) :
    radio_sends (msg_queue_add cfg msg s).2.calls = radio_sends s.calls ∧
      (hand_offs s.calls < hand_offs (msg_queue_add cfg msg s).2.calls →
        s.radio_busy = false ∧ is_bcast cfg msg.content.data ∧
          (msg_queue_add cfg msg s).2.radio_busy = true) ∧
      (hand_offs (msg_queue_add cfg msg s).2.calls = hand_offs s.calls ∨
        hand_offs (msg_queue_add cfg msg s).2.calls = hand_offs s.calls + 1) ∧
      (msg_queue_add cfg msg s).2.irq_pending = s.irq_pending ∧
      ((msg_queue_add cfg msg s).2.radio_busy = false → s.radio_busy = false) := by
  by_cases hp : s.pending_num < NETDEV_PKT_QUEUE_SIZE
  · by_cases hb : is_bcast cfg msg.content.data
    · cases hr : s.radio_busy
      · rw [add_bcast_idle cfg hc msg s hp hb hr]
        simp [hand_offs_append, radio_sends_append, hand_offs, radio_sends,
          Call.is_hand_off, Call.is_radio_send, hb]
      · rw [add_bcast_busy cfg hc msg s hp hb hr]
        simp [hr]
    · rw [add_unicast cfg msg s hp hb]
      simp
  · rw [add_full cfg msg s hp]
    simp

theorem posted_removes_append (a b : List Call) :
    posted_removes (a ++ b) = posted_removes a + posted_removes b := by
  simp [posted_removes, List.count_append]

theorem retry_step (cfg : Config) (s : State) (e : Event) (h : e.is_tx_retry = true) :
    ∃ l : List Call, step cfg s e = some { s with calls := s.calls ++ l } ∧
      posted_removes l = 0 ∧ (l = [] ∨ l = [Call.csma_send_succeeded]) := by
  cases e with
  | message m => simp [Event.is_tx_retry] at h
  | timer_expiry => simp [Event.is_tx_retry] at h
  | radio env ev =>
    cases ev <;> simp only [Event.is_tx_retry, Bool.or_eq_true] at h <;>
      try exact absurd h (by decide)
    · by_cases hc : env.csma_send_failed = true
      · refine ⟨[], ?_, by decide, Or.inl rfl⟩
        simp [step, _event_cb, hc]
      · have hr : env.retry_send_failed = true := by
          rcases h with h | h
          · exact absurd h hc
          · exact h
        refine ⟨[], ?_, by decide, Or.inl rfl⟩
        simp [step, _event_cb, hc, tx_noack, hr]
    · refine ⟨[Call.csma_send_succeeded], ?_, by decide, Or.inr rfl⟩
      simp [step, _event_cb, tx_noack, h]

theorem retry_run (cfg : Config) (es : List Event) (s : State)
    (h : ∀ e ∈ es, e.is_tx_retry = true) :
    ∃ l : List Call, run cfg s es = some { s with calls := s.calls ++ l } ∧
      posted_removes l = 0 := by
  induction es generalizing s with
  | nil => exact ⟨[], by simp [run], by decide⟩
  | cons e es ih =>
    obtain ⟨l1, h1, p1, _⟩ := retry_step cfg s e (h e (List.mem_cons_self _ _))
    obtain ⟨l2, h2, p2⟩ := ih { s with calls := s.calls ++ l1 }
      (fun x hx => h x (List.mem_cons_of_mem _ hx))
    refine ⟨l1 ++ l2, ?_, ?_⟩
    · simp only [run, h1, h2, List.append_assoc]
    · rw [posted_removes_append, p1, p2]

theorem run_append (cfg : Config) (es1 es2 : List Event) (s : State) :
    run cfg s (es1 ++ es2) =
      match run cfg s es1 with
      | none => none
      | some s1 => run cfg s1 es2 := by
  induction es1 generalizing s with
  | nil => simp [run]
  | cons e es ih =>
    simp only [List.cons_append, run]
    cases step cfg s e with
    | none => rfl
    | some s1 => exact ih s1

theorem pkt_src_short (cfg : Config) (hdr : gnrc_netif_hdr_t)
    (hlen : hdr.src_l2addr_len = cfg.IEEE802154_SHORT_ADDRESS_LEN) :
    pkt_src_l2addr cfg hdr = byteAt hdr.src_addr 1 * 256 + byteAt hdr.src_addr 0 := by
  unfold pkt_src_l2addr
  rw [if_pos hlen]
  exact shift_or_eq _ _ (byteAt_lt _ _) (byteAt_lt _ _)

theorem pkt_src_long (cfg : Config) (hdr : gnrc_netif_hdr_t)
    (hlen : hdr.src_l2addr_len ≠ cfg.IEEE802154_SHORT_ADDRESS_LEN) :
    pkt_src_l2addr cfg hdr = byteAt hdr.src_addr 7 * 256 + byteAt hdr.src_addr 6 := by
  unfold pkt_src_l2addr
  rw [if_neg hlen]
  exact shift_or_eq _ _ (byteAt_lt _ _) (byteAt_lt _ _)

theorem neighbor_update_frame (a : Nat) (hdr : gnrc_netif_hdr_t) (s : State) :
    (neighbor_table_update a hdr s).pending_num = s.pending_num ∧
      (neighbor_table_update a hdr s).rx_data_request = s.rx_data_request ∧
      (neighbor_table_update a hdr s).calls = s.calls ∧
      (neighbor_table_update a hdr s).pkt_queue = s.pkt_queue ∧
      (neighbor_table_update a hdr s).radio_busy = s.radio_busy ∧
      (neighbor_table_update a hdr s).sending_pkt_key = s.sending_pkt_key := by
  unfold neighbor_table_update
  split <;> exact ⟨rfl, rfl, rfl, rfl, rfl, rfl⟩

theorem send_to_dst (cfg : Config) (d : Nat) (s : State) (k : Nat)
    (hb : s.broadcasting = false) (hr : s.radio_busy = false)
    (hp : s.pending_num ≤ NETDEV_PKT_QUEUE_SIZE) (hk : k < s.pending_num)
    (hkey : pkt_dst_l2addr cfg (s.slot k).content.data = d)
    (hmin : ∀ j, j < k → pkt_dst_l2addr cfg (s.slot j).content.data ≠ d) :
    msg_queue_send cfg true d s =
      some { s with
             recent_dst_l2addr := d
             sending_pkt_key := k
             radio_busy := true
             calls := s.calls ++ [Call.send_with_retries (s.slot k).content (-1)] } := by
  have hsc := send_scan_first cfg s.pkt_queue true d s.pending_num k hk
    (Or.inl ⟨rfl, hkey⟩)
    (fun j hj hm => by
      rcases hm with ⟨_, h⟩ | ⟨h, _⟩
      · exact hmin j hj h
      · exact absurd h (by decide))
  unfold NETDEV_PKT_QUEUE_SIZE at hp
  rw [send_hit cfg true d s k _ hb hsc (by omega), if_neg (by rw [hr]; decide)]
  simp only [State.slot] at hkey
  rw [hkey]

theorem send_no_dst (cfg : Config) (d : Nat) (s : State)
    (hb : s.broadcasting = false) (hr : s.radio_busy = false)
    (hnone : ∀ j, j < s.pending_num → pkt_dst_l2addr cfg (s.slot j).content.data ≠ d) :
    msg_queue_send cfg true d s = some s := by
  have hsc : send_scan cfg s.pkt_queue true d 0 s.pending_num = none := by
    cases hx : send_scan cfg s.pkt_queue true d 0 s.pending_num with
    | none => rfl
    | some p =>
      obtain ⟨i, k⟩ := p
      obtain ⟨_, h2, h3, h4, _⟩ := send_scan_some cfg _ _ _ _ _ _ _ hx
      rcases h4 with ⟨_, h⟩ | ⟨h, _⟩
      · exact absurd (h3.symm.trans h) (hnone i (by omega))
      · exact absurd h (by decide)
  rw [send_miss cfg true d s hb hsc, if_neg (by rw [hr]; decide)]

theorem tdiv_ten_cases (x : Int) :
    (0 ≤ x ∧ Int.tdiv x 10 = x / 10) ∨ (x < 0 ∧ Int.tdiv x 10 = -((-x) / 10)) := by
  by_cases h : 0 ≤ x
  · exact Or.inl ⟨h, Int.tdiv_eq_ediv h (by decide)⟩
  · refine Or.inr ⟨by omega, ?_⟩
    have h1 : Int.tdiv x 10 = Int.tdiv (-(-x)) 10 := by rw [Int.neg_neg]
    rw [h1, Int.neg_tdiv, Int.tdiv_eq_ediv (by omega) (by decide)]

theorem lqi_average (o q : Nat) (ho : o ≤ 255) (hq : q ≤ 255) :
    ((8 * o + 2 * q) / 10) % 256 = (8 * o + 2 * q) / 10 ∧
      min o q ≤ (8 * o + 2 * q) / 10 ∧ (8 * o + 2 * q) / 10 ≤ max o q ∧
      (8 * o + 2 * q) / 10 ≤ 255 ∧ (o ≤ q → q - o ≤ 4 → (8 * o + 2 * q) / 10 = o) := by
  refine ⟨by omega, ?_, ?_, by omega, by omega⟩
  · rcases Nat.le_total o q with h | h
    · rw [Nat.min_eq_left h]; omega
    · rw [Nat.min_eq_right h]; omega
  · rcases Nat.le_total o q with h | h
    · rw [Nat.max_eq_right h]; omega
    · rw [Nat.max_eq_left h]; omega

theorem rssi_average (r w : Int) (hlo : -128 ≤ r) (hhi : r ≤ 127) (hw0 : 0 ≤ w) (hw : w ≤ 73) :
    min r (-94 + 3 * w) ≤ Int.tdiv (8 * r + 2 * (-94 + 3 * w)) 10 ∧
      Int.tdiv (8 * r + 2 * (-94 + 3 * w)) 10 ≤ max r (-94 + 3 * w) ∧
      -128 ≤ Int.tdiv (8 * r + 2 * (-94 + 3 * w)) 10 ∧
      Int.tdiv (8 * r + 2 * (-94 + 3 * w)) 10 ≤ 127 := by
  generalize hd : Int.tdiv (8 * r + 2 * (-94 + 3 * w)) 10 = dv
  have hc := tdiv_ten_cases (8 * r + 2 * (-94 + 3 * w))
  rw [hd] at hc
  refine ⟨?_, ?_, by omega, by omega⟩
  · rcases Int.le_total r (-94 + 3 * w) with h | h
    · rw [Int.min_eq_left h]; omega
    · rw [Int.min_eq_right h]; omega
  · rcases Int.le_total r (-94 + 3 * w) with h | h
    · rw [Int.max_eq_right h]; omega
    · rw [Int.max_eq_left h]; omega

theorem toInt8_small (x : Int) (h1 : -128 ≤ x) (h2 : x ≤ 127) : toInt8 x = x := by
  unfold toInt8
  omega

theorem send_selected (cfg : Config) (t : Bool) (d : Nat) (s s' : State)
    (hb : s.broadcasting = false) (hp : s.pending_num ≤ NETDEV_PKT_QUEUE_SIZE)
    (hs : msg_queue_send cfg t d s = some s')
    (hh : hand_offs s.calls < hand_offs s'.calls) :
    ∃ i, i < s.pending_num ∧
      send_scan cfg s.pkt_queue t d 0 s.pending_num =
        some (i, pkt_dst_l2addr cfg (s.slot i).content.data) ∧
      s' = { s with
             recent_dst_l2addr := pkt_dst_l2addr cfg (s.slot i).content.data
             sending_pkt_key := i
             radio_busy := true
             calls := s.calls ++ [Call.send_with_retries (s.slot i).content (-1)] } := by
  have hr := send_idle cfg t d s s' hs
  unfold NETDEV_PKT_QUEUE_SIZE at hp
  cases hx : send_scan cfg s.pkt_queue t d 0 s.pending_num with
  | none =>
    rw [send_miss cfg t d s hb hx, if_neg (by rw [hr]; decide)] at hs
    simp only [Option.some.injEq] at hs
    subst hs
    omega
  | some p =>
    obtain ⟨i, k⟩ := p
    obtain ⟨_, h2, h3, _, _⟩ := send_scan_some cfg _ _ _ _ _ _ _ hx
    rw [send_hit cfg t d s i k hb hx (by omega), if_neg (by rw [hr]; decide)] at hs
    simp only [Option.some.injEq] at hs
    subst h3
    exact ⟨i, by omega, rfl, hs.symm⟩

/-! ### The call sites of `msg_queue_send` -/

theorem sites_cases (cfg : Config) (m : Msg) (s x : State) (hx : x ∈ send_sites cfg m s) :
    x.radio_busy = false ∧
      ((∃ addr, m = Msg.DUTYCYCLE_SND addr ∧ x = s) ∨
        (∃ rx, m = Msg.CHECK_QUEUE rx ∧ x = s) ∨
        (∃ rx1 rx2, m = Msg.REMOVE_QUEUE rx1 rx2 ∧
          (x = msg_queue_remove cfg s ∨
            msg_queue_send cfg true (msg_queue_remove cfg s).recent_dst_l2addr
              (msg_queue_remove cfg s) = some x)) ∨
        (∃ pid pkt rx, m = Msg.NETAPI_SND pid pkt rx ∧
          (msg_queue_add cfg ⟨pid, cfg.GNRC_NETAPI_MSG_TYPE_SND, pkt⟩ s).1 ≠ 0 ∧
          x = { (msg_queue_add cfg ⟨pid, cfg.GNRC_NETAPI_MSG_TYPE_SND, pkt⟩ s).2 with
                ack_pending := true
                calls := (msg_queue_add cfg ⟨pid, cfg.GNRC_NETAPI_MSG_TYPE_SND, pkt⟩ s).2.calls ++
                  [Call.set_ack_pending true] })) := by
  cases m with
  | DUTYCYCLE_SND addr =>
    simp only [send_sites] at hx
    split at hx
    · rename_i hg
      simp only [List.mem_singleton] at hx
      subst hx
      exact ⟨hg.2, Or.inl ⟨addr, rfl, rfl⟩⟩
    · simp at hx
  | REMOVE_QUEUE rx1 rx2 =>
    simp only [send_sites] at hx
    split at hx
    · rename_i hg
      split at hx
      · simp only [List.mem_singleton] at hx
        subst hx
        exact ⟨hg.2.1, Or.inr (Or.inr (Or.inl ⟨rx1, rx2, rfl, Or.inl rfl⟩))⟩
      · rename_i s2 hs2
        split at hx
        · rename_i hg2
          simp only [List.mem_cons, List.mem_singleton, List.not_mem_nil, or_false] at hx
          rcases hx with hx | hx
          · subst hx
            exact ⟨hg.2.1, Or.inr (Or.inr (Or.inl ⟨rx1, rx2, rfl, Or.inl rfl⟩))⟩
          · subst hx
            exact ⟨hg2.1, Or.inr (Or.inr (Or.inl ⟨rx1, rx2, rfl, Or.inr hs2⟩))⟩
        · simp only [List.mem_singleton] at hx
          subst hx
          exact ⟨hg.2.1, Or.inr (Or.inr (Or.inl ⟨rx1, rx2, rfl, Or.inl rfl⟩))⟩
    · simp at hx
  | CHECK_QUEUE rx =>
    simp only [send_sites] at hx
    split at hx
    · rename_i hg
      simp only [List.mem_singleton] at hx
      subst hx
      exact ⟨hg.1, Or.inr (Or.inl ⟨rx, rfl, rfl⟩)⟩
    · simp at hx
  | NETAPI_SND pid pkt rx =>
    simp only [send_sites] at hx
    split at hx
    · rename_i hr
      split at hx
      · rename_i hg
        simp only [List.mem_singleton] at hx
        subst hx
        exact ⟨hg.1, Or.inr (Or.inr (Or.inr ⟨pid, pkt, rx, rfl, hr, rfl⟩))⟩
      · simp at hx
    · simp at hx
  | NETDEV_EVENT => simp [send_sites] at hx
  | NETAPI_SET ack => simp [send_sites] at hx
  | NETAPI_GET => simp [send_sites] at hx
  | LINK_RETRANSMIT pkt rx res env => simp [send_sites] at hx
  | UNKNOWN => simp [send_sites] at hx

theorem sites_idle (cfg : Config) (m : Msg) (s x : State) (hx : x ∈ send_sites cfg m s) :
    x.radio_busy = false := (sites_cases cfg m s x hx).1

theorem sites_inv (cfg : Config) (hc : cfg.compiled) (m : Msg) (s x : State) (h : Inv s)
    (hx : x ∈ send_sites cfg m s) : Inv x := by
  obtain ⟨_, hcase⟩ := sites_cases cfg m s x hx
  rcases hcase with ⟨_, _, rfl⟩ | ⟨_, _, rfl⟩ | ⟨_, _, _, hr⟩ | ⟨pid, pkt, _, _, _, rfl⟩
  · exact h
  · exact h
  · rcases hr with rfl | hr
    · exact inv_remove cfg s h
    · exact inv_send cfg _ _ _ _ (inv_remove cfg s h) hr
  · obtain ⟨a1, a2, a3, a4, a5, a6⟩ :=
      inv_add cfg hc { sender_pid := pid, type := cfg.GNRC_NETAPI_MSG_TYPE_SND, content := pkt } s h
    exact ⟨a1, a2, a3, a4, a5, a6⟩

theorem run_sites_idle (cfg : Config) (es : List Event) (s x : State)
    (hx : x ∈ run_sites cfg s es) : x.radio_busy = false := by
  induction es generalizing s with
  | nil => simp [run_sites] at hx
  | cons e es ih =>
    simp only [run_sites, List.mem_append] at hx
    rcases hx with hx | hx
    · cases e with
      | message m => exact sites_idle cfg m s x hx
      | radio env ev => simp at hx
      | timer_expiry => simp at hx
    · cases hst : step cfg s e with
      | none => rw [hst] at hx; simp at hx
      | some s1 => rw [hst] at hx; exact ih s1 hx

theorem run_sites_inv (cfg : Config) (hc : cfg.compiled) (es : List Event) (s x : State)
    (h : Inv s) (hx : x ∈ run_sites cfg s es) : Inv x := by
  induction es generalizing s with
  | nil => simp [run_sites] at hx
  | cons e es ih =>
    simp only [run_sites, List.mem_append] at hx
    rcases hx with hx | hx
    · cases e with
      | message m => exact sites_inv cfg hc m s x h hx
      | radio env ev => simp at hx
      | timer_expiry => simp at hx
    · cases hst : step cfg s e with
      | none => rw [hst] at hx; simp at hx
      | some s1 => rw [hst] at hx; exact ih s1 (inv_step cfg hc e s s1 h hst) hx

/-! ### Frames that wait for their removal -/

theorem remove_key (cfg : Config) (s : State) (h : Inv s) :
    (msg_queue_remove cfg s).sending_pkt_key = 0xFF := by
  by_cases hk : s.sending_pkt_key = 0xFF
  · rw [remove_none cfg s hk]; exact hk
  · unfold msg_queue_remove
    rw [if_neg hk]
    simp only [h.bnum]
    split <;> simp

theorem timer_sets_append (a b : List Call) :
    timer_sets (a ++ b) = timer_sets a + timer_sets b := by
  unfold timer_sets
  exact List.countP_append _ _ _

theorem send_timer (cfg : Config) (t : Bool) (d : Nat) (s s' : State)
    (hs : msg_queue_send cfg t d s = some s') : timer_sets s'.calls = timer_sets s.calls := by
  have hf := (select_frame cfg t d s).2.2.2.2.2.2.2.2
  unfold msg_queue_send at hs
  generalize send_select cfg t d s = r at hs hf
  obtain ⟨pkt, s1⟩ := r
  simp only at hs hf
  split at hs
  · simp at hs
  · cases pkt with
    | none =>
      simp only [Option.some.injEq] at hs
      subst hs
      rw [hf]
    | some p =>
      simp only at hs
      split at hs
      · simp only [Option.some.injEq] at hs
        subst hs
        simp only [timer_sets_append, hf]
        simp [timer_sets, Call.is_xtimer_set]
      · simp only [Option.some.injEq] at hs
        subst hs
        rw [hf]

theorem remove_timer (cfg : Config) (s : State) (h : s.broadcasting_num = 0) :
    timer_sets (msg_queue_remove cfg s).calls = timer_sets s.calls := by
  unfold msg_queue_remove
  by_cases hk : s.sending_pkt_key = 0xFF
  · simp [hk]
  · by_cases h0 : (s.pending_num + 255) % 256 = 0 <;>
      simp [hk, h0, h, timer_sets_append, timer_sets, Call.is_xtimer_set]

theorem event_cb_timer (cfg : Config) (env : CbEnv) (ev : netdev_event_t) (s : State) :
    timer_sets (_event_cb cfg env ev s).calls = timer_sets s.calls := by
  cases ev <;> simp only [_event_cb, tx_noack, tx_done, neighbor_table_update]
  all_goals (repeat' split)
  all_goals simp_all [timer_sets_append, timer_sets, Call.is_xtimer_set]

theorem add_timer (cfg : Config) (hc : cfg.compiled) (msg : msg_t) (s : State) :
    timer_sets (msg_queue_add cfg msg s).2.calls = timer_sets s.calls := by
  by_cases hp : s.pending_num < NETDEV_PKT_QUEUE_SIZE
  · by_cases hb : is_bcast cfg msg.content.data
    · cases hr : s.radio_busy
      · rw [add_bcast_idle cfg hc msg s hp hb hr]
        simp [timer_sets_append, timer_sets, Call.is_xtimer_set]
      · rw [add_bcast_busy cfg hc msg s hp hb hr]
    · rw [add_unicast cfg msg s hp hb]
  · rw [add_full cfg msg s hp]

theorem thread_timer (cfg : Config) (hc : cfg.compiled) (m : Msg) (s s' : State) (h : Inv s)
    (hs : _gnrc_netdev_duty_thread cfg m s = some s') :
    timer_sets s'.calls = timer_sets s.calls := by
  cases m with
  | DUTYCYCLE_SND addr =>
    simp only [_gnrc_netdev_duty_thread] at hs
    split at hs
    · exact send_timer cfg _ _ _ _ hs
    · simp only [Option.some.injEq] at hs; subst hs; rfl
  | REMOVE_QUEUE rx1 rx2 =>
    have h1 := remove_timer cfg s h.bnum
    simp only [_gnrc_netdev_duty_thread] at hs
    split at hs
    · split at hs
      · simp at hs
      · rename_i s2 hs2
        have h2 := send_timer cfg _ _ _ _ hs2
        split at hs
        · rw [send_timer cfg _ _ _ _ hs, h2, h1]
        · simp only [Option.some.injEq] at hs; subst hs; rw [h2, h1]
    · split at hs
      · simp only [Option.some.injEq] at hs; subst hs
        show timer_sets ((msg_queue_remove cfg s).calls ++ _) = _
        rw [timer_sets_append, h1]
        simp [timer_sets, Call.is_xtimer_set]
      · simp only [Option.some.injEq] at hs; subst hs; exact h1
  | CHECK_QUEUE rx =>
    simp only [_gnrc_netdev_duty_thread] at hs
    split at hs
    · exact send_timer cfg _ _ _ _ hs
    · simp only [Option.some.injEq] at hs; subst hs; rfl
  | NETDEV_EVENT =>
    simp only [_gnrc_netdev_duty_thread, Option.some.injEq] at hs; subst hs
    show timer_sets (s.calls ++ _) = _
    rw [timer_sets_append]
    simp [timer_sets, Call.is_xtimer_set]
  | NETAPI_SND pid pkt rx =>
    have h1 := add_timer cfg hc
      { sender_pid := pid, type := cfg.GNRC_NETAPI_MSG_TYPE_SND, content := pkt } s
    simp only [_gnrc_netdev_duty_thread] at hs
    split at hs
    · split at hs
      · rw [send_timer cfg _ _ _ _ hs]
        show timer_sets (_ ++ _) = _
        rw [timer_sets_append, h1]
        simp [timer_sets, Call.is_xtimer_set]
      · simp only [Option.some.injEq] at hs; subst hs
        show timer_sets (_ ++ _) = _
        rw [timer_sets_append, h1]
        simp [timer_sets, Call.is_xtimer_set]
    · simp only [Option.some.injEq] at hs; subst hs
      show timer_sets (_ ++ _) = _
      rw [timer_sets_append, h1]
      simp [timer_sets, Call.is_xtimer_set]
  | NETAPI_SET ack =>
    cases ack with
    | none =>
      simp only [_gnrc_netdev_duty_thread, Option.some.injEq] at hs
      subst hs
      show timer_sets (s.calls ++ _) = _
      rw [timer_sets_append]
      simp [timer_sets, Call.is_xtimer_set]
    | some b =>
      simp only [_gnrc_netdev_duty_thread, Option.some.injEq] at hs
      subst hs
      show timer_sets (s.calls ++ _) = _
      rw [timer_sets_append]
      simp [timer_sets, Call.is_xtimer_set]
  | NETAPI_GET =>
    simp only [_gnrc_netdev_duty_thread, Option.some.injEq] at hs; subst hs
    show timer_sets (s.calls ++ _) = _
    rw [timer_sets_append]
    simp [timer_sets, Call.is_xtimer_set]
  | LINK_RETRANSMIT pkt rx res env =>
    simp only [_gnrc_netdev_duty_thread] at hs
    split at hs
    · by_cases hx : s.retry_rexmit = true
      · simp only [hx, ↓reduceIte] at hs
        split at hs
        · simp only [Option.some.injEq] at hs
          subst hs
          rw [event_cb_timer]
          show timer_sets (s.calls ++ _) = _
          rw [timer_sets_append]
          simp [timer_sets, Call.is_xtimer_set]
        · simp only [Option.some.injEq] at hs
          subst hs
          show timer_sets (s.calls ++ _) = _
          rw [timer_sets_append]
          simp [timer_sets, Call.is_xtimer_set]
      · simp only [hx, ↓reduceIte] at hs
        split at hs
        · simp only [Option.some.injEq] at hs
          subst hs
          rw [event_cb_timer]
          show timer_sets (s.calls ++ _) = _
          rw [timer_sets_append]
          simp [timer_sets, Call.is_xtimer_set]
        · simp only [Option.some.injEq] at hs
          subst hs
          show timer_sets (s.calls ++ _) = _
          rw [timer_sets_append]
          simp [timer_sets, Call.is_xtimer_set]
    · simp only [Option.some.injEq] at hs; subst hs
      show timer_sets (s.calls ++ _) = _
      rw [timer_sets_append]
      simp [timer_sets, Call.is_xtimer_set]
  | UNKNOWN =>
    simp only [_gnrc_netdev_duty_thread, Option.some.injEq] at hs; subst hs
    rfl

theorem step_timer (cfg : Config) (hc : cfg.compiled) (e : Event) (s s' : State) (h : Inv s)
    (hs : step cfg s e = some s') : timer_sets s'.calls = timer_sets s.calls := by
  cases e with
  | message m => exact thread_timer cfg hc m s s' h hs
  | radio env ev =>
    simp only [step, Option.some.injEq] at hs
    subst hs
    exact event_cb_timer cfg env ev s
  | timer_expiry =>
    simp only [step, h.timer] at hs
    simp at hs
    subst hs
    rfl

theorem run_timer (cfg : Config) (hc : cfg.compiled) (es : List Event) (s s' : State)
    (h : Inv s) (hs : run cfg s es = some s') : timer_sets s'.calls = timer_sets s.calls := by
  induction es generalizing s with
  | nil =>
    simp only [run, Option.some.injEq] at hs
    subst hs
    rfl
  | cons e es ih =>
    simp only [run] at hs
    cases hst : step cfg s e with
    | none => rw [hst] at hs; simp at hs
    | some s1 =>
      rw [hst] at hs
      rw [ih s1 (inv_step cfg hc e s s1 h hst) hs, step_timer cfg hc e s s1 h hst]

/-! ### Following queue entries -/

theorem live_remove (cfg : Config) (hsnd : cfg.GNRC_NETAPI_MSG_TYPE_SND ≠ 0) (s : State)
    (hf : Fifo cfg s) :
    live (msg_queue_remove cfg s) =
      if s.sending_pkt_key = 0xFF then live s else (live s).eraseIdx s.sending_pkt_key := by
  by_cases hk : s.sending_pkt_key = 0xFF
  · rw [if_pos hk, remove_none cfg s hk]
  · rw [if_neg hk]
    rcases (fifo_remove cfg hsnd s hf).2 with h | ⟨_, _, h⟩
    · have hkey := remove_key cfg s hf.inv
      rw [h] at hkey
      exact absurd hkey hk
    · exact h

theorem live_thread (cfg : Config) (hc : cfg.compiled)
    (hsnd : cfg.GNRC_NETAPI_MSG_TYPE_SND ≠ 0) (m : Msg) (s s' : State) (hf : Fifo cfg s)
    (hs : _gnrc_netdev_duty_thread cfg m s = some s') :
    ((Event.message m).is_remove_queue = true →
        live s' =
          if s.sending_pkt_key = 0xFF then live s
          else (live s).eraseIdx s.sending_pkt_key) ∧
      ((Event.message m).is_remove_queue = false →
        live s' = live s ∨ ∃ x, live s' = live s ++ [x]) := by
  cases m with
  | DUTYCYCLE_SND addr =>
    refine ⟨fun h => by simp [Event.is_remove_queue] at h, fun _ => Or.inl ?_⟩
    simp only [_gnrc_netdev_duty_thread] at hs
    split at hs
    · exact (fifo_send cfg _ _ _ _ hf hs).2
    · simp only [Option.some.injEq] at hs; subst hs; rfl
  | REMOVE_QUEUE rx1 rx2 =>
    refine ⟨fun _ => ?_, fun h => by simp [Event.is_remove_queue] at h⟩
    rw [← live_remove cfg hsnd s hf]
    have r1 := (fifo_remove cfg hsnd s hf).1
    simp only [_gnrc_netdev_duty_thread] at hs
    split at hs
    · split at hs
      · simp at hs
      · rename_i s2 hs2
        obtain ⟨a2, b2⟩ := fifo_send cfg _ _ _ _ r1 hs2
        split at hs
        · rw [(fifo_send cfg _ _ _ _ a2 hs).2, b2]
        · simp only [Option.some.injEq] at hs; subst hs
          exact b2
    · split at hs
      · simp only [Option.some.injEq] at hs; subst hs
        exact live_congr (msg_queue_remove cfg s) _ rfl rfl
      · simp only [Option.some.injEq] at hs; subst hs
        rfl
  | CHECK_QUEUE rx =>
    refine ⟨fun h => by simp [Event.is_remove_queue] at h, fun _ => Or.inl ?_⟩
    simp only [_gnrc_netdev_duty_thread] at hs
    split at hs
    · exact (fifo_send cfg _ _ _ _ hf hs).2
    · simp only [Option.some.injEq] at hs; subst hs; rfl
  | NETDEV_EVENT =>
    refine ⟨fun h => by simp [Event.is_remove_queue] at h, fun _ => Or.inl ?_⟩
    simp only [_gnrc_netdev_duty_thread, Option.some.injEq] at hs; subst hs
    exact live_congr s _ rfl rfl
  | NETAPI_SND pid pkt rx =>
    refine ⟨fun h => by simp [Event.is_remove_queue] at h, fun _ => ?_⟩
    obtain ⟨r1, r2⟩ := fifo_add cfg hc
      { sender_pid := pid, type := cfg.GNRC_NETAPI_MSG_TYPE_SND, content := pkt } s hf rfl
    have hl : ∀ s0 : State,
        live s0 = live (msg_queue_add cfg
          { sender_pid := pid, type := cfg.GNRC_NETAPI_MSG_TYPE_SND, content := pkt } s).2 →
        live s0 = live s ∨ ∃ x, live s0 = live s ++ [x] := by
      intro s0 h0
      rcases r2 with ⟨_, h⟩ | ⟨_, h⟩
      · left; rw [h0, h]
      · right; exact ⟨_, by rw [h0, h]⟩
    simp only [_gnrc_netdev_duty_thread] at hs
    split at hs
    · split at hs
      · obtain ⟨a, _, c, _⟩ := send_frame cfg _ _ _ _ hs
        exact hl s' (live_congr _ _ c a)
      · simp only [Option.some.injEq] at hs; subst hs
        exact hl _ (live_congr _ _ rfl rfl)
    · simp only [Option.some.injEq] at hs; subst hs
      exact hl _ (live_congr _ _ rfl rfl)
  | NETAPI_SET ack =>
    refine ⟨fun h => by simp [Event.is_remove_queue] at h, fun _ => Or.inl ?_⟩
    cases ack with
    | none =>
      simp only [_gnrc_netdev_duty_thread, Option.some.injEq] at hs; subst hs
      exact live_congr s _ rfl rfl
    | some b =>
      simp only [_gnrc_netdev_duty_thread, Option.some.injEq] at hs; subst hs
      exact live_congr s _ rfl rfl
  | NETAPI_GET =>
    refine ⟨fun h => by simp [Event.is_remove_queue] at h, fun _ => Or.inl ?_⟩
    simp only [_gnrc_netdev_duty_thread, Option.some.injEq] at hs; subst hs
    exact live_congr s _ rfl rfl
  | LINK_RETRANSMIT pkt rx res env =>
    refine ⟨fun h => by simp [Event.is_remove_queue] at h, fun _ => Or.inl ?_⟩
    simp only [_gnrc_netdev_duty_thread] at hs
    split at hs
    · split at hs
      · simp only [Option.some.injEq] at hs; subst hs
        obtain ⟨a, _, c, _, _⟩ := event_cb_frame cfg env netdev_event_t.TX_MEDIUM_BUSY
          (if s.retry_rexmit = true then
            { s with calls := s.calls ++ [Call.resend_without_release pkt (decide (s.pending_num > 1))] }
          else { s with calls := s.calls ++ [Call.send_without_release pkt (decide (s.pending_num > 1))] })
        refine live_congr s _ ?_ ?_
        · rw [c]; split <;> rfl
        · rw [a]; split <;> rfl
      · simp only [Option.some.injEq] at hs; subst hs
        refine live_congr s _ ?_ ?_ <;> (split <;> rfl)
    · simp only [Option.some.injEq] at hs; subst hs
      exact live_congr s _ rfl rfl
  | UNKNOWN =>
    refine ⟨fun h => by simp [Event.is_remove_queue] at h, fun _ => Or.inl ?_⟩
    simp only [_gnrc_netdev_duty_thread, Option.some.injEq] at hs; subst hs
    rfl

theorem live_step (cfg : Config) (hc : cfg.compiled)
    (hsnd : cfg.GNRC_NETAPI_MSG_TYPE_SND ≠ 0) (e : Event) (s s' : State) (hf : Fifo cfg s)
    (hs : step cfg s e = some s') :
    (e.is_remove_queue = true →
        live s' =
          if s.sending_pkt_key = 0xFF then live s
          else (live s).eraseIdx s.sending_pkt_key) ∧
      (e.is_remove_queue = false → live s' = live s ∨ ∃ x, live s' = live s ++ [x]) := by
  cases e with
  | message m => exact live_thread cfg hc hsnd m s s' hf hs
  | radio env ev =>
    refine ⟨fun h => by simp [Event.is_remove_queue] at h, fun _ => Or.inl ?_⟩
    simp only [step, Option.some.injEq] at hs
    subst hs
    exact (fifo_event_cb cfg env ev s hf).2
  | timer_expiry =>
    refine ⟨fun h => by simp [Event.is_remove_queue] at h, fun _ => Or.inl ?_⟩
    simp only [step, hf.inv.timer] at hs
    simp at hs
    subst hs
    rfl

theorem track_pos_other (s : State) (e : Event) (i : Nat) (h : e.is_remove_queue = false) :
    track_pos s e i = some i := by
  cases e with
  | message m =>
    cases m <;> first | rfl | simp [Event.is_remove_queue] at h
  | radio env ev => rfl
  | timer_expiry => rfl

theorem track_pos_remove (s : State) (e : Event) (i : Nat) (h : e.is_remove_queue = true) :
    track_pos s e i =
      if s.sending_pkt_key = 0xFF then some i
      else if s.sending_pkt_key = i then none
      else if s.sending_pkt_key < i then some (i - 1)
      else some i := by
  cases e with
  | message m =>
    cases m <;> first | rfl | simp [Event.is_remove_queue] at h
  | radio env ev => simp [Event.is_remove_queue] at h
  | timer_expiry => simp [Event.is_remove_queue] at h

theorem track_step_entry (cfg : Config) (hc : cfg.compiled)
    (hsnd : cfg.GNRC_NETAPI_MSG_TYPE_SND ≠ 0) (e : Event) (s s' : State) (i i' : Nat)
    (m : msg_t) (hf : Fifo cfg s) (hm : (live s)[i]? = some m)
    (hs : step cfg s e = some s') (ht : track_pos s e i = some i') :
    (live s')[i']? = some m := by
  obtain ⟨l1, l2⟩ := live_step cfg hc hsnd e s s' hf hs
  have hil : i < (live s).length := (List.getElem?_eq_some.1 hm).1
  cases hr : e.is_remove_queue with
  | false =>
    rw [track_pos_other s e i hr] at ht
    simp only [Option.some.injEq] at ht
    subst ht
    rcases l2 hr with h | ⟨x, h⟩
    · rw [h]; exact hm
    · rw [h, List.getElem?_append_left hil]; exact hm
  | true =>
    rw [track_pos_remove s e i hr] at ht
    rw [l1 hr]
    by_cases hk : s.sending_pkt_key = 0xFF
    · rw [if_pos hk] at ht ⊢
      simp only [Option.some.injEq] at ht
      subst ht
      exact hm
    · rw [if_neg hk] at ht ⊢
      by_cases hki : s.sending_pkt_key = i
      · rw [if_pos hki] at ht
        simp at ht
      · rw [if_neg hki] at ht
        by_cases hlt : s.sending_pkt_key < i
        · rw [if_pos hlt] at ht
          simp only [Option.some.injEq] at ht
          subst ht
          rw [List.getElem?_eraseIdx, if_neg (by omega)]
          have : i - 1 + 1 = i := by omega
          rw [this]
          exact hm
        · rw [if_neg hlt] at ht
          simp only [Option.some.injEq] at ht
          subst ht
          rw [List.getElem?_eraseIdx, if_pos (by omega)]
          exact hm

theorem follow_entry (cfg : Config) (hc : cfg.compiled)
    (hsnd : cfg.GNRC_NETAPI_MSG_TYPE_SND ≠ 0) (es : List Event) (s s' : State) (i i' : Nat)
    (m : msg_t) (hf : Fifo cfg s) (hm : (live s)[i]? = some m)
    (hs : run cfg s es = some s') (ht : follow cfg s es i = some i') :
    (live s')[i']? = some m := by
  induction es generalizing s i with
  | nil =>
    simp only [run, Option.some.injEq] at hs
    simp only [follow, Option.some.injEq] at ht
    subst hs; subst ht
    exact hm
  | cons e es ih =>
    simp only [run] at hs
    simp only [follow] at ht
    cases hst : step cfg s e with
    | none => rw [hst] at hs; simp at hs
    | some s1 =>
      rw [hst] at hs ht
      simp only at hs ht
      cases htp : track_pos s e i with
      | none => rw [htp] at ht; simp at ht
      | some i1 =>
        rw [htp] at ht
        simp only at ht
        exact ih s1 i1 (fifo_step cfg hc hsnd e s s1 hf hst).1
          (track_step_entry cfg hc hsnd e s s1 i i1 m hf hm hst htp) hs ht

theorem follow_order (cfg : Config) (hc : cfg.compiled)
    (hsnd : cfg.GNRC_NETAPI_MSG_TYPE_SND ≠ 0) (es : List Event) (s s' : State)
    (i j i' : Nat) (ma mb : msg_t) (hf : Fifo cfg s)
    (hma : (live s)[i]? = some ma) (hmb : (live s)[j]? = some mb) (hij : i < j)
    (hub : hdr_unicast cfg mb.content.data)
    (hdst : pkt_dst_l2addr cfg ma.content.data = pkt_dst_l2addr cfg mb.content.data)
    (hs : run cfg s es = some s') (ht : follow cfg s es i = some i') :
    ∃ j', follow cfg s es j = some j' ∧ i' < j' := by
  induction es generalizing s i j with
  | nil =>
    simp only [follow, Option.some.injEq] at ht
    subst ht
    exact ⟨j, rfl, hij⟩
  | cons e es ih =>
    simp only [run] at hs
    simp only [follow] at ht ⊢
    cases hst : step cfg s e with
    | none => rw [hst] at hs; simp at hs
    | some s1 =>
      rw [hst] at hs ht
      simp only at hs ht ⊢
      cases htp : track_pos s e i with
      | none => rw [htp] at ht; simp at ht
      | some i1 =>
        rw [htp] at ht
        simp only at ht
        have hf1 := (fifo_step cfg hc hsnd e s s1 hf hst).1
        have hjl : j < (live s).length := (List.getElem?_eq_some.1 hmb).1
        have hlen := live_length s (by
          have := hf.inv.pend; have := hf.inv.qlen; omega)
        have hqlen : s.pending_num ≤ s.pkt_queue.length := by
          have := hf.inv.pend; have := hf.inv.qlen; omega
        have hsj : s.slot j = mb := by
          have := live_getElem? s j (by omega) hqlen
          rw [hmb] at this
          exact (Option.some.inj this).symm
        have hsi : s.slot i = ma := by
          have := live_getElem? s i (by omega) hqlen
          rw [hma] at this
          exact (Option.some.inj this).symm
        have hj1 : ∃ j1, track_pos s e j = some j1 ∧ i1 < j1 := by
          cases hr : e.is_remove_queue with
          | false =>
            rw [track_pos_other s e i hr] at htp
            rw [track_pos_other s e j hr]
            simp only [Option.some.injEq] at htp
            subst htp
            exact ⟨j, rfl, hij⟩
          | true =>
            rw [track_pos_remove s e i hr] at htp
            rw [track_pos_remove s e j hr]
            by_cases hk : s.sending_pkt_key = 0xFF
            · rw [if_pos hk] at htp ⊢
              simp only [Option.some.injEq] at htp
              subst htp
              exact ⟨j, rfl, hij⟩
            · rw [if_neg hk] at htp ⊢
              have hkj : s.sending_pkt_key ≠ j := by
                intro hkj
                rcases hf.sel hk with hbc | hfirst
                · rw [hkj, hsj] at hbc
                  exact ((hdr_unicast_iff cfg _).1 hub) hbc
                · have := hfirst i (by omega)
                  rw [hkj, hsj, hsi] at this
                  exact this hdst
              rw [if_neg hkj]
              by_cases hki : s.sending_pkt_key = i
              · rw [if_pos hki] at htp
                simp at htp
              · rw [if_neg hki] at htp
                by_cases hlt : s.sending_pkt_key < i
                · rw [if_pos hlt] at htp
                  rw [if_pos (by omega)]
                  simp only [Option.some.injEq] at htp
                  subst htp
                  exact ⟨j - 1, rfl, by omega⟩
                · rw [if_neg hlt] at htp
                  simp only [Option.some.injEq] at htp
                  subst htp
                  by_cases hlj : s.sending_pkt_key < j
                  · rw [if_pos hlj]
                    exact ⟨j - 1, rfl, by omega⟩
                  · rw [if_neg hlj]
                    exact ⟨j, rfl, hij⟩
        obtain ⟨j1, hj1, hlt1⟩ := hj1
        rw [hj1]
        simp only
        exact ih s1 i1 j1 hf1
          (track_step_entry cfg hc hsnd e s s1 i i1 ma hf hma hst htp)
          (track_step_entry cfg hc hsnd e s s1 j j1 mb hf hmb hst hj1) hlt1 hs ht

theorem follow_append (cfg : Config) (es1 es2 : List Event) (s s1 : State) (i : Nat)
    (hs : run cfg s es1 = some s1) :
    follow cfg s (es1 ++ es2) i =
      match follow cfg s es1 i with
      | none => none
      | some i1 => follow cfg s1 es2 i1 := by
  induction es1 generalizing s i with
  | nil =>
    simp only [run, Option.some.injEq] at hs
    subst hs
    simp [follow]
  | cons e es ih =>
    simp only [run] at hs
    simp only [List.cons_append, follow]
    cases hst : step cfg s e with
    | none => rfl
    | some s0 =>
      rw [hst] at hs
      simp only at hs ⊢
      cases track_pos s e i with
      | none => simp
      | some i1 => simpa using ih s0 i1 hs

/-! ### The call log only grows -/

theorem releases_append (a b : List Call) (p : gnrc_pktsnip_t) :
    releases (a ++ b) p = releases a p + releases b p := by
  simp [releases, List.count_append]

theorem send_grow (cfg : Config) (t : Bool) (d : Nat) (s s' : State)
    (hs : msg_queue_send cfg t d s = some s') : ∃ l, s'.calls = s.calls ++ l := by
  have hf := (select_frame cfg t d s).2.2.2.2.2.2.2.2
  unfold msg_queue_send at hs
  generalize send_select cfg t d s = r at hs hf
  obtain ⟨pkt, s1⟩ := r
  simp only at hs hf
  split at hs
  · simp at hs
  · cases pkt with
    | none =>
      simp only [Option.some.injEq] at hs
      subst hs
      exact ⟨[], by rw [hf]; simp⟩
    | some p =>
      simp only at hs
      split at hs
      · simp only [Option.some.injEq] at hs
        subst hs
        exact ⟨[Call.send_with_retries p (-1)], by show s1.calls ++ _ = _; rw [hf]⟩
      · simp only [Option.some.injEq] at hs
        subst hs
        exact ⟨[], by rw [hf]; simp⟩

theorem remove_grow (cfg : Config) (s : State) :
    ∃ l, (msg_queue_remove cfg s).calls = s.calls ++ l ∧
      (s.sending_pkt_key ≠ 0xFF →
        ∃ l', l = Call.gnrc_pktbuf_release (s.slot s.sending_pkt_key).content :: l') := by
  unfold msg_queue_remove
  by_cases hk : s.sending_pkt_key = 0xFF
  · exact ⟨[], by simp [hk], fun h => absurd hk h⟩
  · rw [if_neg hk]
    simp only
    split
    · split
      · exact ⟨_, by simp only [List.append_assoc]; rfl, fun _ => ⟨_, rfl⟩⟩
      · exact ⟨_, rfl, fun _ => ⟨[], rfl⟩⟩
    · exact ⟨_, rfl, fun _ => ⟨[], rfl⟩⟩

theorem add_grow (cfg : Config) (hc : cfg.compiled) (msg : msg_t) (s : State) :
    ∃ l, (msg_queue_add cfg msg s).2.calls = s.calls ++ l := by
  by_cases hp : s.pending_num < NETDEV_PKT_QUEUE_SIZE
  · by_cases hb : is_bcast cfg msg.content.data
    · cases hr : s.radio_busy
      · rw [add_bcast_idle cfg hc msg s hp hb hr]
        exact ⟨_, rfl⟩
      · rw [add_bcast_busy cfg hc msg s hp hb hr]
        exact ⟨[], by simp⟩
    · rw [add_unicast cfg msg s hp hb]
      exact ⟨[], by simp⟩
  · rw [add_full cfg msg s hp]
    exact ⟨[], by simp⟩

theorem tx_done_grow (s : State) : ∃ l, (tx_done s).calls = s.calls ++ l := by
  unfold tx_done
  simp only
  split
  · exact ⟨[], by simp⟩
  · exact ⟨_, rfl⟩

theorem tx_noack_grow (env : CbEnv) (ev : netdev_event_t) (s : State) :
    ∃ l, (tx_noack env ev s).calls = s.calls ++ l := by
  unfold tx_noack
  simp only
  split
  · split
    · exact ⟨_, rfl⟩
    · exact ⟨[], by simp⟩
  · split
    · obtain ⟨l, hl⟩ := tx_done_grow { s with calls := s.calls ++ [Call.csma_send_succeeded] }
      exact ⟨_, by rw [hl, List.append_assoc]⟩
    · exact tx_done_grow s

theorem event_cb_grow (cfg : Config) (env : CbEnv) (ev : netdev_event_t) (s : State) :
    ∃ l, (_event_cb cfg env ev s).calls = s.calls ++ l := by
  cases ev with
  | ISR => exact ⟨_, rfl⟩
  | RX_DATAREQ => exact ⟨[], by simp [_event_cb]⟩
  | RX_COMPLETE =>
    obtain ⟨_, _, f3, _⟩ :=
      neighbor_update_frame (pkt_src_l2addr cfg env.recv.data) env.recv.data s
    simp only [_event_cb]
    split
    · exact ⟨[Call.msg_send Posted.DUTYCYCLE_SND] ++ [Call.pass_on_packet env.recv],
        by simp only [f3, List.append_assoc]⟩
    · exact ⟨[Call.pass_on_packet env.recv], by simp only [f3]⟩
  | TX_COMPLETE =>
    obtain ⟨l, hl⟩ := tx_done_grow
      { s with calls := s.calls ++ [Call.csma_send_succeeded, Call.retry_send_succeeded] }
    exact ⟨_, by simp only [_event_cb]; rw [hl, List.append_assoc]⟩
  | TX_COMPLETE_DATA_PENDING => exact ⟨[], by simp [_event_cb]⟩
  | TX_MEDIUM_BUSY =>
    simp only [_event_cb]
    split
    · exact ⟨[], by simp⟩
    · exact tx_noack_grow env _ s
  | TX_NOACK => exact tx_noack_grow env _ s

theorem grow_trans (a b c : List Call) (h1 : ∃ l, b = a ++ l) (h2 : ∃ l, c = b ++ l) :
    ∃ l, c = a ++ l := by
  obtain ⟨l1, rfl⟩ := h1
  obtain ⟨l2, rfl⟩ := h2
  exact ⟨l1 ++ l2, by simp⟩

theorem thread_grow (cfg : Config) (hc : cfg.compiled) (m : Msg) (s s' : State)
    (hs : _gnrc_netdev_duty_thread cfg m s = some s') : ∃ l, s'.calls = s.calls ++ l := by
  cases m with
  | DUTYCYCLE_SND addr =>
    simp only [_gnrc_netdev_duty_thread] at hs
    split at hs
    · exact send_grow cfg _ _ _ _ hs
    · simp only [Option.some.injEq] at hs; subst hs; exact ⟨[], by simp⟩
  | REMOVE_QUEUE rx1 rx2 =>
    obtain ⟨l0, h0, _⟩ := remove_grow cfg s
    have h1 : ∃ l, (msg_queue_remove cfg s).calls = s.calls ++ l := ⟨l0, h0⟩
    simp only [_gnrc_netdev_duty_thread] at hs
    split at hs
    · split at hs
      · simp at hs
      · rename_i s2 hs2
        have h2 := grow_trans _ _ _ h1 (send_grow cfg _ _ _ _ hs2)
        split at hs
        · exact grow_trans _ _ _ h2 (send_grow cfg _ _ _ _ hs)
        · simp only [Option.some.injEq] at hs; subst hs; exact h2
    · split at hs
      · simp only [Option.some.injEq] at hs; subst hs
        exact grow_trans _ _ _ h1 ⟨_, rfl⟩
      · simp only [Option.some.injEq] at hs; subst hs; exact h1
  | CHECK_QUEUE rx =>
    simp only [_gnrc_netdev_duty_thread] at hs
    split at hs
    · exact send_grow cfg _ _ _ _ hs
    · simp only [Option.some.injEq] at hs; subst hs; exact ⟨[], by simp⟩
  | NETDEV_EVENT =>
    simp only [_gnrc_netdev_duty_thread, Option.some.injEq] at hs; subst hs
    exact ⟨_, rfl⟩
  | NETAPI_SND pid pkt rx =>
    have h1 := add_grow cfg hc
      { sender_pid := pid, type := cfg.GNRC_NETAPI_MSG_TYPE_SND, content := pkt } s
    simp only [_gnrc_netdev_duty_thread] at hs
    split at hs
    · split at hs
      · exact grow_trans _ _ _ (grow_trans _ _ _ h1 ⟨_, rfl⟩) (send_grow cfg _ _ _ _ hs)
      · simp only [Option.some.injEq] at hs; subst hs
        exact grow_trans _ _ _ h1 ⟨_, rfl⟩
    · simp only [Option.some.injEq] at hs; subst hs
      exact grow_trans _ _ _ h1 ⟨_, rfl⟩
  | NETAPI_SET ack =>
    cases ack with
    | none =>
      simp only [_gnrc_netdev_duty_thread, Option.some.injEq] at hs
      subst hs
      exact ⟨_, rfl⟩
    | some b =>
      simp only [_gnrc_netdev_duty_thread, Option.some.injEq] at hs
      subst hs
      exact ⟨_, rfl⟩
  | NETAPI_GET =>
    simp only [_gnrc_netdev_duty_thread, Option.some.injEq] at hs; subst hs
    exact ⟨_, rfl⟩
  | LINK_RETRANSMIT pkt rx res env =>
    simp only [_gnrc_netdev_duty_thread] at hs
    split at hs
    · by_cases hx : s.retry_rexmit = true
      · simp only [hx, ↓reduceIte] at hs
        split at hs
        · simp only [Option.some.injEq] at hs
          subst hs
          exact grow_trans _ _ _ ⟨_, rfl⟩ (event_cb_grow cfg env _ _)
        · simp only [Option.some.injEq] at hs
          subst hs
          exact ⟨_, rfl⟩
      · simp only [hx, ↓reduceIte] at hs
        split at hs
        · simp only [Option.some.injEq] at hs
          subst hs
          exact grow_trans _ _ _ ⟨_, rfl⟩ (event_cb_grow cfg env _ _)
        · simp only [Option.some.injEq] at hs
          subst hs
          exact ⟨_, rfl⟩
    · simp only [Option.some.injEq] at hs; subst hs
      exact ⟨_, rfl⟩
  | UNKNOWN =>
    simp only [_gnrc_netdev_duty_thread, Option.some.injEq] at hs; subst hs
    exact ⟨[], by simp⟩

theorem step_grow (cfg : Config) (hc : cfg.compiled) (e : Event) (s s' : State)
    (hs : step cfg s e = some s') : ∃ l, s'.calls = s.calls ++ l := by
  cases e with
  | message m => exact thread_grow cfg hc m s s' hs
  | radio env ev =>
    simp only [step, Option.some.injEq] at hs
    subst hs
    exact event_cb_grow cfg env ev s
  | timer_expiry =>
    simp only [step] at hs
    split at hs
    · simp only [Option.some.injEq] at hs; subst hs
      exact ⟨_, rfl⟩
    · simp only [Option.some.injEq] at hs; subst hs
      exact ⟨[], by simp⟩

theorem run_grow (cfg : Config) (hc : cfg.compiled) (es : List Event) (s s' : State)
    (hs : run cfg s es = some s') : ∃ l, s'.calls = s.calls ++ l := by
  induction es generalizing s with
  | nil =>
    simp only [run, Option.some.injEq] at hs
    subst hs
    exact ⟨[], by simp⟩
  | cons e es ih =>
    simp only [run] at hs
    cases hst : step cfg s e with
    | none => rw [hst] at hs; simp at hs
    | some s1 =>
      rw [hst] at hs
      exact grow_trans _ _ _ (step_grow cfg hc e s s1 hst) (ih s1 hs)

theorem releases_grow (a b : List Call) (p : gnrc_pktsnip_t) (h : ∃ l, b = a ++ l) :
    releases a p ≤ releases b p := by
  obtain ⟨l, rfl⟩ := h
  rw [releases_append]
  omega

theorem thread_remove_releases (cfg : Config) (rx1 rx2 : Bool)
    (s s' : State) (hk : s.sending_pkt_key ≠ 0xFF)
    (hs : _gnrc_netdev_duty_thread cfg (Msg.REMOVE_QUEUE rx1 rx2) s = some s') :
    releases s.calls (s.slot s.sending_pkt_key).content <
      releases s'.calls (s.slot s.sending_pkt_key).content := by
  obtain ⟨l0, h0, h0'⟩ := remove_grow cfg s
  obtain ⟨l', rfl⟩ := h0' hk
  have h1 : releases s.calls (s.slot s.sending_pkt_key).content <
      releases (msg_queue_remove cfg s).calls (s.slot s.sending_pkt_key).content := by
    rw [h0, releases_append]
    simp [releases]
  have h2 : ∃ l, s'.calls = (msg_queue_remove cfg s).calls ++ l := by
    simp only [_gnrc_netdev_duty_thread] at hs
    split at hs
    · split at hs
      · simp at hs
      · rename_i s2 hs2
        have g2 := send_grow cfg _ _ _ _ hs2
        split at hs
        · exact grow_trans _ _ _ g2 (send_grow cfg _ _ _ _ hs)
        · simp only [Option.some.injEq] at hs; subst hs; exact g2
    · split at hs
      · simp only [Option.some.injEq] at hs; subst hs
        exact ⟨_, rfl⟩
      · simp only [Option.some.injEq] at hs; subst hs; exact ⟨[], by simp⟩
  exact Nat.lt_of_lt_of_le h1 (releases_grow _ _ _ h2)

theorem follow_lost (cfg : Config) (hc : cfg.compiled)
    (hsnd : cfg.GNRC_NETAPI_MSG_TYPE_SND ≠ 0) (es : List Event) (s s' : State) (i : Nat)
    (m : msg_t) (hf : Fifo cfg s) (hm : (live s)[i]? = some m)
    (hs : run cfg s es = some s') (ht : follow cfg s es i = none) :
    releases s.calls m.content < releases s'.calls m.content := by
  induction es generalizing s i with
  | nil => simp [follow] at ht
  | cons e es ih =>
    simp only [run] at hs
    simp only [follow] at ht
    cases hst : step cfg s e with
    | none => rw [hst] at hs; simp at hs
    | some s1 =>
      rw [hst] at hs ht
      simp only at hs ht
      cases htp : track_pos s e i with
      | some i1 =>
        rw [htp] at ht
        simp only at ht
        have h1 := ih s1 i1 (fifo_step cfg hc hsnd e s s1 hf hst).1
          (track_step_entry cfg hc hsnd e s s1 i i1 m hf hm hst htp) hs ht
        exact Nat.lt_of_le_of_lt (releases_grow _ _ _ (step_grow cfg hc e s s1 hst)) h1
      | none =>
        have hr : e.is_remove_queue = true := by
          cases hr : e.is_remove_queue with
          | true => rfl
          | false => rw [track_pos_other s e i hr] at htp; simp at htp
        rw [track_pos_remove s e i hr] at htp
        have hk : s.sending_pkt_key ≠ 0xFF := by
          intro hk; rw [if_pos hk] at htp; simp at htp
        rw [if_neg hk] at htp
        have hki : s.sending_pkt_key = i := by
          by_contra hki
          rw [if_neg hki] at htp
          split at htp <;> simp at htp
        have hqlen : s.pending_num ≤ s.pkt_queue.length := by
          have := hf.inv.pend; have := hf.inv.qlen; omega
        have hil : i < (live s).length := (List.getElem?_eq_some.1 hm).1
        rw [live_length s hqlen] at hil
        have hsi : s.slot i = m := by
          have := live_getElem? s i hil hqlen
          rw [hm] at this
          exact (Option.some.inj this).symm
        have hlt : releases s.calls m.content < releases s1.calls m.content := by
          cases e with
          | message msg =>
            cases msg with
            | REMOVE_QUEUE rx1 rx2 =>
              have := thread_remove_releases cfg rx1 rx2 s s1 hk hst
              rw [hki, hsi] at this
              exact this
            | _ => simp [Event.is_remove_queue] at hr
          | radio env ev => simp [Event.is_remove_queue] at hr
          | timer_expiry => simp [Event.is_remove_queue] at hr
        exact Nat.lt_of_lt_of_le hlt (releases_grow _ _ _ (run_grow cfg hc es s1 s' hs))

/-! ## The claims -/

/-- C1: in the compiled configuration, every state reached from `init` by any sequence
of events satisfies `0 <= broadcasting_num <= pending_num <= 64`, and no step wraps
a counter: `pending_num` moves by at most one and `broadcasting_num` stays put. -/
theorem C1_counters_within_queue (cfg : Config) (hc : cfg.compiled) (es : List Event)
    (s : State) (h : run cfg init es = some s) :
    0 ≤ s.broadcasting_num ∧ s.broadcasting_num ≤ s.pending_num ∧ s.pending_num ≤ 64 ∧
      ∀ (e : Event) (s' : State), step cfg s e = some s' →
        (s'.pending_num = s.pending_num ∨ s'.pending_num = s.pending_num + 1 ∨
            s'.pending_num + 1 = s.pending_num) ∧
          s'.broadcasting_num = s.broadcasting_num := by
  have hi := inv_run cfg hc es init s inv_init h
  refine ⟨Nat.zero_le _, ?_, hi.pend, ?_⟩
  · rw [hi.bnum]; exact Nat.zero_le _
  · intro e s' hs
    exact step_counters cfg hc e s s' hi hs

/-- Witness of C1 on the sample run. -/
theorem C1_counters_within_queue_witness :
    riotConfig.compiled ∧ run riotConfig init sample_events = some sample_state ∧
      sample_state.broadcasting_num ≤ sample_state.pending_num ∧
      sample_state.pending_num ≤ 64 :=
  ⟨by decide, by decide,
    (C1_counters_within_queue riotConfig (by decide) sample_events sample_state (by decide)).2.1,
    (C1_counters_within_queue riotConfig (by decide) sample_events sample_state (by decide)).2.2.1⟩

/-- C2: with `pending_num = 64`, `msg_queue_add` returns 0 and leaves the whole state
unchanged, for any frame; the `GNRC_NETAPI_MSG_TYPE_SND` handler then only releases the
attempted frame (no transmission is started, ACK-pending is not written). -/
theorem C2_queue_full (cfg : Config) (s : State) (msg : msg_t) (pid : Nat)
    (pkt : gnrc_pktsnip_t) (rx : Bool) (hp : s.pending_num = NETDEV_PKT_QUEUE_SIZE) :
    msg_queue_add cfg msg s = (0, s) ∧
      _gnrc_netdev_duty_thread cfg (Msg.NETAPI_SND pid pkt rx) s =
        some { s with calls := s.calls ++ [Call.gnrc_pktbuf_release pkt] } := by
  have hn : ¬ s.pending_num < NETDEV_PKT_QUEUE_SIZE := by omega
  refine ⟨add_full cfg msg s hn, ?_⟩
  simp only [_gnrc_netdev_duty_thread, add_full cfg _ s hn]
  simp

/-- Witness of C2 on the full queue. -/
theorem C2_queue_full_witness :
    full_state.pending_num = NETDEV_PKT_QUEUE_SIZE ∧
      msg_queue_add riotConfig ⟨3, 0x0202, broadcast_pkt 9⟩ full_state = (0, full_state) :=
  ⟨by decide,
    (C2_queue_full riotConfig full_state ⟨3, 0x0202, broadcast_pkt 9⟩ 3 (broadcast_pkt 9) false
      (by decide)).1⟩

/-- C3: with `pending_num = p < 64`, `msg_queue_add` on a unicast frame returns 1, stores
the message in slot `p`, sets `pending_num = p + 1` and changes nothing else: every
other slot and every other variable is as before. -/
theorem C3_add_unicast (cfg : Config) (s : State) (msg : msg_t)
    (hlen : s.pkt_queue.length = NETDEV_PKT_QUEUE_SIZE)
    (hp : s.pending_num < NETDEV_PKT_QUEUE_SIZE)
    (hu : hdr_unicast cfg msg.content.data) :
    (msg_queue_add cfg msg s).1 = 1 ∧
      (msg_queue_add cfg msg s).2.slot s.pending_num = msg ∧
      (msg_queue_add cfg msg s).2.pending_num = s.pending_num + 1 ∧
      (∀ i, i ≠ s.pending_num → (msg_queue_add cfg msg s).2.slot i = s.slot i) ∧
      (msg_queue_add cfg msg s).2 =
        { s with
          pkt_queue := s.pkt_queue.set s.pending_num msg
          pending_num := s.pending_num + 1 } := by
  have hnb : ¬ is_bcast cfg msg.content.data := (hdr_unicast_iff cfg _).1 hu
  rw [add_unicast cfg msg s hp hnb]
  refine ⟨rfl, ?_, rfl, ?_, rfl⟩
  · simp only [State.slot]
    exact getD_set_eq _ _ _ _ (by omega)
  · intro i hi
    simp only [State.slot]
    exact getD_set_ne _ _ _ _ _ (fun h => hi h.symm)

/-- Witness of C3: the first unicast submitted to the empty queue. -/
theorem C3_add_unicast_witness :
    (msg_queue_add riotConfig ⟨3, 0x0202, unicast_pkt 1 2 0⟩ init).1 = 1 ∧
      (msg_queue_add riotConfig ⟨3, 0x0202, unicast_pkt 1 2 0⟩ init).2.pending_num = 1 :=
  ⟨(C3_add_unicast riotConfig init ⟨3, 0x0202, unicast_pkt 1 2 0⟩ (by decide) (by decide)
      (by decide)).1,
    (C3_add_unicast riotConfig init ⟨3, 0x0202, unicast_pkt 1 2 0⟩ (by decide) (by decide)
      (by decide)).2.2.1⟩

/-- C4: immediate-broadcast mode, `pending_num = p < 64`, broadcast or multicast frame.
With the radio busy `msg_queue_add` returns 0 and the state is unchanged.  With the radio
idle it returns 1, stores the message in slot `p`, sets `sending_pkt_key = p`,
`radio_busy = true`, `pending_num = p + 1`, hands this frame to `send_with_retries` with
retry count 0, and changes nothing else. -/
theorem C4_add_broadcast (cfg : Config) (hc : cfg.compiled) (s : State) (msg : msg_t)
    (hlen : s.pkt_queue.length = NETDEV_PKT_QUEUE_SIZE)
    (hp : s.pending_num < NETDEV_PKT_QUEUE_SIZE)
    (hb : is_bcast cfg msg.content.data) :
    (s.radio_busy = true → msg_queue_add cfg msg s = (0, s)) ∧
      (s.radio_busy = false →
        (msg_queue_add cfg msg s).1 = 1 ∧
        (msg_queue_add cfg msg s).2.slot s.pending_num = msg ∧
        (∀ i, i ≠ s.pending_num → (msg_queue_add cfg msg s).2.slot i = s.slot i) ∧
        (msg_queue_add cfg msg s).2.broadcasting_num = s.broadcasting_num ∧
        (msg_queue_add cfg msg s).2 =
          { s with
            radio_busy := true
            pkt_queue := s.pkt_queue.set s.pending_num msg
            sending_pkt_key := s.pending_num
            pending_num := s.pending_num + 1
            calls := s.calls ++ [Call.send_with_retries msg.content 0] }) := by
  refine ⟨fun hr => add_bcast_busy cfg hc msg s hp hb hr, fun hr => ?_⟩
  rw [add_bcast_idle cfg hc msg s hp hb hr]
  refine ⟨rfl, ?_, ?_, rfl, rfl⟩
  · simp only [State.slot]
    exact getD_set_eq _ _ _ _ (by omega)
  · intro i hi
    simp only [State.slot]
    exact getD_set_ne _ _ _ _ _ (fun h => hi h.symm)

/-- Witness of C4: a broadcast submitted to the empty queue with the radio idle. -/
theorem C4_add_broadcast_witness :
    (msg_queue_add riotConfig ⟨3, 0x0202, broadcast_pkt 2⟩ init).1 = 1 ∧
      (msg_queue_add riotConfig ⟨3, 0x0202, broadcast_pkt 2⟩ init).2.sending_pkt_key = 0 :=
  ⟨((C4_add_broadcast riotConfig (by decide) init ⟨3, 0x0202, broadcast_pkt 2⟩ (by decide)
      (by decide) (by decide)).2 (by decide)).1,
    by
      rw [((C4_add_broadcast riotConfig (by decide) init ⟨3, 0x0202, broadcast_pkt 2⟩ (by decide)
        (by decide) (by decide)).2 (by decide)).2.2.2.2]
      rfl⟩

/-- C9: in the compiled configuration `sending_pkt_key` is `0xFF` or an index below
`pending_num` in every reachable state; so `msg_queue_remove` never meets
`sending_pkt_key != 0xFF` together with `pending_num = 0`. -/
theorem C9_key_none_or_live (cfg : Config) (hc : cfg.compiled) (es : List Event)
    (s : State) (h : run cfg init es = some s) :
    (s.sending_pkt_key = 0xFF ∨ s.sending_pkt_key < s.pending_num) ∧
      ¬ (s.sending_pkt_key ≠ 0xFF ∧ s.pending_num = 0) := by
  have hi := inv_run cfg hc es init s inv_init h
  refine ⟨hi.key, ?_⟩
  rintro ⟨h1, h2⟩
  rcases hi.key with h3 | h3
  · exact h1 h3
  · omega

/-- Witness of C9 on the sample run. -/
theorem C9_key_none_or_live_witness :
    run riotConfig init sample_events = some sample_state ∧
      (sample_state.sending_pkt_key = 0xFF ∨
        sample_state.sending_pkt_key < sample_state.pending_num) :=
  ⟨by decide,
    (C9_key_none_or_live riotConfig (by decide) sample_events sample_state (by decide)).1⟩


/-- C5: with `sending_pkt_key = k < pending_num` and no zero-tagged entry after index
`k`, `msg_queue_remove` releases the frame of slot `k` (and nothing else), leaves as live
queue the old live queue with element `k` erased, decrements `pending_num` by one, and
ends with `sending_pkt_key = 0xFF` when `broadcasting_num = 0`; when entries remain and
`broadcasting_num > 0` it sets the timer, `broadcasting = true` and `sending_pkt_key = 0`. -/
theorem C5_remove_in_flight (cfg : Config) (s : State) (k : Nat)
    (hlen : s.pkt_queue.length = NETDEV_PKT_QUEUE_SIZE)
    (hp : s.pending_num ≤ NETDEV_PKT_QUEUE_SIZE)
    (hk : s.sending_pkt_key = k) (hkp : k < s.pending_num)
    (hz : ∀ m, k < m → m < s.pending_num →
      ¬ ((s.slot m).sender_pid = 0 ∧ (s.slot m).type = 0)) :
    ((msg_queue_remove cfg s).calls =
          s.calls ++ [Call.gnrc_pktbuf_release (s.slot k).content] ∨
        (msg_queue_remove cfg s).calls =
          s.calls ++ [Call.gnrc_pktbuf_release (s.slot k).content,
            Call.xtimer_set (cfg.DUTYCYCLE_SLEEP_INTERVAL + 100)]) ∧
      (msg_queue_remove cfg s).pkt_queue.take (msg_queue_remove cfg s).pending_num =
        (s.pkt_queue.take s.pending_num).eraseIdx k ∧
      (msg_queue_remove cfg s).pending_num + 1 = s.pending_num ∧
      (s.broadcasting_num = 0 →
        (msg_queue_remove cfg s).sending_pkt_key = 0xFF ∧
        (msg_queue_remove cfg s).timer_armed = s.timer_armed ∧
        (msg_queue_remove cfg s).broadcasting = s.broadcasting) ∧
      (1 < s.pending_num → 0 < s.broadcasting_num →
        (msg_queue_remove cfg s).timer_armed = true ∧
        (msg_queue_remove cfg s).broadcasting = true ∧
        (msg_queue_remove cfg s).sending_pkt_key = 0 ∧
        (msg_queue_remove cfg s).calls =
          s.calls ++ [Call.gnrc_pktbuf_release (s.slot k).content,
            Call.xtimer_set (cfg.DUTYCYCLE_SLEEP_INTERVAL + 100)]) ∧
      (msg_queue_remove cfg s).broadcasting_num = s.broadcasting_num ∧
      (msg_queue_remove cfg s).radio_busy = s.radio_busy ∧
      (msg_queue_remove cfg s).recent_dst_l2addr = s.recent_dst_l2addr := by
  unfold NETDEV_PKT_QUEUE_SIZE at hlen hp
  have hne : ¬ s.sending_pkt_key = 0xFF := by omega
  have hlive := remove_shift_live s.pkt_queue k s.pending_num hkp (by omega) hz
  rw [remove_in_flight_eq cfg s hne (by omega) (by omega), hk]
  by_cases hc : s.pending_num - 1 ≠ 0 ∧ 0 < s.broadcasting_num
  · rw [if_pos hc]
    exact ⟨Or.inr rfl, hlive, by show s.pending_num - 1 + 1 = s.pending_num; omega,
      fun h => by omega, fun _ _ => ⟨rfl, rfl, rfl, rfl⟩, rfl, rfl, rfl⟩
  · rw [if_neg hc]
    exact ⟨Or.inl rfl, hlive, by show s.pending_num - 1 + 1 = s.pending_num; omega,
      fun _ => ⟨rfl, rfl, rfl⟩, fun h1 h2 => absurd ⟨by omega, h2⟩ hc, rfl, rfl, rfl⟩

/-- Witness of C5: the state after two unicasts were submitted, the first in flight. -/
theorem C5_remove_in_flight_witness :
    (msg_queue_remove riotConfig two_queued).pending_num + 1 = two_queued.pending_num ∧
      (msg_queue_remove riotConfig two_queued).sending_pkt_key = 0xFF := by
  have hp : two_queued.pending_num = 2 := by decide
  have hz : ∀ m, 0 < m → m < two_queued.pending_num →
      ¬ ((two_queued.slot m).sender_pid = 0 ∧ (two_queued.slot m).type = 0) := by
    intro m h1 h2
    have hm : m = 1 := by omega
    subst hm
    decide
  have h := C5_remove_in_flight riotConfig two_queued 0 (by decide) (by decide) (by decide)
    (by decide) hz
  exact ⟨h.2.2.1, (h.2.2.2.1 (by decide)).1⟩


/-- C7: in every state reached by a run in which the upper stack never sets
`NETOPT_ACK_PENDING` itself, the value last written to the radio is `true` exactly when
`pending_num > 0`. -/
theorem C7_ack_pending_matches_queue (cfg : Config) (hc : cfg.compiled) (es : List Event)
    (s : State) (hset : ∀ e ∈ es, e.sets_ack_pending = false)
    (h : run cfg init es = some s) :
    s.ack_pending = true ↔ 0 < s.pending_num :=
  ack_run cfg hc es init s inv_init (by unfold AckInv; decide) hset h

/-- Witness of C7 on the sample run. -/
theorem C7_ack_pending_matches_queue_witness :
    run riotConfig init sample_events = some sample_state ∧
      (sample_state.ack_pending = true ↔ 0 < sample_state.pending_num) :=
  ⟨by decide,
    C7_ack_pending_matches_queue riotConfig (by decide) sample_events sample_state (by decide)
      (by decide)⟩

/-- C10: frames `a` and `b` with the same destination key, both accepted by
`msg_queue_add`, `a` before `b`, `b` unicast; whatever events come before, between and
after.  Each frame is followed by its queue entry (`follow`), not by its value, so
packets may be submitted again after their release.  While the entry of `a` is in the
queue (at index `i`), the entry of `b` is in the queue behind it (at an index `j > i`):
`b` is never removed while `a` waits.  An entry that is followed holds its frame, and an
entry lost was released by `msg_queue_remove`.  And whenever `msg_queue_send` starts a
transmission, no entry before the selected one has its destination key, the key being
`dst[1]*256 + dst[0]` for a short destination address and `dst[7]*256 + dst[6]`
otherwise. -/
theorem C10_fifo_per_destination (cfg : Config) (hc : cfg.compiled)
    (hsnd : cfg.GNRC_NETAPI_MSG_TYPE_SND ≠ 0)
    (es1 es2 es3 : List Event) (pa pb : Nat) (a b : gnrc_pktsnip_t) (rxa rxb : Bool)
    (s1 s2 s : State)
    (hub : hdr_unicast cfg b.data)
    (hdst : pkt_dst_l2addr cfg a.data = pkt_dst_l2addr cfg b.data)
    (h1 : run cfg init es1 = some s1)
    (hacc_a : (msg_queue_add cfg ⟨pa, cfg.GNRC_NETAPI_MSG_TYPE_SND, a⟩ s1).1 = 1)
    (h2 : run cfg s1 (Event.message (Msg.NETAPI_SND pa a rxa) :: es2) = some s2)
    (hacc_b : (msg_queue_add cfg ⟨pb, cfg.GNRC_NETAPI_MSG_TYPE_SND, b⟩ s2).1 = 1)
    (h3 : run cfg s2 (Event.message (Msg.NETAPI_SND pb b rxb) :: es3) = some s) :
    (∀ i, follow cfg s1 (Event.message (Msg.NETAPI_SND pa a rxa) ::
          (es2 ++ Event.message (Msg.NETAPI_SND pb b rxb) :: es3)) s1.pending_num = some i →
        (live s)[i]? = some ⟨pa, cfg.GNRC_NETAPI_MSG_TYPE_SND, a⟩ ∧
        ∃ j, follow cfg s2 (Event.message (Msg.NETAPI_SND pb b rxb) :: es3) s2.pending_num
            = some j ∧ i < j) ∧
      (∀ j, follow cfg s2 (Event.message (Msg.NETAPI_SND pb b rxb) :: es3) s2.pending_num
          = some j →
        (live s)[j]? = some ⟨pb, cfg.GNRC_NETAPI_MSG_TYPE_SND, b⟩) ∧
      (follow cfg s1 (Event.message (Msg.NETAPI_SND pa a rxa) ::
          (es2 ++ Event.message (Msg.NETAPI_SND pb b rxb) :: es3)) s1.pending_num = none →
        releases s1.calls a < releases s.calls a) ∧
      (follow cfg s2 (Event.message (Msg.NETAPI_SND pb b rxb) :: es3) s2.pending_num = none →
        releases s2.calls b < releases s.calls b) ∧
      (∀ (t : Bool) (hint : Nat) (s' : State), msg_queue_send cfg t hint s = some s' →
        s'.radio_busy = true →
        ∀ j, j < s'.sending_pkt_key →
          pkt_dst_l2addr cfg (s'.slot j).content.data ≠
            pkt_dst_l2addr cfg (s'.slot s'.sending_pkt_key).content.data) ∧
      pkt_dst_l2addr cfg b.data =
        (if b.data.dst_l2addr_len = cfg.IEEE802154_SHORT_ADDRESS_LEN then
          byteAt b.data.dst_addr 1 * 256 + byteAt b.data.dst_addr 0
        else byteAt b.data.dst_addr 7 * 256 + byteAt b.data.dst_addr 6) := by
  have f1 := fifo_run cfg hc hsnd es1 init s1 (fifo_init cfg) h1
  -- a is submitted and accepted
  simp only [run] at h2
  split at h2
  · simp at h2
  rename_i s1' hs1'
  have hla := snd_accepted_live cfg hc pa a rxa s1 s1' f1 hacc_a hs1'
  have f1' := (fifo_step cfg hc hsnd _ s1 s1' f1 hs1').1
  have len1 : (live s1).length = s1.pending_num :=
    live_length s1 (by have := f1.inv.pend; have := f1.inv.qlen; omega)
  have hma1 : (live s1')[s1.pending_num]? = some ⟨pa, cfg.GNRC_NETAPI_MSG_TYPE_SND, a⟩ := by
    rw [hla, List.getElem?_append_right (by omega)]
    simp [len1]
  -- the events up to the submission of b
  have f2 := fifo_run cfg hc hsnd es2 s1' s2 f1' h2
  -- b is submitted and accepted
  have h3run := h3
  simp only [run] at h3
  split at h3
  · simp at h3
  rename_i s2' hs2'
  have hlb := snd_accepted_live cfg hc pb b rxb s2 s2' f2 hacc_b hs2'
  have f2' := (fifo_step cfg hc hsnd _ s2 s2' f2 hs2').1
  have len2 : (live s2).length = s2.pending_num :=
    live_length s2 (by have := f2.inv.pend; have := f2.inv.qlen; omega)
  have hmb2 : (live s2')[s2.pending_num]? = some ⟨pb, cfg.GNRC_NETAPI_MSG_TYPE_SND, b⟩ := by
    rw [hlb, List.getElem?_append_right (by omega)]
    simp [len2]
  have f3 := fifo_run cfg hc hsnd es3 s2' s f2' h3
  -- following an entry across the two submissions
  have hfb : ∀ x, follow cfg s2 (Event.message (Msg.NETAPI_SND pb b rxb) :: es3) x =
      follow cfg s2' es3 x := by
    intro x
    simp only [follow, hs2', track_pos]
  have hfa : follow cfg s1 (Event.message (Msg.NETAPI_SND pa a rxa) ::
      (es2 ++ Event.message (Msg.NETAPI_SND pb b rxb) :: es3)) s1.pending_num =
      match follow cfg s1' es2 s1.pending_num with
      | none => none
      | some i2 => follow cfg s2' es3 i2 := by
    simp only [follow, hs1', track_pos]
    rw [follow_append cfg es2 _ s1' s2 _ h2]
    cases follow cfg s1' es2 s1.pending_num with
    | none => rfl
    | some i2 => exact hfb i2
  have hrun_a : run cfg s1' (es2 ++ Event.message (Msg.NETAPI_SND pb b rxb) :: es3) = some s := by
    rw [run_append, h2]
    exact h3run
  have hfa' : follow cfg s1 (Event.message (Msg.NETAPI_SND pa a rxa) ::
      (es2 ++ Event.message (Msg.NETAPI_SND pb b rxb) :: es3)) s1.pending_num =
      follow cfg s1' (es2 ++ Event.message (Msg.NETAPI_SND pb b rxb) :: es3) s1.pending_num := by
    simp only [follow, hs1', track_pos]
  refine ⟨?_, ?_, ?_, ?_, ?_, ?_⟩
  · intro i hi
    rw [hfa] at hi
    cases hfa2 : follow cfg s1' es2 s1.pending_num with
    | none => rw [hfa2] at hi; simp at hi
    | some i2 =>
      rw [hfa2] at hi
      simp only at hi
      have hm2 := follow_entry cfg hc hsnd es2 s1' s2 _ i2 _ f1' hma1 h2 hfa2
      have hi2 : i2 < (live s2).length := (List.getElem?_eq_some.1 hm2).1
      have hm2' : (live s2')[i2]? = some ⟨pa, cfg.GNRC_NETAPI_MSG_TYPE_SND, a⟩ := by
        rw [hlb, List.getElem?_append_left hi2]
        exact hm2
      refine ⟨follow_entry cfg hc hsnd es3 s2' s i2 i _ f2' hm2' h3 hi, ?_⟩
      obtain ⟨j, hj, hlt⟩ := follow_order cfg hc hsnd es3 s2' s i2 s2.pending_num i _ _ f2'
        hm2' hmb2 (by omega) hub hdst h3 hi
      exact ⟨j, by rw [hfb]; exact hj, hlt⟩
  · intro j hj
    rw [hfb] at hj
    exact follow_entry cfg hc hsnd es3 s2' s _ j _ f2' hmb2 h3 hj
  · intro hlost
    rw [hfa'] at hlost
    have := follow_lost cfg hc hsnd _ s1' s _ _ f1' hma1 hrun_a hlost
    exact Nat.lt_of_le_of_lt (releases_grow _ _ _ (step_grow cfg hc _ s1 s1' hs1')) this
  · intro hlost
    rw [hfb] at hlost
    have := follow_lost cfg hc hsnd es3 s2' s _ _ f2' hmb2 h3 hlost
    exact Nat.lt_of_le_of_lt (releases_grow _ _ _ (step_grow cfg hc _ s2 s2' hs2')) this
  · intro t hint s' hs hb
    exact send_first_of_dst cfg t hint s s' f3.inv hs hb
  · unfold pkt_dst_l2addr
    split <;> exact shift_or_eq _ _ (byteAt_lt _ _) (byteAt_lt _ _)

/-- Witness of C10: frames `a` and `b` for `0x0002` are submitted behind a frame for
`0x0101` in flight.  A further frame for `0x0101` is submitted, two removals happen (the
frame in flight, then the further frame, taken from behind `a` and `b`), and the packet
released first is submitted again in between.  The entry of `a` has moved from index 1
to index 0 and still holds `a`; the entry of `b` has moved from index 2 to index 1. -/
theorem C10_fifo_per_destination_witness :
    follow riotConfig one_queued
        (Event.message (Msg.NETAPI_SND 3 (unicast_pkt 2 2 0) false) ::
          ([] ++ Event.message (Msg.NETAPI_SND 3 (unicast_pkt 3 2 0) false) :: reuse_events))
        1 = some 0 ∧
      follow riotConfig reuse_mid
        (Event.message (Msg.NETAPI_SND 3 (unicast_pkt 3 2 0) false) :: reuse_events) 2
        = some 1 ∧
      releases reuse_final.calls (unicast_pkt 1 1 1) = 1 ∧
      (live reuse_final)[0]? = some ⟨3, 0x0202, unicast_pkt 2 2 0⟩ :=
  ⟨by decide, by decide, by decide,
    ((C10_fifo_per_destination riotConfig (by decide) (by decide)
      [Event.message (Msg.NETAPI_SND 3 (unicast_pkt 1 1 1) false)] [] reuse_events 3 3
      (unicast_pkt 2 2 0) (unicast_pkt 3 2 0) false false one_queued reuse_mid reuse_final
      (by decide) (by decide) (by decide) (by decide) (by decide) (by decide)
      (by decide)).1 0 (by decide)).1⟩

/-- C11: scenario S1.  From the initial state with the radio idle, a send request for a
unicast frame to the short address `0x0002` is queued at index 0 and handed to the
retry engine; `TX_COMPLETE` frees the radio and posts one `REMOVE_QUEUE`; handling it
releases the frame once, empties the queue, resets `sending_pkt_key` and clears
ACK-pending. -/
theorem C11_scenario_always_on_unicast (cfg : Config) (pid : Nat) (pkt : gnrc_pktsnip_t)
    (env : CbEnv) (rx1 rx2 : Bool)
    (hu : hdr_unicast cfg pkt.data)
    (hlen : pkt.data.dst_l2addr_len = cfg.IEEE802154_SHORT_ADDRESS_LEN)
    (h0 : byteAt pkt.data.dst_addr 0 = 2) (h1 : byteAt pkt.data.dst_addr 1 = 0) :
    ∃ s1 s2 s3 : State,
      _gnrc_netdev_duty_thread cfg (Msg.NETAPI_SND pid pkt false) init = some s1 ∧
      s1 = { init with
             pkt_queue := init.pkt_queue.set 0 ⟨pid, cfg.GNRC_NETAPI_MSG_TYPE_SND, pkt⟩
             pending_num := 1
             sending_pkt_key := 0
             radio_busy := true
             recent_dst_l2addr := 0x0002
             ack_pending := true
             calls := [Call.set_ack_pending true, Call.send_with_retries pkt (-1)] } ∧
      _event_cb cfg env netdev_event_t.TX_COMPLETE s1 = s2 ∧
      s2 = { s1 with
             radio_busy := false
             calls := s1.calls ++ [Call.csma_send_succeeded, Call.retry_send_succeeded,
               Call.msg_send Posted.REMOVE_QUEUE] } ∧
      _gnrc_netdev_duty_thread cfg (Msg.REMOVE_QUEUE rx1 rx2) s2 = some s3 ∧
      s3 = { s2 with
             pending_num := 0
             sending_pkt_key := 0xFF
             ack_pending := false
             calls := s2.calls ++ [Call.gnrc_pktbuf_release pkt, Call.set_ack_pending false] } := by
  have hnb : ¬ is_bcast cfg pkt.data := (hdr_unicast_iff cfg _).1 hu
  have hkey : pkt_dst_l2addr cfg pkt.data = 2 := by
    rw [pkt_dst_short cfg _ hlen, h0, h1]
  have hadd := add_unicast cfg ⟨pid, cfg.GNRC_NETAPI_MSG_TYPE_SND, pkt⟩ init (by decide) hnb
  have hslot : (init.pkt_queue.set 0 ⟨pid, cfg.GNRC_NETAPI_MSG_TYPE_SND, pkt⟩).getD 0 default =
      ⟨pid, cfg.GNRC_NETAPI_MSG_TYPE_SND, pkt⟩ := getD_set_eq _ _ _ _ (by decide)
  refine ⟨_, _, _, ?_, rfl, rfl, ?_, ?_, rfl⟩
  · simp only [_gnrc_netdev_duty_thread, hadd]
    rw [if_pos (by decide), if_pos (by simp [init])]
    rw [send_always_on cfg 0 _ rfl rfl (by simp [init])]
    simp only [State.slot]
    have hslot' : (init.pkt_queue.set init.pending_num
        ⟨pid, cfg.GNRC_NETAPI_MSG_TYPE_SND, pkt⟩).getD 0 default =
        ⟨pid, cfg.GNRC_NETAPI_MSG_TYPE_SND, pkt⟩ := hslot
    rw [hslot', hkey]
    rfl
  · simp [_event_cb, tx_done, init]
  · have hrm : msg_queue_remove cfg
        { init with
          pkt_queue := init.pkt_queue.set 0 ⟨pid, cfg.GNRC_NETAPI_MSG_TYPE_SND, pkt⟩
          pending_num := 1
          sending_pkt_key := 0
          radio_busy := false
          recent_dst_l2addr := 0x0002
          ack_pending := true
          calls := [Call.set_ack_pending true, Call.send_with_retries pkt (-1)] ++
            [Call.csma_send_succeeded, Call.retry_send_succeeded,
              Call.msg_send Posted.REMOVE_QUEUE] } =
        { init with
          pkt_queue := init.pkt_queue.set 0 ⟨pid, cfg.GNRC_NETAPI_MSG_TYPE_SND, pkt⟩
          pending_num := 0
          sending_pkt_key := 0xFF
          radio_busy := false
          recent_dst_l2addr := 0x0002
          ack_pending := true
          calls := [Call.set_ack_pending true, Call.send_with_retries pkt (-1)] ++
            [Call.csma_send_succeeded, Call.retry_send_succeeded,
              Call.msg_send Posted.REMOVE_QUEUE] ++ [Call.gnrc_pktbuf_release pkt] } := by
      rw [remove_in_flight_eq cfg _ (by simp) (by simp) (by simp)]
      rw [if_neg (by simp)]
      simp only [State.slot, hslot, remove_shift]
    have hgoal : _gnrc_netdev_duty_thread cfg (Msg.REMOVE_QUEUE rx1 rx2)
        { init with
          pkt_queue := init.pkt_queue.set 0 ⟨pid, cfg.GNRC_NETAPI_MSG_TYPE_SND, pkt⟩
          pending_num := 1
          sending_pkt_key := 0
          radio_busy := false
          recent_dst_l2addr := 0x0002
          ack_pending := true
          calls := [Call.set_ack_pending true, Call.send_with_retries pkt (-1)] ++
            [Call.csma_send_succeeded, Call.retry_send_succeeded,
              Call.msg_send Posted.REMOVE_QUEUE] } =
        some
          { init with
            pkt_queue := init.pkt_queue.set 0 ⟨pid, cfg.GNRC_NETAPI_MSG_TYPE_SND, pkt⟩
            pending_num := 0
            sending_pkt_key := 0xFF
            radio_busy := false
            recent_dst_l2addr := 0x0002
            ack_pending := false
            calls := [Call.set_ack_pending true, Call.send_with_retries pkt (-1)] ++
              [Call.csma_send_succeeded, Call.retry_send_succeeded,
                Call.msg_send Posted.REMOVE_QUEUE] ++
              [Call.gnrc_pktbuf_release pkt, Call.set_ack_pending false] } := by
      simp only [_gnrc_netdev_duty_thread]
      rw [hrm]
      simp
    exact hgoal

/-- Witness of C11: the scenario with a concrete frame for `0x0002`, as a run. -/
theorem C11_scenario_always_on_unicast_witness :
    Option.map State.pending_num
        (run riotConfig init
          [ Event.message (Msg.NETAPI_SND 3 (unicast_pkt 1 2 0) false),
            Event.radio default netdev_event_t.TX_COMPLETE,
            Event.message (Msg.REMOVE_QUEUE false false) ]) = some 0 := by
  obtain ⟨s1, s2, s3, e1, _, e2, _, e3, e4⟩ :=
    C11_scenario_always_on_unicast riotConfig 3 (unicast_pkt 1 2 0) default false false
      (by decide) (by decide) (by decide) (by decide)
  simp only [run, step, e1, e2, e3, e4, Option.map]

/-- C12: on a terminal TX outcome (`TX_COMPLETE`; `TX_NOACK` when the link-retry layer
does not retry; `TX_MEDIUM_BUSY` when neither CSMA nor the link-retry layer retries)
`_event_cb` sets `radio_busy = false` and leaves the queue, `pending_num` and
`sending_pkt_key` alone.  With `broadcasting` true it sets `recent_dst_l2addr = 0xffff`
and posts nothing; otherwise it posts exactly one `REMOVE_QUEUE` and leaves
`recent_dst_l2addr` alone. -/
theorem C12_terminal_tx_outcome (cfg : Config) (env : CbEnv) (ev : netdev_event_t)
    (s : State)
    (hterm : ev = netdev_event_t.TX_COMPLETE ∨
      (ev = netdev_event_t.TX_NOACK ∧ env.retry_send_failed = false) ∨
      (ev = netdev_event_t.TX_MEDIUM_BUSY ∧ env.csma_send_failed = false ∧
        env.retry_send_failed = false)) :
    ∃ engine : List Call,
      (∀ c ∈ engine, c = Call.csma_send_succeeded ∨ c = Call.retry_send_succeeded) ∧
      (s.broadcasting = true →
        _event_cb cfg env ev s =
          { s with
            radio_busy := false
            recent_dst_l2addr := 0xffff
            calls := s.calls ++ engine }) ∧
      (s.broadcasting = false →
        _event_cb cfg env ev s =
          { s with
            radio_busy := false
            calls := s.calls ++ engine ++ [Call.msg_send Posted.REMOVE_QUEUE] }) ∧
      (_event_cb cfg env ev s).radio_busy = false ∧
      (_event_cb cfg env ev s).pkt_queue = s.pkt_queue ∧
      (_event_cb cfg env ev s).pending_num = s.pending_num ∧
      (_event_cb cfg env ev s).sending_pkt_key = s.sending_pkt_key := by
  rcases hterm with h | ⟨h, hr⟩ | ⟨h, hc, hr⟩
  · subst h
    refine ⟨[Call.csma_send_succeeded, Call.retry_send_succeeded], ?_, ?_, ?_, ?_, ?_, ?_, ?_⟩
    · intro c hc; simpa using hc
    · intro hb; simp [_event_cb, tx_done, hb]
    · intro hb; simp [_event_cb, tx_done, hb]
    all_goals (cases hb : s.broadcasting <;> simp [_event_cb, tx_done, hb])
  · subst h
    refine ⟨[Call.csma_send_succeeded], ?_, ?_, ?_, ?_, ?_, ?_, ?_⟩
    · intro c hc
      simp only [List.mem_singleton] at hc
      exact Or.inl hc
    · intro hb; simp [_event_cb, tx_noack, tx_done, hb, hr]
    · intro hb; simp [_event_cb, tx_noack, tx_done, hb, hr]
    all_goals (cases hb : s.broadcasting <;> simp [_event_cb, tx_noack, tx_done, hb, hr])
  · subst h
    refine ⟨[], ?_, ?_, ?_, ?_, ?_, ?_, ?_⟩
    · intro c hc; simp at hc
    · intro hb; simp [_event_cb, tx_noack, tx_done, hb, hr, hc]
    · intro hb; simp [_event_cb, tx_noack, tx_done, hb, hr, hc]
    all_goals (cases hb : s.broadcasting <;> simp [_event_cb, tx_noack, tx_done, hb, hr, hc])

/-- Witness of C12: `TX_NOACK` without a further retry while a unicast is in flight. -/
theorem C12_terminal_tx_outcome_witness :
    (_event_cb riotConfig ⟨default, false, false⟩ netdev_event_t.TX_NOACK one_queued).radio_busy
        = false ∧
      (_event_cb riotConfig ⟨default, false, false⟩ netdev_event_t.TX_NOACK
        one_queued).sending_pkt_key = one_queued.sending_pkt_key := by
  obtain ⟨_, _, _, _, h1, _, _, h2⟩ :=
    C12_terminal_tx_outcome riotConfig ⟨default, false, false⟩ netdev_event_t.TX_NOACK one_queued
      (Or.inr (Or.inl ⟨rfl, rfl⟩))
  exact ⟨h1, h2⟩

/-- C13: the code on the event `TX_COMPLETE_DATA_PENDING` while a unicast is in flight:
`_event_cb` has no case for it, the state is unchanged (`radio_busy` stays true, no
`REMOVE_QUEUE` is posted), unlike `TX_COMPLETE`. -/
theorem C13_data_pending_unhandled :
    _event_cb riotConfig default netdev_event_t.TX_COMPLETE_DATA_PENDING one_queued
        = one_queued ∧
      one_queued.radio_busy = true ∧
      posted_removes one_queued.calls = 0 ∧
      (_event_cb riotConfig default netdev_event_t.TX_COMPLETE one_queued).radio_busy
        = false ∧
      posted_removes (_event_cb riotConfig default netdev_event_t.TX_COMPLETE
        one_queued).calls = 1 := by
  decide

/-- C14, as stated, fails on the compiled configuration: a broadcast accepted by the
idle controller is in flight at index 0; `TX_COMPLETE` posts a `REMOVE_QUEUE`, and
handling it releases the broadcast and empties the queue, the hold timer never having
been armed. -/
theorem C14_counterexample :
    Option.map State.pending_num (run riotConfig init (broadcast_events.take 1)) = some 1 ∧
      Option.map State.sending_pkt_key (run riotConfig init (broadcast_events.take 1))
        = some 0 ∧
      Option.map State.timer_armed (run riotConfig init (broadcast_events.take 1))
        = some false ∧
      Option.map State.pending_num (run riotConfig init broadcast_events) = some 0 ∧
      Option.map State.calls (run riotConfig init broadcast_events) =
        some [Call.send_with_retries (broadcast_pkt 2) 0, Call.set_ack_pending true,
          Call.csma_send_succeeded, Call.retry_send_succeeded,
          Call.msg_send Posted.REMOVE_QUEUE, Call.gnrc_pktbuf_release (broadcast_pkt 2),
          Call.set_ack_pending false] := by
  decide

/-- C14, amended.  With `ENABLE_BROADCAST_QUEUEING` set, a broadcast accepted while no
other broadcast is queued goes to slot 0, arms the hold timer and sets `broadcasting`;
whatever TX events the radio reports then, the queue, the counters and
`sending_pkt_key` stay as they are, the timer stays armed and no `REMOVE_QUEUE` is
posted; the expiry of the timer posts it.  In the compiled configuration a broadcast
accepted by the idle controller is handed to the retry engine at once without arming
the timer; `TX_COMPLETE` leaves it queued and posts one `REMOVE_QUEUE`, and
`msg_queue_remove` then releases it and takes it off the queue. -/
theorem C14_broadcast_held (cfg : Config) (s : State) (msg : msg_t)
    (hlen : s.pkt_queue.length = NETDEV_PKT_QUEUE_SIZE)
    (hp : s.pending_num < NETDEV_PKT_QUEUE_SIZE)
    (hbn : s.broadcasting_num = 0) (hb : is_bcast cfg msg.content.data) :
    (cfg.ENABLE_BROADCAST_QUEUEING = true →
      ∀ (es : List Event) (s2 : State), (∀ e ∈ es, e.is_radio_tx = true) →
        run cfg (msg_queue_add cfg msg s).2 es = some s2 →
        (msg_queue_add cfg msg s).1 = 1 ∧
        (msg_queue_add cfg msg s).2.slot 0 = msg ∧
        (msg_queue_add cfg msg s).2.pending_num = s.pending_num + 1 ∧
        (msg_queue_add cfg msg s).2.broadcasting = true ∧
        (msg_queue_add cfg msg s).2.timer_armed = true ∧
        s2.pkt_queue = (msg_queue_add cfg msg s).2.pkt_queue ∧
        s2.pending_num = s.pending_num + 1 ∧
        s2.broadcasting_num = 1 ∧
        s2.sending_pkt_key = 0 ∧
        s2.broadcasting = true ∧
        s2.timer_armed = true ∧
        posted_removes s2.calls = posted_removes s.calls ∧
        step cfg s2 Event.timer_expiry =
          some { s2 with
                 timer_armed := false
                 broadcasting := false
                 broadcasting_num := 0
                 calls := s2.calls ++ [Call.msg_send Posted.REMOVE_QUEUE] }) ∧
      (cfg.ENABLE_BROADCAST_QUEUEING = false → s.radio_busy = false →
        s.broadcasting = false → ∀ env : CbEnv,
        (msg_queue_add cfg msg s).1 = 1 ∧
        (msg_queue_add cfg msg s).2.slot s.pending_num = msg ∧
        (msg_queue_add cfg msg s).2.sending_pkt_key = s.pending_num ∧
        (msg_queue_add cfg msg s).2.timer_armed = s.timer_armed ∧
        (msg_queue_add cfg msg s).2.calls = s.calls ++ [Call.send_with_retries msg.content 0] ∧
        (_event_cb cfg env netdev_event_t.TX_COMPLETE (msg_queue_add cfg msg s).2).pkt_queue =
          (msg_queue_add cfg msg s).2.pkt_queue ∧
        (_event_cb cfg env netdev_event_t.TX_COMPLETE (msg_queue_add cfg msg s).2).pending_num =
          s.pending_num + 1 ∧
        posted_removes
            (_event_cb cfg env netdev_event_t.TX_COMPLETE (msg_queue_add cfg msg s).2).calls =
          posted_removes s.calls + 1 ∧
        (msg_queue_remove cfg
            (_event_cb cfg env netdev_event_t.TX_COMPLETE (msg_queue_add cfg msg s).2)).pending_num =
          s.pending_num ∧
        (msg_queue_remove cfg
            (_event_cb cfg env netdev_event_t.TX_COMPLETE (msg_queue_add cfg msg s).2)).calls =
          s.calls ++ [Call.send_with_retries msg.content 0, Call.csma_send_succeeded,
            Call.retry_send_succeeded, Call.msg_send Posted.REMOVE_QUEUE,
            Call.gnrc_pktbuf_release msg.content] ∧
        (msg_queue_remove cfg
            (_event_cb cfg env netdev_event_t.TX_COMPLETE (msg_queue_add cfg msg s).2)).timer_armed =
          s.timer_armed) := by
  have hlen' := hlen
  unfold NETDEV_PKT_QUEUE_SIZE at hlen'
  have hp' := hp
  unfold NETDEV_PKT_QUEUE_SIZE at hp'
  constructor
  · intro hq es s2 hes hrun
    have hadd := add_bcast_queueing cfg hq msg s hp hb hbn
    rw [hadd] at hrun ⊢
    obtain ⟨a1, a2, a3, a4, a5, a6, a7⟩ := run_tx_held cfg es _ s2 rfl hes hrun
    simp only at a1 a2 a3 a4 a5 a6 a7
    refine ⟨rfl, ?_, rfl, rfl, rfl, a1, a2, a3, a4, a5, a6, ?_, ?_⟩
    · simp only [State.slot]
      apply getD_set_eq
      split
      · rw [add_shift_length]; omega
      · omega
    · rw [a7]
      simp [posted_removes]
    · simp only [step, a6, if_true, broadcast_cb, a3]
  · intro hq hr hbc env
    have hadd := add_bcast_idle cfg hq msg s hp hb hr
    have hslot : (s.pkt_queue.set s.pending_num msg).getD s.pending_num default = msg :=
      getD_set_eq _ _ _ _ (by omega)
    rw [hadd]
    have hcb : _event_cb cfg env netdev_event_t.TX_COMPLETE
        { s with
          radio_busy := true
          pkt_queue := s.pkt_queue.set s.pending_num msg
          sending_pkt_key := s.pending_num
          pending_num := s.pending_num + 1
          calls := s.calls ++ [Call.send_with_retries msg.content 0] } =
        { s with
          radio_busy := false
          pkt_queue := s.pkt_queue.set s.pending_num msg
          sending_pkt_key := s.pending_num
          pending_num := s.pending_num + 1
          calls := s.calls ++ [Call.send_with_retries msg.content 0, Call.csma_send_succeeded,
            Call.retry_send_succeeded, Call.msg_send Posted.REMOVE_QUEUE] } := by
      simp [_event_cb, tx_done, hbc]
    rw [hcb]
    have hrm := remove_in_flight_eq cfg
        { s with
          radio_busy := false
          pkt_queue := s.pkt_queue.set s.pending_num msg
          sending_pkt_key := s.pending_num
          pending_num := s.pending_num + 1
          calls := s.calls ++ [Call.send_with_retries msg.content 0, Call.csma_send_succeeded,
            Call.retry_send_succeeded, Call.msg_send Posted.REMOVE_QUEUE] }
        (by show ¬ s.pending_num = 0xFF; omega) (by show 0 < s.pending_num + 1; omega)
        (by show s.pending_num + 1 ≤ 255; omega)
    rw [if_neg (by
      intro h
      have h2 : 0 < s.broadcasting_num := h.2
      omega)] at hrm
    rw [hrm]
    refine ⟨rfl, hslot, rfl, rfl, rfl, rfl, rfl, ?_, ?_, ?_, rfl⟩
    · simp [posted_removes, List.count_append]
    · show s.pending_num + 1 - 1 = s.pending_num
      omega
    · simp only [State.slot, hslot]
      simp

/-- Witness of the amended C14: a broadcast submitted to the empty queue in
broadcast-queueing mode, followed by `TX_COMPLETE`. -/
theorem C14_broadcast_held_witness :
    Option.map State.pending_num
        (run queueingConfig (msg_queue_add queueingConfig ⟨3, 0x0202, broadcast_pkt 2⟩ init).2
          [Event.radio default netdev_event_t.TX_COMPLETE]) = some 1 := by
  obtain ⟨s2, h2⟩ := run_some queueingConfig [Event.radio default netdev_event_t.TX_COMPLETE]
    (msg_queue_add queueingConfig ⟨3, 0x0202, broadcast_pkt 2⟩ init).2
  have h := (C14_broadcast_held queueingConfig init ⟨3, 0x0202, broadcast_pkt 2⟩ (by decide)
    (by decide) (by decide) (by decide)).1 rfl
    [Event.radio default netdev_event_t.TX_COMPLETE] s2 (by decide) h2
  rw [h2]
  exact congrArg some h.2.2.2.2.2.2.1

/-- C15: when `l2addr` is stored and `k` is the first slot holding it,
`neighbor_table_update` replaces `rssi` of slot `k` by the quotient
`q = (8*rssi + 2*(-94 + 3*raw_rssi)) / 10`, the division truncating toward zero,
narrowed to `int8_t`: the value in `-128..127` congruent to `q` modulo 256, that is
`(q + 128) mod 256 - 128`; and `lqi` by `(8*lqi + 2*sample) / 10` narrowed to `uint8_t`
(modulo 256).  `addr`, `dutycycle` and `etx` of slot `k`, every other slot,
`neighbor_num` and the rest of the state are unchanged. -/
theorem C15_neighbor_update_existing (s : State) (l2addr : Nat) (hdr : gnrc_netif_hdr_t)
    (k : Nat) (hk : k < NEIGHBOR_TABLE_SIZE) (hlen : s.neighbor_table.length = NEIGHBOR_TABLE_SIZE)
    (hat : (s.neighbor_table.getD k default).addr = l2addr)
    (hfirst : ∀ j, j < k → (s.neighbor_table.getD j default).addr ≠ l2addr) :
    (neighbor_table_update l2addr hdr s).neighbor_table.getD k default =
        { addr := (s.neighbor_table.getD k default).addr
          dutycycle := (s.neighbor_table.getD k default).dutycycle
          etx := (s.neighbor_table.getD k default).etx
          rssi := (Int.tdiv
            (8 * (s.neighbor_table.getD k default).rssi + 2 * (-94 + 3 * (hdr.rssi : Int))) 10
              + 128) % 256 - 128
          lqi := ((8 * (s.neighbor_table.getD k default).lqi + 2 * hdr.lqi) / 10) % 256 } ∧
      -128 ≤ ((neighbor_table_update l2addr hdr s).neighbor_table.getD k default).rssi ∧
      ((neighbor_table_update l2addr hdr s).neighbor_table.getD k default).rssi ≤ 127 ∧
      (((neighbor_table_update l2addr hdr s).neighbor_table.getD k default).rssi -
          Int.tdiv (8 * (s.neighbor_table.getD k default).rssi +
            2 * (-94 + 3 * (hdr.rssi : Int))) 10) % 256 = 0 ∧
      ((neighbor_table_update l2addr hdr s).neighbor_table.getD k default).lqi < 256 ∧
      (∀ j, j ≠ k →
        (neighbor_table_update l2addr hdr s).neighbor_table.getD j default =
          s.neighbor_table.getD j default) ∧
      (neighbor_table_update l2addr hdr s).neighbor_num = s.neighbor_num ∧
      neighbor_table_update l2addr hdr s =
        { s with neighbor_table := (neighbor_table_update l2addr hdr s).neighbor_table } := by
  have hf := neighbor_find_first s.neighbor_table l2addr k hk hat hfirst
  have hnew : (neighbor_table_update l2addr hdr s).neighbor_table.getD k default =
      { addr := (s.neighbor_table.getD k default).addr
        dutycycle := (s.neighbor_table.getD k default).dutycycle
        etx := (s.neighbor_table.getD k default).etx
        rssi := (Int.tdiv
          (8 * (s.neighbor_table.getD k default).rssi + 2 * (-94 + 3 * (hdr.rssi : Int))) 10
            + 128) % 256 - 128
        lqi := ((8 * (s.neighbor_table.getD k default).lqi + 2 * hdr.lqi) / 10) % 256 } := by
    unfold neighbor_table_update
    rw [hf]
    exact nt_getD_set_eq _ _ _ _ (by omega)
  refine ⟨hnew, ?_, ?_, ?_, ?_, ?_, ?_, ?_⟩
  · rw [hnew]
    show -128 ≤ (_ + 128) % 256 - 128
    omega
  · rw [hnew]
    show (_ + 128) % 256 - 128 ≤ 127
    omega
  · rw [hnew]
    show ((_ + 128) % 256 - 128 - _) % 256 = 0
    omega
  · rw [hnew]
    show _ % 256 < 256
    omega
  · intro j hj
    unfold neighbor_table_update
    rw [hf]
    exact nt_getD_set_ne _ _ _ _ _ (fun h => hj h.symm)
  · unfold neighbor_table_update
    rw [hf]
  · unfold neighbor_table_update
    rw [hf]

/-- Witness of C15, on the entry of address 7.  Stored RSSI 127 and raw sample 255 give
the quotient `(8*127 + 2*671)/10 = 235`, narrowed to `-21`.  Stored RSSI -4 and raw
sample 31 give `(8*(-4) + 2*(-1))/10 = -34/10 = -3`, truncated toward zero.  The LQI
`(8*200 + 2*200)/10 = 200` stays. -/
theorem C15_neighbor_update_existing_witness :
    ((neighbor_table_update 7 { sample_rx_hdr with rssi := 159 } init).neighbor_table.getD 0
        default).rssi = 127 ∧
      ((neighbor_table_update 7 { sample_rx_hdr with rssi := 255 }
        (neighbor_table_update 7 { sample_rx_hdr with rssi := 159 } init)).neighbor_table.getD 0
          default).rssi = -21 ∧
      ((neighbor_table_update 7 { sample_rx_hdr with rssi := 31 }
        (neighbor_feed [7] init)).neighbor_table.getD 0 default).rssi = -3 ∧
      ((neighbor_table_update 7 { sample_rx_hdr with rssi := 31 }
        (neighbor_feed [7] init)).neighbor_table.getD 0 default).lqi = 200 := by
  have h1 := (C15_neighbor_update_existing
    (neighbor_table_update 7 { sample_rx_hdr with rssi := 159 } init) 7
    { sample_rx_hdr with rssi := 255 } 0 (by decide) (by decide) (by decide)
    (by intro j hj; omega)).1
  have h2 := (C15_neighbor_update_existing (neighbor_feed [7] init) 7
    { sample_rx_hdr with rssi := 31 } 0 (by decide) (by decide) (by decide)
    (by intro j hj; omega)).1
  rw [h1, h2]
  decide

/-- C16: the code on a frame from the source address `0x0000` received with the
initialised table: the search matches slot 0, whose `addr` was initialised to 0, so no
entry is created; `neighbor_num` stays 0 and slot 0 keeps `dutycycle = 0xffff` while its
RSSI and LQI are averaged with the initial zeros. -/
theorem C16_address_zero_not_created :
    neighbor_table_update_key 0 init = 0 ∧
      (neighbor_table_update 0 sample_rx_hdr init).neighbor_num = 0 ∧
      (neighbor_table_update 0 sample_rx_hdr init).neighbor_table.getD 0 default =
        { addr := 0, dutycycle := 0xffff, rssi := 0, lqi := 40, etx := 0 } ∧
      (neighbor_table_update 7 sample_rx_hdr init).neighbor_num = 1 ∧
      (neighbor_table_update 7 sample_rx_hdr init).neighbor_table.getD 0 default =
        { addr := 7, dutycycle := 1, rssi := -4, lqi := 200, etx := 0 } := by
  decide

/-- C17: the code on frames from eleven distinct source addresses: after ten entries
the eleventh call stores to index 10, past the last slot of the table, and
`neighbor_num` becomes 11. -/
theorem C17_neighbor_table_overflow :
    (neighbor_feed [1, 2, 3, 4, 5, 6, 7, 8, 9, 10] init).neighbor_num = 10 ∧
      neighbor_table_update_key 11 (neighbor_feed [1, 2, 3, 4, 5, 6, 7, 8, 9, 10] init) = 10 ∧
      NEIGHBOR_TABLE_SIZE = 10 ∧
      (neighbor_feed [1, 2, 3, 4, 5, 6, 7, 8, 9, 10, 11] init).neighbor_num = 11 := by
  decide

end DutyRouter

namespace Sensors

theorem shift_or_bytes (hi lo : Nat) (h1 : hi < 256) (h2 : lo < 256) :
    ((hi <<< 8) ||| lo) % 65536 = hi * 256 + lo := by
  have h : 2 ^ 8 * hi + lo = 2 ^ 8 * hi ||| lo := Nat.mul_add_lt_is_or (by omega) hi
  rw [Nat.shiftLeft_eq, Nat.mul_comm hi (2 ^ 8), ← h]
  omega

theorem u32_to_int_small (v : Nat) (h : v < 2147483648) : u32_to_int v = (v : Int) := by
  unfold u32_to_int
  have hm : v % 4294967296 = v := by omega
  rw [hm, if_pos h]

/-- C18: for the raw reading `raw = high*256 + low` and a configured range with upper end
`R`, `isl29035_read` returns `raw * R / 65536` when the three transfer results sum to at
least 3 (each successful transfer returns 1); the 32-bit product does not overflow and
the result lies in `0 <= result < R`.  When the sum is below 3 it returns -1. -/
theorem C18_isl29035_read_lux (dev : isl29035_t) (bus : isl29035_bus)
    (hrange : dev.range = ISL29035_RANGE_1K ∨ dev.range = ISL29035_RANGE_4K ∨
      dev.range = ISL29035_RANGE_16K ∨ dev.range = ISL29035_RANGE_64K) :
    (3 ≤ bus.ret_ldata + bus.ret_hdata + bus.ret_cmd1 →
        isl29035_read dev bus =
          (((bus.high % 256 * 256 + bus.low % 256) * isl29035_range_lux dev.range / 65536 : Nat)
            : Int) ∧
        (bus.high % 256 * 256 + bus.low % 256) * isl29035_range_lux dev.range < 4294967296 ∧
        0 ≤ isl29035_read dev bus ∧
        isl29035_read dev bus < (isl29035_range_lux dev.range : Int)) ∧
      (bus.ret_ldata + bus.ret_hdata + bus.ret_cmd1 < 3 → isl29035_read dev bus = -1) ∧
      (isl29035_range_lux dev.range = 1000 ∨ isl29035_range_lux dev.range = 4000 ∨
        isl29035_range_lux dev.range = 16000 ∨ isl29035_range_lux dev.range = 64000) := by
  have hl : bus.low % 256 < 256 := Nat.mod_lt _ (by decide)
  have hh : bus.high % 256 < 256 := Nat.mod_lt _ (by decide)
  have hres := shift_or_bytes (bus.high % 256) (bus.low % 256) hh hl
  refine ⟨?_, ?_, ?_⟩
  · intro hret
    have hnot : ¬ bus.ret_ldata + bus.ret_hdata + bus.ret_cmd1 < 3 := by omega
    have key : ∀ R : Nat, R ≤ 64000 → 0 < R →
        u32_to_int (((bus.high % 256 * 256 + bus.low % 256) * R % 4294967296) >>> 16) =
            (((bus.high % 256 * 256 + bus.low % 256) * R / 65536 : Nat) : Int) ∧
          (bus.high % 256 * 256 + bus.low % 256) * R < 4294967296 ∧
          (((bus.high % 256 * 256 + bus.low % 256) * R / 65536 : Nat) : Int) < (R : Int) := by
      intro R hR hR0
      have hraw : bus.high % 256 * 256 + bus.low % 256 ≤ 65535 := by omega
      have hprod : (bus.high % 256 * 256 + bus.low % 256) * R ≤ 65535 * 64000 :=
        Nat.mul_le_mul hraw hR
      have hprod2 : (bus.high % 256 * 256 + bus.low % 256) * R ≤ 65535 * R :=
        Nat.mul_le_mul_right R hraw
      have hlt : (bus.high % 256 * 256 + bus.low % 256) * R < 4294967296 := by omega
      have hm : (bus.high % 256 * 256 + bus.low % 256) * R % 4294967296 =
          (bus.high % 256 * 256 + bus.low % 256) * R := Nat.mod_eq_of_lt hlt
      have hdiv : (bus.high % 256 * 256 + bus.low % 256) * R / 65536 < R := by
        rw [Nat.div_lt_iff_lt_mul (by decide)]
        omega
      rw [hm, Nat.shiftRight_eq_div_pow]
      refine ⟨?_, hlt, by exact_mod_cast hdiv⟩
      rw [u32_to_int_small _ (by norm_num; omega)]
    unfold isl29035_read
    simp only [hnot, if_false, hres]
    rcases hrange with h | h | h | h
    · obtain ⟨k1, k2, k3⟩ := key 1000 (by decide) (by decide)
      simp only [h, isl29035_range_lux, if_true]
      exact ⟨k1, k2, by rw [k1]; exact Int.natCast_nonneg _, by rw [k1]; exact k3⟩
    · obtain ⟨k1, k2, k3⟩ := key 4000 (by decide) (by decide)
      simp only [h, isl29035_range_lux, ISL29035_RANGE_1K, ISL29035_RANGE_4K, if_true]
      simp only [show ¬ (1 : Nat) = 0 by decide, if_false]
      exact ⟨k1, k2, by rw [k1]; exact Int.natCast_nonneg _, by rw [k1]; exact k3⟩
    · obtain ⟨k1, k2, k3⟩ := key 16000 (by decide) (by decide)
      simp only [h, isl29035_range_lux, ISL29035_RANGE_1K, ISL29035_RANGE_4K,
        ISL29035_RANGE_16K, if_true]
      simp only [show ¬ (2 : Nat) = 0 by decide, show ¬ (2 : Nat) = 1 by decide, if_false]
      exact ⟨k1, k2, by rw [k1]; exact Int.natCast_nonneg _, by rw [k1]; exact k3⟩
    · obtain ⟨k1, k2, k3⟩ := key 64000 (by decide) (by decide)
      simp only [h, isl29035_range_lux, ISL29035_RANGE_1K, ISL29035_RANGE_4K,
        ISL29035_RANGE_16K, ISL29035_RANGE_64K, if_true]
      simp only [show ¬ (3 : Nat) = 0 by decide, show ¬ (3 : Nat) = 1 by decide,
        show ¬ (3 : Nat) = 2 by decide, if_false]
      exact ⟨k1, k2, by rw [k1]; exact Int.natCast_nonneg _, by rw [k1]; exact k3⟩
  · intro hret
    unfold isl29035_read
    simp only [hret, if_true]
  · rcases hrange with h | h | h | h <;> rw [h] <;> decide

/-- Witness of C18: range 4000, bytes `high = 0x80`, `low = 0x00`, all transfers return 1. -/
theorem C18_isl29035_read_lux_witness :
    isl29035_read ⟨0, 0x44, 5, ISL29035_RANGE_4K⟩ ⟨1, 0x00, 1, 0x80, 1⟩ = 2000 := by
  rw [((C18_isl29035_read_lux ⟨0, 0x44, 5, ISL29035_RANGE_4K⟩ ⟨1, 0x00, 1, 0x80, 1⟩
    (Or.inr (Or.inl rfl))).1 (by decide)).1]
  decide

/-- C19: the code of `read_acc`: the factor is 1 for `LSM303C_ACC_SCALE_2G`, but 4 for
`LSM303C_ACC_SCALE_4G` and 8 for `LSM303C_ACC_SCALE_8G`; a raw reading of 1 on the x
axis is reported as 4 with the 4g setting and as 8 with the 8g setting. -/
theorem C19_read_acc_factor :
    read_acc_fac ⟨0x1d, 0x1e, LSM303C_ACC_SCALE_2G⟩ = 1 ∧
      read_acc_fac ⟨0x1d, 0x1e, LSM303C_ACC_SCALE_4G⟩ = 4 ∧
      read_acc_fac ⟨0x1d, 0x1e, LSM303C_ACC_SCALE_8G⟩ = 8 ∧
      (lsm303c_read_acc acc_bus_one).1.x_axis = 1 ∧
      (read_acc ⟨0x1d, 0x1e, LSM303C_ACC_SCALE_2G⟩ acc_bus_one).1.val0 = 1 ∧
      (read_acc ⟨0x1d, 0x1e, LSM303C_ACC_SCALE_4G⟩ acc_bus_one).1.val0 = 4 ∧
      (read_acc ⟨0x1d, 0x1e, LSM303C_ACC_SCALE_8G⟩ acc_bus_one).1.val0 = 8 := by
  decide

end Sensors

namespace DutyRouter

/-- C20, as stated, fails.  A `DUTYCYCLE_SND` handled while `irq_pending` is true hands
the queued frame to the retry engine, and so does `msg_queue_add` for a broadcast
submitted while `irq_pending` is true and the radio receives: both test `radio_busy`
only. -/
theorem C20_counterexample :
    Option.map State.irq_pending (run riotConfig init (pull_events.take 2)) = some true ∧
      Option.map State.hand_off_count (run riotConfig init (pull_events.take 2)) = some 0 ∧
      Option.map State.hand_off_count (run riotConfig init pull_events) = some 1 ∧
      Option.map State.irq_pending (run riotConfig init (busy_broadcast_events.take 1))
        = some true ∧
      Option.map State.hand_off_count (run riotConfig init (busy_broadcast_events.take 1))
        = some 0 ∧
      Option.map State.hand_off_count (run riotConfig init busy_broadcast_events) = some 1 := by
  decide

/-- C20, amended: whenever a handler hands a frame to the retry engine, `radio_busy` was
false.  In the `REMOVE_QUEUE` and `CHECK_QUEUE` handlers, and in the
`GNRC_NETAPI_MSG_TYPE_SND` handler for a unicast frame, `irq_pending` was false as well
and the radio was not receiving when the handler asked (for the second call of
`msg_queue_send` in `REMOVE_QUEUE`: both times it asked).  The send primitives of the
radio are called by the `LINK_RETRANSMIT` handler only, with `irq_pending` false and the
radio not receiving. -/
theorem C20_hand_off_guards (cfg : Config) (hc : cfg.compiled) (m : Msg) (s s' : State)
    (hs : _gnrc_netdev_duty_thread cfg m s = some s') :
    (hand_offs s.calls < hand_offs s'.calls →
        s.radio_busy = false ∧
        (∀ rx1 rx2, m = Msg.REMOVE_QUEUE rx1 rx2 →
          s.irq_pending = false ∧ rx1 = false ∧
          ∀ s2, msg_queue_send cfg true (msg_queue_remove cfg s).recent_dst_l2addr
              (msg_queue_remove cfg s) = some s2 →
            hand_offs s2.calls = hand_offs s.calls → rx2 = false) ∧
        (∀ rx, m = Msg.CHECK_QUEUE rx → s.irq_pending = false ∧ rx = false) ∧
        (∀ pid pkt rx, m = Msg.NETAPI_SND pid pkt rx → hdr_unicast cfg pkt.data →
          s.irq_pending = false ∧ rx = false)) ∧
      (radio_sends s.calls < radio_sends s'.calls →
        ∃ pkt rx res env, m = Msg.LINK_RETRANSMIT pkt rx res env ∧
          s.irq_pending = false ∧ rx = false) := by
  cases m with
  | DUTYCYCLE_SND addr =>
    simp only [_gnrc_netdev_duty_thread] at hs
    split at hs
    · rename_i hg
      refine ⟨fun _ => ⟨hg.2, ?_, ?_, ?_⟩, fun h => ?_⟩
      · intro rx1 rx2 h; cases h
      · intro rx h; cases h
      · intro pid pkt rx h; cases h
      · rw [send_radio_sends cfg _ _ _ _ hs] at h; omega
    · simp only [Option.some.injEq] at hs; subst hs
      exact ⟨fun h => by omega, fun h => by omega⟩
  | REMOVE_QUEUE rx1 rx2 =>
    obtain ⟨c1, c2⟩ := remove_calls cfg s
    obtain ⟨_, f2, f3, _⟩ := remove_frame cfg s
    simp only [_gnrc_netdev_duty_thread] at hs
    split at hs
    · rename_i hg
      obtain ⟨_, g2, _, g4, g5⟩ := hg
      rw [f2] at g2
      rw [f3] at g4
      split at hs
      · simp at hs
      · rename_i s2 hs2
        have hr2 := send_radio_sends cfg _ _ _ _ hs2
        split at hs
        · rename_i hg2
          have hr3 := send_radio_sends cfg _ _ _ _ hs
          refine ⟨fun _ => ⟨g2, ?_, ?_, ?_⟩, fun h => ?_⟩
          · intro a b h
            cases h
            exact ⟨g4, g5, fun _ _ _ => hg2.2.2⟩
          · intro rx h; cases h
          · intro pid pkt rx h; cases h
          · rw [hr3, hr2, c2] at h; omega
        · rename_i hg2
          simp only [Option.some.injEq] at hs; subst hs
          refine ⟨fun hlt => ⟨g2, ?_, ?_, ?_⟩, fun h => ?_⟩
          · intro a b h
            cases h
            refine ⟨g4, g5, fun s2' hs2' heq => ?_⟩
            rw [hs2] at hs2'
            simp only [Option.some.injEq] at hs2'
            subst hs2'
            omega
          · intro rx h; cases h
          · intro pid pkt rx h; cases h
          · rw [hr2, c2] at h; omega
    · split at hs
      · simp only [Option.some.injEq] at hs; subst hs
        refine ⟨fun h => ?_, fun h => ?_⟩
        · simp only [hand_offs_append, c1] at h
          simp [hand_offs, Call.is_hand_off] at h
        · simp only [radio_sends_append, c2] at h
          simp [radio_sends, Call.is_radio_send] at h
      · simp only [Option.some.injEq] at hs; subst hs
        exact ⟨fun h => by omega, fun h => by omega⟩
  | CHECK_QUEUE rx =>
    simp only [_gnrc_netdev_duty_thread] at hs
    split at hs
    · rename_i hg
      refine ⟨fun _ => ⟨hg.1, ?_, ?_, ?_⟩, fun h => ?_⟩
      · intro rx1 rx2 h; cases h
      · intro rx' h; cases h; exact ⟨hg.2.1, hg.2.2⟩
      · intro pid pkt rx' h; cases h
      · rw [send_radio_sends cfg _ _ _ _ hs] at h; omega
    · simp only [Option.some.injEq] at hs; subst hs
      exact ⟨fun h => by omega, fun h => by omega⟩
  | NETDEV_EVENT =>
    simp only [_gnrc_netdev_duty_thread, Option.some.injEq] at hs; subst hs
    refine ⟨fun h => ?_, fun h => ?_⟩
    · simp [hand_offs_append, hand_offs, Call.is_hand_off] at h
    · simp [radio_sends_append, radio_sends, Call.is_radio_send] at h
  | NETAPI_SND pid pkt rx =>
    obtain ⟨a1, a2, a3, a4, a5⟩ := add_calls cfg hc
      { sender_pid := pid, type := cfg.GNRC_NETAPI_MSG_TYPE_SND, content := pkt } s
    simp only [_gnrc_netdev_duty_thread] at hs
    split at hs
    · split at hs
      · rename_i hg
        have hr := send_radio_sends cfg _ _ _ _ hs
        simp only [radio_sends_append] at hr
        obtain ⟨g1, g2, g3⟩ := hg
        refine ⟨fun _ => ⟨a5 g1, ?_, ?_, ?_⟩, fun h => ?_⟩
        · intro rx1 rx2 h; cases h
        · intro rx' h; cases h
        · intro pid' pkt' rx' h _
          cases h
          exact ⟨by rw [← a4]; exact g2, g3⟩
        · rw [hr, a1] at h
          simp [radio_sends, Call.is_radio_send] at h
      · rename_i hg
        simp only [Option.some.injEq] at hs; subst hs
        refine ⟨fun h => ?_, fun h => ?_⟩
        · simp only [hand_offs_append] at h
          have h' : hand_offs s.calls < hand_offs (msg_queue_add cfg
              { sender_pid := pid, type := cfg.GNRC_NETAPI_MSG_TYPE_SND, content := pkt }
              s).2.calls := by
            simp [hand_offs, Call.is_hand_off] at h ⊢
            exact h
          obtain ⟨b1, b2, _⟩ := a2 h'
          refine ⟨b1, ?_, ?_, ?_⟩
          · intro rx1 rx2 h; cases h
          · intro rx' h; cases h
          · intro pid' pkt' rx' h hu
            cases h
            exact absurd b2 ((hdr_unicast_iff cfg _).1 hu)
        · simp only [radio_sends_append, a1] at h
          simp [radio_sends, Call.is_radio_send] at h
    · simp only [Option.some.injEq] at hs; subst hs
      refine ⟨fun h => ?_, fun h => ?_⟩
      · simp only [hand_offs_append] at h
        have h' : hand_offs s.calls < hand_offs (msg_queue_add cfg
            { sender_pid := pid, type := cfg.GNRC_NETAPI_MSG_TYPE_SND, content := pkt }
            s).2.calls := by
          simp [hand_offs, Call.is_hand_off] at h ⊢
          exact h
        obtain ⟨b1, b2, _⟩ := a2 h'
        refine ⟨b1, ?_, ?_, ?_⟩
        · intro rx1 rx2 h; cases h
        · intro rx' h; cases h
        · intro pid' pkt' rx' h hu
          cases h
          exact absurd b2 ((hdr_unicast_iff cfg _).1 hu)
      · simp only [radio_sends_append, a1] at h
        simp [radio_sends, Call.is_radio_send] at h
  | NETAPI_SET ack =>
    cases ack with
    | none =>
      simp only [_gnrc_netdev_duty_thread, Option.some.injEq] at hs; subst hs
      refine ⟨fun h => ?_, fun h => ?_⟩
      · simp [hand_offs_append, hand_offs, Call.is_hand_off] at h
      · simp [radio_sends_append, radio_sends, Call.is_radio_send] at h
    | some b =>
      simp only [_gnrc_netdev_duty_thread, Option.some.injEq] at hs; subst hs
      refine ⟨fun h => ?_, fun h => ?_⟩
      · simp [hand_offs_append, hand_offs, Call.is_hand_off] at h
      · simp [radio_sends_append, radio_sends, Call.is_radio_send] at h
  | NETAPI_GET =>
    simp only [_gnrc_netdev_duty_thread, Option.some.injEq] at hs; subst hs
    refine ⟨fun h => ?_, fun h => ?_⟩
    · simp [hand_offs_append, hand_offs, Call.is_hand_off] at h
    · simp [radio_sends_append, radio_sends, Call.is_radio_send] at h
  | LINK_RETRANSMIT pkt rx res env =>
    simp only [_gnrc_netdev_duty_thread] at hs
    split at hs
    · rename_i hg
      refine ⟨fun h => ?_, fun _ => ⟨pkt, rx, res, env, rfl, hg.1, hg.2⟩⟩
      exfalso
      split at hs
      · simp only [Option.some.injEq] at hs; subst hs
        rw [(event_cb_calls cfg env _ _).1] at h
        split at h <;> simp [hand_offs_append, hand_offs, Call.is_hand_off] at h
      · simp only [Option.some.injEq] at hs; subst hs
        split at h <;> simp [hand_offs_append, hand_offs, Call.is_hand_off] at h
    · simp only [Option.some.injEq] at hs; subst hs
      refine ⟨fun h => ?_, fun h => ?_⟩
      · simp [hand_offs_append, hand_offs, Call.is_hand_off] at h
      · simp [radio_sends_append, radio_sends, Call.is_radio_send] at h
  | UNKNOWN =>
    simp only [_gnrc_netdev_duty_thread, Option.some.injEq] at hs; subst hs
    exact ⟨fun h => by omega, fun h => by omega⟩

/-- Witness of the amended C20: the `CHECK_QUEUE` handler hands the waiting frame over
with the radio idle and no interrupt pending. -/
theorem C20_hand_off_guards_witness :
    waiting_state.radio_busy = false ∧ waiting_state.irq_pending = false := by
  have h := (C20_hand_off_guards riotConfig (by decide) (Msg.CHECK_QUEUE false) waiting_state
    check_sent (by decide)).1 (by decide)
  exact ⟨h.1, (h.2.2.1 false rfl).1⟩

/-- C22, as stated, fails.  A broadcast was handed to the retry engine and has
completed, the `REMOVE_QUEUE` is not handled yet: `broadcasting` is false, and
`msg_queue_send` with `to_dutycycled_dest` false, or with `to_dutycycled_dest` true and
the address `0xffff`, selects entry 0, the broadcast, and hands it to the retry
engine. -/
theorem C22_counterexample :
    bcast_done_state.broadcasting = false ∧ bcast_done_state.radio_busy = false ∧
      (bcast_done_state.slot 0).content = broadcast_pkt 2 ∧
      is_bcast riotConfig (broadcast_pkt 2).data ∧
      msg_queue_send riotConfig false 0 bcast_done_state =
        some { bcast_done_state with
               recent_dst_l2addr := 0xffff
               sending_pkt_key := 0
               radio_busy := true
               calls := bcast_done_state.calls ++
                 [Call.send_with_retries (broadcast_pkt 2) (-1)] } ∧
      msg_queue_send riotConfig true 0xffff bcast_done_state =
        some { bcast_done_state with
               recent_dst_l2addr := 0xffff
               sending_pkt_key := 0
               radio_busy := true
               calls := bcast_done_state.calls ++
                 [Call.send_with_retries (broadcast_pkt 2) (-1)] } := by
  decide

/-- C22, amended: with `broadcasting` false, the entry `msg_queue_send` hands to the
retry engine is the first entry of the queue whose destination key equals the address
given (`to_dutycycled_dest` true), or entry 0 (`to_dutycycled_dest` false); the flags of
the entries play no part, so the entry is a unicast frame whenever every queued entry
is. -/
theorem C22_selection_ignores_flags (cfg : Config) (t : Bool) (d : Nat) (s s' : State)
    (hb : s.broadcasting = false) (hp : s.pending_num ≤ NETDEV_PKT_QUEUE_SIZE)
    (hs : msg_queue_send cfg t d s = some s')
    (hh : hand_offs s.calls < hand_offs s'.calls) :
    ∃ i, i < s.pending_num ∧
      s'.sending_pkt_key = i ∧
      s'.calls = s.calls ++ [Call.send_with_retries (s.slot i).content (-1)] ∧
      (t = true → pkt_dst_l2addr cfg (s.slot i).content.data = d ∧
        ∀ j, j < i → pkt_dst_l2addr cfg (s.slot j).content.data ≠ d) ∧
      (t = false → i = 0) ∧
      ((∀ j, j < s.pending_num → hdr_unicast cfg (s.slot j).content.data) →
        hdr_unicast cfg (s.slot i).content.data) := by
  obtain ⟨i, hi, hsc, hs'⟩ := send_selected cfg t d s s' hb hp hs hh
  obtain ⟨_, _, _, h4, h5⟩ := send_scan_some cfg _ _ _ _ _ _ _ hsc
  refine ⟨i, hi, by rw [hs'], by rw [hs'], ?_, ?_, fun hall => hall i hi⟩
  · intro ht
    subst ht
    constructor
    · rcases h4 with ⟨_, h⟩ | ⟨h, _⟩
      · exact h
      · exact absurd h (by decide)
    · intro j hj hk
      exact h5 j (Nat.zero_le _) hj (Or.inl ⟨rfl, hk⟩)
  · intro ht
    subst ht
    by_contra hne
    exact h5 0 (Nat.le_refl _) (Nat.pos_of_ne_zero hne) (Or.inr ⟨rfl, rfl⟩)

/-- Witness of the amended C22: two unicasts wait in the queue, the second is the
first for address `0x0101`; `msg_queue_send` for that address selects index 1. -/
theorem C22_selection_ignores_flags_witness :
    ∃ i, i < 2 ∧
      (pkt_dst_l2addr riotConfig
        (((run riotConfig init
          [ Event.message (Msg.NETAPI_SND 3 (unicast_pkt 1 2 0) true),
            Event.message (Msg.NETAPI_SND 3 (unicast_pkt 2 1 1) true) ]).getD init).slot
              i).content.data = 0x0101) := by
  obtain ⟨i, hi, _, _, h, _, _⟩ := C22_selection_ignores_flags riotConfig true 0x0101
    ((run riotConfig init
      [ Event.message (Msg.NETAPI_SND 3 (unicast_pkt 1 2 0) true),
        Event.message (Msg.NETAPI_SND 3 (unicast_pkt 2 1 1) true) ]).getD init)
    ((msg_queue_send riotConfig true 0x0101
      ((run riotConfig init
        [ Event.message (Msg.NETAPI_SND 3 (unicast_pkt 1 2 0) true),
          Event.message (Msg.NETAPI_SND 3 (unicast_pkt 2 1 1) true) ]).getD init)).getD init)
    (by decide) (by decide) (by decide) (by decide)
  exact ⟨i, hi, (h rfl).1⟩

/-- C23: the `REMOVE_QUEUE` handler, in the state `msg_queue_remove` leaves, with
`pending_num > 0`, `radio_busy` false, `recent_dst_l2addr != 0xffff`, `irq_pending`
false and the radio not receiving.  When entry `k` is the first whose destination key
is `recent_dst_l2addr`, that entry is handed to the retry engine, whatever precedes it;
when no entry has that key, entry 0 is handed instead, provided the radio is still not
receiving at the second test (otherwise nothing is handed).  The destination key of an
entry is `dst[1]*256 + dst[0]` for a short destination address and
`dst[7]*256 + dst[6]` otherwise. -/
theorem C23_bursty_coalescing (cfg : Config) (s : State) (rx1 rx2 : Bool)
    (hb : (msg_queue_remove cfg s).broadcasting = false)
    (hp0 : (msg_queue_remove cfg s).pending_num ≠ 0)
    (hp : (msg_queue_remove cfg s).pending_num ≤ NETDEV_PKT_QUEUE_SIZE)
    (hr : (msg_queue_remove cfg s).radio_busy = false)
    (hrec : (msg_queue_remove cfg s).recent_dst_l2addr ≠ 0xffff)
    (hirq : (msg_queue_remove cfg s).irq_pending = false) (hrx1 : rx1 = false) :
    (∀ k, k < (msg_queue_remove cfg s).pending_num →
        pkt_dst_l2addr cfg ((msg_queue_remove cfg s).slot k).content.data =
          (msg_queue_remove cfg s).recent_dst_l2addr →
        (∀ j, j < k → pkt_dst_l2addr cfg ((msg_queue_remove cfg s).slot j).content.data ≠
          (msg_queue_remove cfg s).recent_dst_l2addr) →
        _gnrc_netdev_duty_thread cfg (Msg.REMOVE_QUEUE rx1 rx2) s =
          some { msg_queue_remove cfg s with
                 sending_pkt_key := k
                 radio_busy := true
                 calls := (msg_queue_remove cfg s).calls ++
                   [Call.send_with_retries ((msg_queue_remove cfg s).slot k).content (-1)] }) ∧
      ((∀ j, j < (msg_queue_remove cfg s).pending_num →
          pkt_dst_l2addr cfg ((msg_queue_remove cfg s).slot j).content.data ≠
            (msg_queue_remove cfg s).recent_dst_l2addr) →
        (rx2 = false →
          _gnrc_netdev_duty_thread cfg (Msg.REMOVE_QUEUE rx1 rx2) s =
            some { msg_queue_remove cfg s with
                   recent_dst_l2addr :=
                     pkt_dst_l2addr cfg ((msg_queue_remove cfg s).slot 0).content.data
                   sending_pkt_key := 0
                   radio_busy := true
                   calls := (msg_queue_remove cfg s).calls ++
                     [Call.send_with_retries ((msg_queue_remove cfg s).slot 0).content (-1)] }) ∧
        (rx2 = true →
          _gnrc_netdev_duty_thread cfg (Msg.REMOVE_QUEUE rx1 rx2) s =
            some (msg_queue_remove cfg s))) ∧
      ∀ hdr : gnrc_netif_hdr_t,
        pkt_dst_l2addr cfg hdr =
          (if hdr.dst_l2addr_len = cfg.IEEE802154_SHORT_ADDRESS_LEN then
            byteAt hdr.dst_addr 1 * 256 + byteAt hdr.dst_addr 0
          else byteAt hdr.dst_addr 7 * 256 + byteAt hdr.dst_addr 6) := by
  have hg : (msg_queue_remove cfg s).pending_num ≠ 0 ∧
      (msg_queue_remove cfg s).radio_busy = false ∧
      (msg_queue_remove cfg s).recent_dst_l2addr ≠ 0xffff ∧
      (msg_queue_remove cfg s).irq_pending = false ∧ rx1 = false :=
    ⟨hp0, hr, hrec, hirq, hrx1⟩
  refine ⟨?_, ?_, ?_⟩
  · intro k hk hkey hmin
    have hsend := send_to_dst cfg _ (msg_queue_remove cfg s) k hb hr hp hk hkey hmin
    simp only [_gnrc_netdev_duty_thread]
    rw [if_pos hg, hsend]
    simp
  · intro hnone
    have hsend := send_no_dst cfg _ (msg_queue_remove cfg s) hb hr hnone
    constructor
    · intro hrx2
      simp only [_gnrc_netdev_duty_thread]
      rw [if_pos hg, hsend]
      simp only
      rw [if_pos ⟨hr, hirq, hrx2⟩]
      exact send_always_on cfg 0 _ hb hr (Nat.pos_of_ne_zero hp0)
    · intro hrx2
      simp only [_gnrc_netdev_duty_thread]
      rw [if_pos hg, hsend]
      simp only
      rw [if_neg (by rintro ⟨_, _, h⟩; rw [hrx2] at h; exact absurd h (by decide))]
  · intro hdr
    unfold pkt_dst_l2addr
    split <;> exact shift_or_eq _ _ (byteAt_lt _ _) (byteAt_lt _ _)

/-- Witness of C23.  Frames for `0x0101`, `0x0002` and `0x0101` were submitted and the
first has completed: handling the `REMOVE_QUEUE` releases the first frame and, with
`recent_dst_l2addr = 0x0101`, hands over the third frame, now at index 1, past the frame
for `0x0002` at index 0.  In scenario S2 (two frames for `0x0101`, the first has
completed) the second frame is handed over. -/
theorem C23_bursty_coalescing_witness :
    (msg_queue_remove riotConfig bypass_state).recent_dst_l2addr = 0x0101 ∧
      pkt_dst_l2addr riotConfig ((msg_queue_remove riotConfig bypass_state).slot 0).content.data
        = 0x0002 ∧
      Option.map (fun x => (x.sending_pkt_key, x.recent_dst_l2addr, x.pending_num))
        (_gnrc_netdev_duty_thread riotConfig (Msg.REMOVE_QUEUE false false) bypass_state)
        = some (1, 0x0101, 2) ∧
      Option.map (fun x => x.calls.drop 7)
        (_gnrc_netdev_duty_thread riotConfig (Msg.REMOVE_QUEUE false false) bypass_state) =
        some [Call.gnrc_pktbuf_release (unicast_pkt 1 1 1),
          Call.send_with_retries (unicast_pkt 3 1 1) (-1)] ∧
      Option.map (fun x => (x.sending_pkt_key, x.recent_dst_l2addr, x.pending_num))
        (_gnrc_netdev_duty_thread riotConfig (Msg.REMOVE_QUEUE false false) fifo_final)
        = some (0, 0x0101, 1) ∧
      Option.map (fun x => x.calls.drop 6)
        (_gnrc_netdev_duty_thread riotConfig (Msg.REMOVE_QUEUE false false) fifo_final) =
        some [Call.gnrc_pktbuf_release (unicast_pkt 1 1 1),
          Call.send_with_retries (unicast_pkt 2 1 1) (-1)] := by
  have h1 := (C23_bursty_coalescing riotConfig bypass_state false false (by decide) (by decide)
    (by decide) (by decide) (by decide) (by decide) rfl).1 1 (by decide) (by decide)
    (by intro j hj; have hj0 : j = 0 := by omega
        subst hj0; decide)
  have h2 := (C23_bursty_coalescing riotConfig fifo_final false false (by decide) (by decide)
    (by decide) (by decide) (by decide) (by decide) rfl).1 0 (by decide) (by decide)
    (by intro j hj; omega)
  rw [h1, h2]
  decide

/-- C24: on `RX_COMPLETE` the callback stores the source key of the received frame
(`src[1]*256 + src[0]` for a short source address, `src[7]*256 + src[6]` otherwise) in
`global_src_l2addr`, which the posted message points to, posts one `DUTYCYCLE_SND`
exactly when `rx_data_request` is true and `pending_num > 0`, and leaves
`rx_data_request` false.  Handling `DUTYCYCLE_SND` for address `a` with `pending_num > 0`
and `radio_busy` false (and no broadcast held) hands the first queued frame whose
destination key is `a` to the retry engine. -/
theorem C24_data_request_pull (cfg : Config) (env : CbEnv) (s : State) :
    (_event_cb cfg env netdev_event_t.RX_COMPLETE s).rx_data_request = false ∧
      (_event_cb cfg env netdev_event_t.RX_COMPLETE s).global_src_l2addr =
        pkt_src_l2addr cfg env.recv.data ∧
      (env.recv.data.src_l2addr_len = cfg.IEEE802154_SHORT_ADDRESS_LEN →
        pkt_src_l2addr cfg env.recv.data =
          byteAt env.recv.data.src_addr 1 * 256 + byteAt env.recv.data.src_addr 0) ∧
      (env.recv.data.src_l2addr_len ≠ cfg.IEEE802154_SHORT_ADDRESS_LEN →
        pkt_src_l2addr cfg env.recv.data =
          byteAt env.recv.data.src_addr 7 * 256 + byteAt env.recv.data.src_addr 6) ∧
      posted_sends (_event_cb cfg env netdev_event_t.RX_COMPLETE s).calls =
        posted_sends s.calls +
          (if s.rx_data_request = true ∧ 0 < s.pending_num then 1 else 0) ∧
      (_event_cb cfg env netdev_event_t.RX_COMPLETE s).pending_num = s.pending_num ∧
      (_event_cb cfg env netdev_event_t.RX_COMPLETE s).pkt_queue = s.pkt_queue ∧
      (_event_cb cfg env netdev_event_t.RX_COMPLETE s).radio_busy = s.radio_busy ∧
      ∀ (x : State) (a k : Nat), x.broadcasting = false → x.radio_busy = false →
        x.pending_num ≤ NETDEV_PKT_QUEUE_SIZE → k < x.pending_num →
        pkt_dst_l2addr cfg (x.slot k).content.data = a →
        (∀ j, j < k → pkt_dst_l2addr cfg (x.slot j).content.data ≠ a) →
        _gnrc_netdev_duty_thread cfg (Msg.DUTYCYCLE_SND a) x =
          some { x with
                 recent_dst_l2addr := a
                 sending_pkt_key := k
                 radio_busy := true
                 calls := x.calls ++ [Call.send_with_retries (x.slot k).content (-1)] } := by
  obtain ⟨f1, f2, f3, f4, f5, _⟩ :=
    neighbor_update_frame (pkt_src_l2addr cfg env.recv.data) env.recv.data s
  refine ⟨?_, ?_, pkt_src_short cfg _, pkt_src_long cfg _, ?_, ?_, ?_, ?_, ?_⟩
  · simp [_event_cb]
  · simp only [_event_cb]
    split <;> rfl
  · simp only [_event_cb, f1, f2]
    by_cases hc : s.rx_data_request = true ∧ s.pending_num ≠ 0
    · rw [if_pos hc, if_pos ⟨hc.1, Nat.pos_of_ne_zero hc.2⟩]
      simp [posted_sends, List.count_append, f3]
    · rw [if_neg hc, if_neg (fun h => hc ⟨h.1, Nat.pos_iff_ne_zero.mp h.2⟩)]
      simp [posted_sends, List.count_append, f3]
  · simp only [_event_cb]
    split <;> exact f1
  · simp only [_event_cb]
    split <;> exact f4
  · simp only [_event_cb]
    split <;> exact f5
  · intro x a k hb hr hp hk hkey hmin
    simp only [_gnrc_netdev_duty_thread]
    rw [if_pos ⟨by omega, hr⟩]
    exact send_to_dst cfg a x k hb hr hp hk hkey hmin

/-- Witness of C24 (scenario S3): a frame for `0x0101` waits in the queue; `RX_DATAREQ`
and `RX_COMPLETE` from source `0x0101` post one `DUTYCYCLE_SND` with
`global_src_l2addr = 0x0101`, and handling it hands the waiting frame to the retry
engine. -/
theorem C24_data_request_pull_witness :
    Option.map State.global_src_l2addr (run riotConfig init pull_request_events) = some 0x0101 ∧
      Option.map (fun x => posted_sends x.calls) (run riotConfig init pull_request_events)
        = some 1 ∧
      Option.map State.sending_pkt_key
        (_gnrc_netdev_duty_thread riotConfig (Msg.DUTYCYCLE_SND 0x0101)
          ((run riotConfig init pull_request_events).getD init)) = some 0 := by
  refine ⟨by decide, by decide, ?_⟩
  rw [(C24_data_request_pull riotConfig default init).2.2.2.2.2.2.2.2
    ((run riotConfig init pull_request_events).getD init) 0x0101 0 (by decide) (by decide)
    (by decide) (by decide) (by decide) (by intro j hj; omega)]
  rfl

/-- C25: a TX event after which the frame is tried again (`TX_MEDIUM_BUSY` with
`csma_send_failed` or `retry_send_failed` true, `TX_NOACK` with `retry_send_failed`
true) leaves every variable of the controller as it is and posts no `REMOVE_QUEUE`; the
only call it may add is `csma_send_succeeded`.  Hence any number of such events
followed by one `TX_COMPLETE` leave the queue, `pending_num` and `sending_pkt_key`
unchanged, clear `radio_busy` and post exactly one `REMOVE_QUEUE` (none while
`broadcasting`). -/
theorem C25_retry_changes_nothing (cfg : Config) (s : State) (es : List Event) (env : CbEnv)
    (hes : ∀ e ∈ es, e.is_tx_retry = true) :
    (∃ s1, run cfg s es = some s1 ∧
        s1 = { s with calls := s1.calls } ∧
        s1.radio_busy = s.radio_busy ∧ s1.sending_pkt_key = s.sending_pkt_key ∧
        s1.pending_num = s.pending_num ∧ s1.pkt_queue = s.pkt_queue ∧
        s1.recent_dst_l2addr = s.recent_dst_l2addr ∧ s1.broadcasting = s.broadcasting ∧
        posted_removes s1.calls = posted_removes s.calls) ∧
      (∃ s2, run cfg s (es ++ [Event.radio env netdev_event_t.TX_COMPLETE]) = some s2 ∧
        s2.radio_busy = false ∧ s2.sending_pkt_key = s.sending_pkt_key ∧
        s2.pending_num = s.pending_num ∧ s2.pkt_queue = s.pkt_queue ∧
        s2.broadcasting = s.broadcasting ∧
        posted_removes s2.calls =
          posted_removes s.calls + (if s.broadcasting = true then 0 else 1)) := by
  obtain ⟨l, hl, pl⟩ := retry_run cfg es s hes
  constructor
  · refine ⟨_, hl, rfl, rfl, rfl, rfl, rfl, rfl, rfl, ?_⟩
    show posted_removes (s.calls ++ l) = posted_removes s.calls
    rw [posted_removes_append, pl]
    rfl
  · rw [run_append, hl]
    by_cases hb : s.broadcasting = true
    · refine ⟨_, rfl, ?_⟩
      simp [step, _event_cb, tx_done, hb, posted_removes_append, pl]
      simp [posted_removes]
    · refine ⟨_, rfl, ?_⟩
      simp [step, _event_cb, tx_done, hb, posted_removes_append, pl]
      simp [posted_removes]

/-- Witness of C25 (scenario S5): the unicast in flight is not acknowledged twice, then
completes; one `REMOVE_QUEUE` is posted and the frame is still in flight at index 0. -/
theorem C25_retry_changes_nothing_witness :
    ∃ s2, run riotConfig one_queued
        (noack_events ++ [Event.radio default netdev_event_t.TX_COMPLETE]) = some s2 ∧
      s2.radio_busy = false ∧ s2.sending_pkt_key = 0 ∧ s2.pending_num = 1 ∧
      posted_removes s2.calls = 1 := by
  obtain ⟨s2, h, h1, h2, h3, _, _, h6⟩ :=
    (C25_retry_changes_nothing riotConfig one_queued noack_events default (by decide)).2
  exact ⟨s2, h, h1, h2, h3, h6⟩

/-- C26: the `LINK_RETRANSMIT` handler.  With `irq_pending` false and the radio not
receiving, the frame goes to `resend_without_release` when `retry_rexmit` is true and to
`send_without_release` otherwise, with the flag `pending_num > 1`; when the primitive
returns a negative value the result is the state after a `TX_MEDIUM_BUSY` event in the
state the primitive left.  Otherwise no primitive is called, the variables are unchanged
and one `LINK_RETRANSMIT` carrying the same frame is posted.  `send_packet` stores
`retransmission` in `retry_rexmit` and posts `LINK_RETRANSMIT` with the frame. -/
theorem C26_link_retransmit (cfg : Config) (pkt : gnrc_pktsnip_t) (rx : Bool) (res : Int)
    (env : CbEnv) (s : State) :
    (s.irq_pending = false ∧ rx = false →
        (s.retry_rexmit = true → 0 ≤ res →
          _gnrc_netdev_duty_thread cfg (Msg.LINK_RETRANSMIT pkt rx res env) s =
            some { s with
                   calls := s.calls ++
                     [Call.resend_without_release pkt (decide (s.pending_num > 1))] }) ∧
        (s.retry_rexmit = false → 0 ≤ res →
          _gnrc_netdev_duty_thread cfg (Msg.LINK_RETRANSMIT pkt rx res env) s =
            some { s with
                   calls := s.calls ++
                     [Call.send_without_release pkt (decide (s.pending_num > 1))] }) ∧
        (s.retry_rexmit = true → res < 0 →
          _gnrc_netdev_duty_thread cfg (Msg.LINK_RETRANSMIT pkt rx res env) s =
            step cfg
              { s with
                calls := s.calls ++
                  [Call.resend_without_release pkt (decide (s.pending_num > 1))] }
              (Event.radio env netdev_event_t.TX_MEDIUM_BUSY)) ∧
        (s.retry_rexmit = false → res < 0 →
          _gnrc_netdev_duty_thread cfg (Msg.LINK_RETRANSMIT pkt rx res env) s =
            step cfg
              { s with
                calls := s.calls ++
                  [Call.send_without_release pkt (decide (s.pending_num > 1))] }
              (Event.radio env netdev_event_t.TX_MEDIUM_BUSY))) ∧
      (s.irq_pending = true ∨ rx = true →
        _gnrc_netdev_duty_thread cfg (Msg.LINK_RETRANSMIT pkt rx res env) s =
            some { s with calls := s.calls ++ [Call.msg_send (Posted.LINK_RETRANSMIT pkt)] } ∧
          ∀ s', _gnrc_netdev_duty_thread cfg (Msg.LINK_RETRANSMIT pkt rx res env) s = some s' →
            radio_sends s'.calls = radio_sends s.calls) ∧
      (∀ (retransmission : Bool) (sent : Int), 0 < sent →
        send_packet pkt retransmission sent s =
          some { s with
                 retry_rexmit := retransmission
                 calls := s.calls ++ [Call.msg_send (Posted.LINK_RETRANSMIT pkt)] }) := by
  refine ⟨?_, ?_, ?_⟩
  · rintro ⟨hi, hr⟩
    refine ⟨?_, ?_, ?_, ?_⟩
    · intro hx hres
      simp [_gnrc_netdev_duty_thread, hi, hr, hx, not_lt.mpr hres]
    · intro hx hres
      simp [_gnrc_netdev_duty_thread, hi, hr, hx, not_lt.mpr hres]
    · intro hx hres
      simp [_gnrc_netdev_duty_thread, hi, hr, hx, hres, step]
    · intro hx hres
      simp [_gnrc_netdev_duty_thread, hi, hr, hx, hres, step]
  · intro h
    have hg : ¬ (s.irq_pending = false ∧ rx = false) := by
      rintro ⟨h1, h2⟩
      rcases h with h | h
      · rw [h1] at h; exact absurd h (by decide)
      · rw [h2] at h; exact absurd h (by decide)
    have heq : _gnrc_netdev_duty_thread cfg (Msg.LINK_RETRANSMIT pkt rx res env) s =
        some { s with calls := s.calls ++ [Call.msg_send (Posted.LINK_RETRANSMIT pkt)] } := by
      simp only [_gnrc_netdev_duty_thread]
      rw [if_neg hg]
    refine ⟨heq, ?_⟩
    intro s' hs'
    rw [heq] at hs'
    simp only [Option.some.injEq] at hs'
    subst hs'
    show radio_sends (s.calls ++ [Call.msg_send (Posted.LINK_RETRANSMIT pkt)]) = _
    rw [radio_sends_append]
    rfl
  · intro r sent hs
    simp [send_packet, not_le.mpr hs]

/-- C27: in the compiled configuration every state the event loop reaches has
`broadcasting = false` and `broadcasting_num = 0`; the hold timer is not armed and
`xtimer_set` was never called; an expiry of the timer therefore changes nothing
(`broadcast_cb` does not run); and in every state in which a handler calls
`msg_queue_send`, `broadcasting` is false, so the call takes the unicast branch. -/
theorem C27_broadcast_hold_unreachable (cfg : Config) (hc : cfg.compiled) (es : List Event)
    (s : State) (h : run cfg init es = some s) :
    s.broadcasting = false ∧ s.broadcasting_num = 0 ∧ s.timer_armed = false ∧
      timer_sets s.calls = 0 ∧
      step cfg s Event.timer_expiry = some s ∧
      ∀ x ∈ run_sites cfg init es, x.broadcasting = false ∧ x.broadcasting_num = 0 := by
  have hi := inv_run cfg hc es init s inv_init h
  refine ⟨hi.bcast, hi.bnum, hi.timer, ?_, ?_, ?_⟩
  · rw [run_timer cfg hc es init s inv_init h]
    rfl
  · simp [step, hi.timer]
  · intro x hx
    have hxi := run_sites_inv cfg hc es init x inv_init hx
    exact ⟨hxi.bcast, hxi.bnum⟩

/-- Witness of C27 on the sample run, which submits a broadcast. -/
theorem C27_broadcast_hold_unreachable_witness :
    run riotConfig init sample_events = some sample_state ∧
      sample_state.broadcasting = false ∧ sample_state.timer_armed = false ∧
      timer_sets sample_state.calls = 0 := by
  obtain ⟨h1, _, h3, h4, _⟩ :=
    C27_broadcast_hold_unreachable riotConfig (by decide) sample_events sample_state (by decide)
  exact ⟨by decide, h1, h3, h4⟩

/-- C28: `assert(!radio_busy)` in `msg_queue_send` never fails.  From every state and for
every sequence of events the run goes through (no handler ends in a failed assertion),
every single handler returns, and in every state in which a handler calls
`msg_queue_send` the flag `radio_busy` is false, so the call passes the assertion
whatever its arguments. -/
theorem C28_assert_never_fails (cfg : Config) (es : List Event) (s : State) :
    (∃ s', run cfg s es = some s') ∧
      (∀ m, ∃ s', _gnrc_netdev_duty_thread cfg m s = some s') ∧
      ∀ x ∈ run_sites cfg s es,
        x.radio_busy = false ∧ ∀ t d, ∃ x', msg_queue_send cfg t d x = some x' := by
  refine ⟨run_some cfg es s, fun m => thread_some cfg m s, ?_⟩
  intro x hx
  have hr := run_sites_idle cfg es s x hx
  exact ⟨hr, fun t d => send_some cfg t d x hr⟩

/-- C29: with `sending_pkt_key = 0xFF`, `msg_queue_remove` returns at once: the whole
state is unchanged, so no frame is released. -/
theorem C29_spurious_remove (cfg : Config) (s : State) (hk : s.sending_pkt_key = 0xFF) :
    msg_queue_remove cfg s = s ∧
      (msg_queue_remove cfg s).calls = s.calls ∧
      (msg_queue_remove cfg s).pkt_queue = s.pkt_queue ∧
      (msg_queue_remove cfg s).pending_num = s.pending_num ∧
      (msg_queue_remove cfg s).broadcasting_num = s.broadcasting_num ∧
      (msg_queue_remove cfg s).broadcasting = s.broadcasting ∧
      (msg_queue_remove cfg s).sending_pkt_key = s.sending_pkt_key ∧
      (msg_queue_remove cfg s).radio_busy = s.radio_busy ∧
      (msg_queue_remove cfg s).recent_dst_l2addr = s.recent_dst_l2addr := by
  have h : msg_queue_remove cfg s = s := by
    unfold msg_queue_remove
    rw [if_pos hk]
  rw [h]
  exact ⟨rfl, rfl, rfl, rfl, rfl, rfl, rfl, rfl, rfl⟩

/-- Witness of C29: a `REMOVE_QUEUE` with nothing in flight, in a state with one frame
waiting in the queue. -/
theorem C29_spurious_remove_witness :
    waiting_state.pending_num = 1 ∧ msg_queue_remove riotConfig waiting_state = waiting_state :=
  ⟨by decide, (C29_spurious_remove riotConfig waiting_state (by decide)).1⟩

/-- C30: the moving averages of `neighbor_table_update` for a stored address, first
found in slot `k`.  With the old LQI and the sample in `0..255`, the new LQI is
`(8*old + 2*sample)/10` without wrap, lies between the smaller and the larger of the
two, and equals the old one when the sample is 0 to 4 above it.  With the old RSSI in
`-128..127` and a raw sample of at most 73, the new RSSI is the truncating quotient
`(8*old + 2*(-94 + 3*raw))/10` without wrap, lies between the old value and the
converted sample and fits `int8_t`. -/
theorem C30_moving_average_bounds (s : State) (l2addr : Nat) (hdr : gnrc_netif_hdr_t)
    (k : Nat) (hk : k < NEIGHBOR_TABLE_SIZE)
    (hlen : s.neighbor_table.length = NEIGHBOR_TABLE_SIZE)
    (hat : (s.neighbor_table.getD k default).addr = l2addr)
    (hfirst : ∀ j, j < k → (s.neighbor_table.getD j default).addr ≠ l2addr)
    (hold : (s.neighbor_table.getD k default).lqi ≤ 255) (hsample : hdr.lqi ≤ 255)
    (hlo : -128 ≤ (s.neighbor_table.getD k default).rssi)
    (hhi : (s.neighbor_table.getD k default).rssi ≤ 127) (hraw : hdr.rssi ≤ 73) :
    ((neighbor_table_update l2addr hdr s).neighbor_table.getD k default).lqi =
        (8 * (s.neighbor_table.getD k default).lqi + 2 * hdr.lqi) / 10 ∧
      min (s.neighbor_table.getD k default).lqi hdr.lqi ≤
        ((neighbor_table_update l2addr hdr s).neighbor_table.getD k default).lqi ∧
      ((neighbor_table_update l2addr hdr s).neighbor_table.getD k default).lqi ≤
        max (s.neighbor_table.getD k default).lqi hdr.lqi ∧
      ((neighbor_table_update l2addr hdr s).neighbor_table.getD k default).lqi ≤ 255 ∧
      ((s.neighbor_table.getD k default).lqi ≤ hdr.lqi →
        hdr.lqi - (s.neighbor_table.getD k default).lqi ≤ 4 →
        ((neighbor_table_update l2addr hdr s).neighbor_table.getD k default).lqi =
          (s.neighbor_table.getD k default).lqi) ∧
      ((neighbor_table_update l2addr hdr s).neighbor_table.getD k default).rssi =
        Int.tdiv (8 * (s.neighbor_table.getD k default).rssi +
          2 * (-94 + 3 * (hdr.rssi : Int))) 10 ∧
      min (s.neighbor_table.getD k default).rssi (-94 + 3 * (hdr.rssi : Int)) ≤
        ((neighbor_table_update l2addr hdr s).neighbor_table.getD k default).rssi ∧
      ((neighbor_table_update l2addr hdr s).neighbor_table.getD k default).rssi ≤
        max (s.neighbor_table.getD k default).rssi (-94 + 3 * (hdr.rssi : Int)) ∧
      -128 ≤ ((neighbor_table_update l2addr hdr s).neighbor_table.getD k default).rssi ∧
      ((neighbor_table_update l2addr hdr s).neighbor_table.getD k default).rssi ≤ 127 := by
  have hf := neighbor_find_first s.neighbor_table l2addr k hk hat hfirst
  have hnew : (neighbor_table_update l2addr hdr s).neighbor_table.getD k default =
      { s.neighbor_table.getD k default with
        rssi := toInt8 (Int.tdiv (8 * (s.neighbor_table.getD k default).rssi +
          2 * (-94 + 3 * (hdr.rssi : Int))) 10)
        lqi := ((8 * (s.neighbor_table.getD k default).lqi + 2 * hdr.lqi) / 10) % 256 } := by
    unfold neighbor_table_update
    rw [hf]
    exact nt_getD_set_eq _ _ _ _ (by omega)
  rw [hnew]
  simp only
  obtain ⟨l1, l2, l3, l4, l5⟩ := lqi_average _ _ hold hsample
  obtain ⟨r1, r2, r3, r4⟩ := rssi_average (s.neighbor_table.getD k default).rssi
    (hdr.rssi : Int) hlo hhi (by omega) (by omega)
  rw [l1, toInt8_small _ r3 r4]
  exact ⟨rfl, l2, l3, l4, l5, rfl, r1, r2, r3, r4⟩

/-- Witness of C30: the entry of address 7 holds RSSI -4 and LQI 200; a frame with raw
RSSI 40 and LQI 203 moves the RSSI to `(8*(-4) + 2*26)/10 = 2` and leaves the LQI at 200. -/
theorem C30_moving_average_bounds_witness :
    ((neighbor_table_update 7 { sample_rx_hdr with rssi := 40, lqi := 203 }
        (neighbor_feed [7] init)).neighbor_table.getD 0 default).lqi = 200 ∧
      ((neighbor_table_update 7 { sample_rx_hdr with rssi := 40, lqi := 203 }
        (neighbor_feed [7] init)).neighbor_table.getD 0 default).rssi = 2 := by
  obtain ⟨h1, _, _, _, _, h6, _⟩ :=
    C30_moving_average_bounds (neighbor_feed [7] init) 7
      { sample_rx_hdr with rssi := 40, lqi := 203 } 0 (by decide) (by decide) (by decide)
      (by intro j hj; omega) (by decide) (by decide) (by decide) (by decide) (by decide)
  rw [h1, h6]
  decide

end DutyRouter
